import Mathlib

/-!
# walker: the command line surface and the URL model

A shallow embedding of the `walker` command line (`cmd.go` of package `walker`
and `cmd/cmd.go` of package `cmd`) together with the helpers of its tests.

A command is a sequential program over an explicit state: the `commander`
(or `Cmd`) variable, the process-wide `walker.Config`, and the trace of the
calls the command has made so far.  Calls that leave the repository
(`walker.ReadConfigFile`, `cassandra.NewDatastore`, the URL parser, `os.Create`,
the arrival of SIGINT) are answered by an environment `Env`.  A `go` statement
is recorded as one event at the place where the goroutine is launched.
-/

namespace walker

/-! ## Data model -/

/-- A canonical URL: the components that its string form is made of. The port is
empty when it is elided, the query is the raw query without its question mark. -/
structure URL where
  scheme : String
  host : String
  port : String
  path : String
  query : String
deriving DecidableEq, Repr

/-- The method `String()` of a URL. -/
def URL.string (u : URL) : String :=
  u.scheme ++ "://" ++ u.host ++ (if u.port = "" then "" else ":" ++ u.port)
    ++ u.path ++ (if u.query = "" then "" else "?" ++ u.query)

/-- The part of `walker.Config` that the command line touches. -/
structure Config where
  AddNewDomains : Bool
  UserAgent : String
  PurgeSidList : List String
deriving DecidableEq, Repr

/-- An instant, in nanoseconds since the Unix epoch. -/
structure Time where
  unixNano : Int
deriving DecidableEq, Repr

/-- The sentinel `walker.NotYetCrawled`, the crawl time of a link never fetched. -/
def NotYetCrawled : Time := ⟨0⟩

/-- The method `Equal` of `time.Time`: the two values denote the same instant. -/
def Time.Equal (t u : Time) : Bool := decide (t.unixNano = u.unixNano)

/-- A value of `walker.FetchResults`; the command line only ever passes `nil`. -/
structure FetchResults where
  URL : URL
  FnvFingerprint : Int
deriving DecidableEq, Repr

/-- The values an interface variable of type `walker.Handler` takes here: a
handler set by the embedding binary, or the default of the package. -/
inductive Handler where
  | preset (id : Nat)
  | simplehandler
deriving DecidableEq, Repr

/-- The values of type `walker.Datastore`: a datastore set by the embedding
binary (`finder` tells whether its dynamic type has a `FindLink` method), or the
one that `cassandra.NewDatastore` returns. -/
inductive Datastore where
  | preset (id : Nat) (finder : Bool)
  | cassandra
deriving DecidableEq, Repr

/-- The values of type `walker.Dispatcher`: one set by the embedding binary, or
`&cassandra.Dispatcher{}`. -/
inductive Dispatcher where
  | preset (id : Nat)
  | cassandra
deriving DecidableEq, Repr

/-- The struct `walker.FetchManager` as the commands build it: its two interface
fields, `none` being the nil interface. -/
structure FetchManager where
  Datastore : Option Datastore
  Handler : Option Handler
deriving DecidableEq, Repr

/-- The type `http.Header`; `none` is the nil map. -/
abbrev Header := Option (List (String × List String))

/-- The struct `cassandra.LinkInfo`. -/
structure LinkInfo where
  URL : Option URL
  Status : Int
  CrawlTime : Time
  Error : String
  RobotsExcluded : Bool
  RedirectedTo : String
  GetNow : Bool
  Mime : String
  FnvFingerprint : Int
  Body : String
  Headers : Header
deriving DecidableEq, Repr

/-! ## Streams, events and outcomes -/

/-- Where a `printf`-like function of the commander writes: the two process
streams, or one of the two buffers of `executeInSandbox`. -/
inductive Printer where
  | osStdout
  | osStderr
  | sandboxStdout
  | sandboxStderr
deriving DecidableEq, Repr

/-- The values of `commander.exit`: the wrapper of `os.Exit`, or the closure of
`executeInSandbox` that panics with an `ExitCarrier`. -/
inductive Exiter where
  | osExit
  | sandboxExit
deriving DecidableEq, Repr

/-- What a command does that is visible from outside, in program order. -/
inductive Event where
  | readConfigFile (file : String)
  | goPprofListener
  | newDatastore
  | newFetchManager (m : FetchManager)
  | goManagerStart (m : FetchManager)
  | managerStop (m : FetchManager)
  | goStartDispatcher (d : Dispatcher)
  | stopDispatcher (d : Dispatcher)
  | consoleStart
  | consoleRun
  | signalNotify
  | sigint
  | storeParsedURL (ds : Datastore) (u : URL) (res : Option FetchResults)
  | findLink (ds : Datastore) (u : URL) (collectContent : Bool)
  | write (p : Printer) (text : String)
  | createFile (name : String)
  | writeFile (name : String) (text : String)
  | closeFile (name : String)
deriving DecidableEq, Repr

/-- The value a panic carries. -/
inductive PanicValue where
  | error (msg : String)
  | nilDereference
  | exitCarrier (stat : Int)
deriving DecidableEq, Repr

/-- How the run of a command ends: `Run` returns, the process exits through
`os.Exit`, a panic unwinds out of `Run`, or the command waits for a SIGINT that
never comes. -/
inductive Outcome where
  | returned
  | exited (status : Int)
  | panicked (v : PanicValue)
  | blocked
deriving DecidableEq, Repr

/-- The exit status of the process when a command is the whole of `main`: 0 when
`Run` returns, the argument of `os.Exit`, and 2 when the Go runtime ends the
program on an unrecovered panic. A blocked command has none. -/
def Outcome.status : Outcome → Option Int
  | .returned => some 0
  | .exited n => some n
  | .panicked _ => some 2
  | .blocked => none

/-- The variable `commander` of package `cmd` (and `Cmd` of package `walker`,
which has the first three fields only). -/
structure Commander where
  Handler : Option Handler
  Datastore : Option Datastore
  Dispatcher : Option Dispatcher
  printf : Option Printer
  errorf : Option Printer
  exit : Option Exiter
deriving DecidableEq, Repr

/-- The variables that the flags of the command line are bound to. -/
structure Flags where
  config : String
  noConsole : Bool
  seedURL : String
  outfile : String
  readLinkLink : String
  readLinkBodyOnly : Bool
  readLinkMetaOnly : Bool
deriving DecidableEq, Repr

/-- The answers of everything a command calls outside of this repository's
command files. -/
structure Env where
  /-- The function `walker.ReadConfigFile`: the error it returns, if any, and
  the configuration it leaves behind. -/
  ReadConfigFile : String → Config → Option String × Config
  /-- The value of `os.Getenv("WALKER_PPROF")`. -/
  WALKER_PPROF : String
  /-- The error of `cassandra.NewDatastore()`, if any. -/
  NewDatastore : Option String
  /-- The function `walker.ParseURL`. -/
  ParseURL : String → Except String URL
  /-- The function `walker.ParseAndNormalizeURL`. -/
  ParseAndNormalizeURL : String → Except String URL
  /-- The method `FindLink` of a datastore that has one. -/
  FindLink : Datastore → URL → Bool → Except String (Option LinkInfo)
  /-- Whether a SIGINT reaches the process while it waits for one. -/
  sigintArrives : Bool
  /-- The error of `os.Create`, if any. -/
  osCreate : String → Option String
  /-- The result of `cassandra.GetSchema()`. -/
  GetSchema : String
  /-- The result of `GetCassandraSchema()` of package `walker`. -/
  GetCassandraSchema : Except String String
  /-- The method `String()` of `time.Time`. -/
  timeString : Time → String
  /-- The order in which a `range` loop visits the entries of a header map. -/
  rangeHeader : List (String × List String) → List (String × List String)
  /-- The error that `StartDispatcher` returns inside its goroutine, if any, and
  when: the number of statements of `Run` that have completed after the `go`
  statement (the declaration of `sig` not counted) when the goroutine panics
  with it. -/
  StartDispatcher : Dispatcher → Option (String × Nat)

/-- The state a command runs in. Every event is stored with the configuration
that was current when it happened. -/
structure State where
  commander : Commander
  Config : Config
  trace : List (Event × walker.Config)

/-- The events of a state, in program order. -/
def State.events (s : State) : List Event := s.trace.map Prod.fst

/-- The result of running a piece of a command: it finished with a value, or the
whole command ended there. -/
inductive Res (α : Type) where
  | ok (a : α) (s : State)
  | halt (o : Outcome) (s : State)

/-- A piece of a command. -/
def M (α : Type) : Type := State → Res α

/-- Sequencing: what follows a halted piece does not run. -/
def M.bind {α β : Type} (m : M α) (f : α → M β) : M β := fun s =>
  match m s with
  | .ok a s1 => f a s1
  | .halt o s1 => .halt o s1

instance : Monad M where
  pure a := fun s => .ok a s
  bind := M.bind

/-- Record an event together with the configuration in force. -/
def emit (e : Event) : M Unit := fun s =>
  .ok () { s with trace := s.trace ++ [(e, s.Config)] }

/-- End the command here. -/
def halt {α : Type} (o : Outcome) : M α := fun s => .halt o s

/-- The built-in `panic`. -/
def panic {α : Type} (v : PanicValue) : M α := halt (.panicked v)

/-- Read the commander. -/
def getCommander : M Commander := fun s => .ok s.commander s

/-- Assign to the commander. -/
def setCommander (c : Commander) : M Unit := fun s => .ok () { s with commander := c }

/-- Read `walker.Config`. -/
def getConfig : M Config := fun s => .ok s.Config s

/-- Assign to `walker.Config`. -/
def setConfig (c : Config) : M Unit := fun s => .ok () { s with Config := c }

/-- A function body with one deferred call: the deferred piece runs when the body
returns and when it panics, not when the process exits or blocks inside it. -/
def withDefer {α : Type} (deferred : M Unit) (body : M α) : M α := fun s =>
  match body s with
  | .ok a s1 =>
    match deferred s1 with
    | .ok _ s2 => .ok a s2
    | .halt o s2 => .halt o s2
  | .halt (.panicked v) s1 =>
    match deferred s1 with
    | .ok _ s2 => .halt (.panicked v) s2
    | .halt o s2 => .halt o s2
  | .halt o s1 => .halt o s1

/-- Change the commander. -/
def modifyCommander (f : Commander → Commander) : M Unit := fun s =>
  .ok () { s with commander := f s.commander }

/-- A `range` loop over a slice. -/
def forEach {α : Type} : List α → (α → M Unit) → M Unit
  | [], _ => pure ()
  | x :: xs, f => do
    f x
    forEach xs f

/-- Run a command from a state: the outcome and the final state. -/
def run (m : M Unit) (s : State) : Outcome × State :=
  match m s with
  | .ok _ s1 => (.returned, s1)
  | .halt o s1 => (o, s1)

/-- The statements `signal.Notify(sig, syscall.SIGINT); <-sig`. -/
def awaitSigint (env : Env) : M Unit := do
  emit .signalNotify
  if env.sigintArrives then emit .sigint else halt .blocked

/-- The pieces of a character list between the occurrences of a separator; an
empty input has one empty piece. -/
def splitChars (sep : Char) : List Char → List (List Char)
  | [] => [[]]
  | c :: cs =>
    if c = sep then [] :: splitChars sep cs
    else
      match splitChars sep cs with
      | [] => [[c]]
      | w :: ws => (c :: w) :: ws

/-- The function `strings.Split` for a separator of one character. -/
def stringsSplit (s : String) (sep : Char) : List String :=
  (splitChars sep s.toList).map String.mk

/-- The goroutine `go func() { err := StartDispatcher(); if err != nil {
panic(err.Error()) } }()` of the crawl and dispatch commands, seen from `Run` at a
point where `done` statements have completed after the `go` statement. A panic of
a goroutine that nothing recovers ends the whole process: when the call of the
goroutine returns its error at this point, the command ends here with the panic
that carries it. Without a dispatcher there is no goroutine. -/
def goroutinePanic (env : Env) (d : Option Dispatcher) (done : Nat) : M Unit :=
  match d with
  | none => pure ()
  | some d =>
    match env.StartDispatcher d with
    | some (err, k) => if k = done then panic (.error err) else pure ()
    | none => pure ()

/-- The receive `<-sig` while the goroutine of the dispatcher may run: it completes
when a SIGINT arrives. When none arrives the command does not get past it: a
goroutine whose call returns an error then ends the process with its panic, and
otherwise the command waits for ever. -/
def receiveSigint (env : Env) (d : Option Dispatcher) : M Unit :=
  if env.sigintArrives then emit .sigint
  else
    match d with
    | none => halt .blocked
    | some d =>
      match env.StartDispatcher d with
      | some (err, _) => panic (.error err)
      | none => halt .blocked

/-- The verb `%v` applied to a `*walker.URL`. -/
def fmtURL : Option URL → String
  | none => "<nil>"
  | some u => u.string

/-- The verb `%v` applied to a bool. -/
def fmtBool (b : Bool) : String := if b then "true" else "false"

/-- The verb `%v` applied to an integer. -/
def fmtInt (n : Int) : String := toString n

end walker

/-! ## Package `cmd` (`cmd/cmd.go`) -/

namespace cmd

open walker

/-- The function `fatalf`, applied to the formatted message. -/
def fatalf {α : Type} (msg : String) : M α := do
  emit (.write .osStdout msg)
  emit (.write .osStdout "\n")
  halt (.exited 1)

/-- The function `initCommand`: read the config file when `--config` was given,
start the pprof listener when the environment asks for it. -/
def initCommand (env : Env) (flags : Flags) : M Unit := do
  if flags.config ≠ "" then
    emit (.readConfigFile flags.config)
    let r := env.ReadConfigFile flags.config (← getConfig)
    setConfig r.2
    match r.1 with
    | some err => panic (.error err)
    | none => pure ()
  if env.WALKER_PPROF = "1" then
    emit .goPprofListener

/-- The function `setUpCommanderStreams`. The second branch assigns `printf`, as
the source does. -/
def setUpCommanderStreams : M Unit := do
  if (← getCommander).printf = none then
    modifyCommander fun c => { c with printf := some .osStdout }
  if (← getCommander).errorf = none then
    modifyCommander fun c => { c with printf := some .osStderr }
  if (← getCommander).exit = none then
    modifyCommander fun c => { c with exit := some .osExit }

/-- A call of a function value of type `func(format string, args ...interface{})`
with the formatted text; calling the nil function panics. -/
def callPrinter (f : Option Printer) (text : String) : M Unit :=
  match f with
  | none => panic .nilDereference
  | some p => emit (.write p text)

/-- A call of a function value of type `func(status int)`; neither of its two
values returns. -/
def callExiter {α : Type} (f : Option Exiter) (status : Int) : M α :=
  match f with
  | none => panic .nilDereference
  | some .osExit => halt (.exited status)
  | some .sandboxExit => panic (.exitCarrier status)

/-- The `Run` function of the `crawl` command. -/
def crawlCommand (env : Env) (flags : Flags) : M Unit := do
  initCommand env flags
  (if (← getCommander).Datastore = none then do
    emit .newDatastore
    (match env.NewDatastore with
    | some err => fatalf ("Failed creating Cassandra datastore: " ++ err)
    | none => pure ())
    modifyCommander fun c => { c with Datastore := some .cassandra }
    modifyCommander fun c => { c with Dispatcher := some .cassandra }
  else pure ())
  (if (← getCommander).Handler = none then
    modifyCommander fun c => { c with Handler := some .simplehandler }
  else pure ())
  let c ← getCommander
  let manager : FetchManager := { Datastore := c.Datastore, Handler := c.Handler }
  emit (.newFetchManager manager)
  emit (.goManagerStart manager)
  let goroutine := (← getCommander).Dispatcher
  (match goroutine with
  | some d => emit (.goStartDispatcher d)
  | none => pure ())
  goroutinePanic env goroutine 0
  (if !flags.noConsole then emit .consoleStart else pure ())
  goroutinePanic env goroutine 1
  emit .signalNotify
  goroutinePanic env goroutine 2
  receiveSigint env goroutine
  goroutinePanic env goroutine 3
  (match (← getCommander).Dispatcher with
  | some d => emit (.stopDispatcher d)
  | none => pure ())
  goroutinePanic env goroutine 4
  emit (.managerStop manager)
  goroutinePanic env goroutine 5

/-- The `Run` function of the `fetch` command. -/
def fetchCommand (env : Env) (flags : Flags) : M Unit := do
  initCommand env flags
  if (← getCommander).Datastore = none then
    emit .newDatastore
    match env.NewDatastore with
    | some err => fatalf ("Failed creating Cassandra datastore: " ++ err)
    | none => pure ()
    modifyCommander fun c => { c with Datastore := some .cassandra }
    modifyCommander fun c => { c with Dispatcher := some .cassandra }
  if (← getCommander).Handler = none then
    modifyCommander fun c => { c with Handler := some .simplehandler }
  let c ← getCommander
  let manager : FetchManager := { Datastore := c.Datastore, Handler := c.Handler }
  emit (.newFetchManager manager)
  emit (.goManagerStart manager)
  awaitSigint env
  emit (.managerStop manager)

/-- The `Run` function of the `dispatch` command. -/
def dispatchCommand (env : Env) (flags : Flags) : M Unit := do
  initCommand env flags
  (if (← getCommander).Dispatcher = none then
    modifyCommander fun c => { c with Dispatcher := some .cassandra }
  else pure ())
  let goroutine := (← getCommander).Dispatcher
  (match goroutine with
  | some d => emit (.goStartDispatcher d)
  | none => panic .nilDereference)
  goroutinePanic env goroutine 0
  emit .signalNotify
  goroutinePanic env goroutine 1
  receiveSigint env goroutine
  goroutinePanic env goroutine 2
  (match (← getCommander).Dispatcher with
  | some d => emit (.stopDispatcher d)
  | none => panic .nilDereference)
  goroutinePanic env goroutine 3

/-- The `Run` function of the `seed` command. -/
def seedCommand (env : Env) (flags : Flags) : M Unit := do
  initCommand env flags
  let orig := (← getConfig).AddNewDomains
  withDefer (do setConfig { (← getConfig) with AddNewDomains := orig }) do
    setConfig { (← getConfig) with AddNewDomains := true }
    if flags.seedURL = "" then
      fatalf "Seed URL needed to execute; add on with --url/-u"
    let u ← match env.ParseAndNormalizeURL flags.seedURL with
      | .error err => fatalf ("Could not parse " ++ flags.seedURL ++ " as a url: " ++ err)
      | .ok u => pure u
    if (← getCommander).Datastore = none then
      emit .newDatastore
      match env.NewDatastore with
      | some err => fatalf ("Failed creating Cassandra datastore: " ++ err)
      | none => pure ()
      modifyCommander fun c => { c with Datastore := some .cassandra }
    match (← getCommander).Datastore with
    | some ds => emit (.storeParsedURL ds u none)
    | none => panic .nilDereference

/-- The `Run` function of the `schema` command. -/
def schemaCommand (env : Env) (flags : Flags) : M Unit := do
  initCommand env flags
  if flags.outfile = "" then
    fatalf "An output file is needed to execute; add with --out/-o"
  emit (.createFile flags.outfile)
  match env.osCreate flags.outfile with
  | some err => panic (.error err)
  | none => pure ()
  withDefer (emit (.closeFile flags.outfile)) do
    let schema := env.GetSchema
    emit (.writeFile flags.outfile schema)

/-- The `Run` function of the `console` command. -/
def consoleCommand (env : Env) (flags : Flags) : M Unit := do
  initCommand env flags
  emit .consoleRun

/-- The value of the inner variable `estring` of the readlink command once its
loop has run: the variable is declared anew inside the `if` block, so the outer
one never receives it. -/
def shadowedEstring (err : String) : String :=
  (stringsSplit err '\n').foldl (fun acc l => acc ++ ("    " ++ l ++ "\n")) "\n"

/-- Whether the dynamic type of a datastore has the method `FindLink`. -/
def isFinder : Datastore → Bool
  | .preset _ finder => finder
  | .cassandra => true

/-- The `Run` function of the `readlink` command. An `if` statement without an
`else` is written with its empty `else` branch, and a statement that computes a
value is a term in brackets. -/
def readLinkCommand (env : Env) (flags : Flags) : M Unit := do
  setUpCommanderStreams
  let printf := callPrinter (← getCommander).printf
  let errorf := callPrinter (← getCommander).errorf
  let exit := (← getCommander).exit
  initCommand env flags
  (if flags.readLinkLink = "" then do
    errorf "Failed to specify link to read; add --url/-u to your call\n"
    callExiter exit 1
  else pure ())
  (if flags.readLinkBodyOnly && flags.readLinkMetaOnly then do
    errorf "Can't specify both --body-only/-b AND --meta-only/-m\n"
    callExiter exit 1
  else pure ())
  let ds : Datastore ← (match (← getCommander).Datastore with
    | none => do
      emit .newDatastore
      match env.NewDatastore with
      | some err => do
        errorf ("Failed creating Cassandra datastore: " ++ err ++ "\n")
        callExiter exit 1
      | none => pure Datastore.cassandra
    | some d =>
      if isFinder d then pure d
      else do
        errorf "Tried to use pre-configured datastore, but it wasn't a Finder\n"
        callExiter exit 1)
  let u ← (match env.ParseURL flags.readLinkLink with
    | .error err => do
      errorf ("Failed to parse link " ++ flags.readLinkLink ++ ": " ++ err ++ "\n")
      callExiter exit 1
    | .ok u => pure u)
  emit (.findLink ds u true)
  let linfo ← (match env.FindLink ds u true with
    | .error err => do
      errorf ("Failed FindLink: " ++ err ++ "\n")
      callExiter exit 1
    | .ok none => do
      errorf ("Failed to find link " ++ flags.readLinkLink ++ " in datastore\n")
      callExiter exit 1
    | .ok (some linfo) => pure linfo)
  (if linfo.CrawlTime.Equal NotYetCrawled then do
    printf ("Link " ++ flags.readLinkLink ++ " is present, but has not yet been fetched\n")
    callExiter exit 0
  else pure ())
  (if !flags.readLinkBodyOnly then do
    let estring := "\n"
    let _estring := if linfo.Error ≠ "" then shadowedEstring linfo.Error else estring
    printf ("Url:            " ++ fmtURL linfo.URL ++ "\n")
    printf ("HttpStatus:     " ++ fmtInt linfo.Status ++ "\n")
    printf ("CrawlTime:      " ++ env.timeString linfo.CrawlTime ++ "\n")
    printf ("Error:          " ++ estring)
    printf ("RobotsExcluded: " ++ fmtBool linfo.RobotsExcluded ++ "\n")
    printf ("RedirectedTo:   " ++ linfo.RedirectedTo ++ "\n")
    printf ("GetNow:         " ++ fmtBool linfo.GetNow ++ "\n")
    printf ("Mime:           " ++ linfo.Mime ++ "\n")
    printf ("FnvFingerprint: " ++ fmtInt linfo.FnvFingerprint ++ "\n")
    match linfo.Headers with
    | none => printf "HEADERS:        <none>\n"
    | some hs => do
      printf "HEADERS:\n"
      forEach (env.rangeHeader hs) fun kvs =>
        forEach kvs.2 fun v => printf ("    " ++ kvs.1 ++ ": " ++ v ++ "\n")
  else pure ())
  (if !flags.readLinkMetaOnly then
    if !flags.readLinkBodyOnly then
      if linfo.Body = "" then
        printf "BODY:           <none>\n"
      else
        printf ("BODY:\n" ++ linfo.Body ++ "\n")
    else
      printf (linfo.Body ++ "\n")
  else pure ())
  callExiter exit 0

/-- The subcommands of `walker`. -/
inductive Command where
  | crawl
  | fetch
  | dispatch
  | seed
  | schema
  | console
  | readlink
deriving DecidableEq, Repr

/-- The function `Execute`: run the command that the command line names, with
the flag variables as the command line set them. -/
def Execute (env : Env) (command : Command) (flags : Flags) : M Unit :=
  match command with
  | .crawl => crawlCommand env flags
  | .fetch => fetchCommand env flags
  | .dispatch => dispatchCommand env flags
  | .seed => seedCommand env flags
  | .schema => schemaCommand env flags
  | .console => consoleCommand env flags
  | .readlink => readLinkCommand env flags

end cmd

/-! ## Package `walker` (`cmd.go`): the variable `Cmd` and its commands -/

namespace walker.Cmd

open walker

/-- The function `fatalf` of package `walker`, applied to the formatted message. -/
def fatalf {α : Type} (msg : String) : M α := do
  emit (.write .osStdout msg)
  emit (.write .osStdout "\n")
  halt (.exited 1)

/-- The closure `readConfig`: read the config file when `--config` was given. -/
def readConfig (env : Env) (flags : Flags) : M Unit := do
  if flags.config ≠ "" then
    emit (.readConfigFile flags.config)
    let r := env.ReadConfigFile flags.config (← getConfig)
    setConfig r.2
    match r.1 with
    | some err => panic (.error err)
    | none => pure ()

/-- The `Run` function of the `crawl` command. -/
def crawlCommand (env : Env) (flags : Flags) : M Unit := do
  readConfig env flags
  (if (← getCommander).Datastore = none then do
    emit .newDatastore
    (match env.NewDatastore with
    | some err => fatalf ("Failed creating Cassandra datastore: " ++ err)
    | none => pure ())
    modifyCommander fun c => { c with Datastore := some .cassandra }
    modifyCommander fun c => { c with Dispatcher := some .cassandra }
  else pure ())
  (if (← getCommander).Handler = none then
    modifyCommander fun c => { c with Handler := some .simplehandler }
  else pure ())
  let c ← getCommander
  let manager : FetchManager := { Datastore := c.Datastore, Handler := c.Handler }
  emit (.newFetchManager manager)
  emit (.goManagerStart manager)
  let goroutine := (← getCommander).Dispatcher
  (match goroutine with
  | some d => emit (.goStartDispatcher d)
  | none => pure ())
  goroutinePanic env goroutine 0
  (if !flags.noConsole then emit .consoleStart else pure ())
  goroutinePanic env goroutine 1
  emit .signalNotify
  goroutinePanic env goroutine 2
  receiveSigint env goroutine
  goroutinePanic env goroutine 3
  (match (← getCommander).Dispatcher with
  | some d => emit (.stopDispatcher d)
  | none => pure ())
  goroutinePanic env goroutine 4
  emit (.managerStop manager)
  goroutinePanic env goroutine 5

/-- The `Run` function of the `fetch` command. -/
def fetchCommand (env : Env) (flags : Flags) : M Unit := do
  readConfig env flags
  if (← getCommander).Datastore = none then
    emit .newDatastore
    match env.NewDatastore with
    | some err => fatalf ("Failed creating Cassandra datastore: " ++ err)
    | none => pure ()
    modifyCommander fun c => { c with Datastore := some .cassandra }
    modifyCommander fun c => { c with Dispatcher := some .cassandra }
  if (← getCommander).Handler = none then
    modifyCommander fun c => { c with Handler := some .simplehandler }
  let c ← getCommander
  let manager : FetchManager := { Datastore := c.Datastore, Handler := c.Handler }
  emit (.newFetchManager manager)
  emit (.goManagerStart manager)
  awaitSigint env
  emit (.managerStop manager)

/-- The `Run` function of the `dispatch` command. -/
def dispatchCommand (env : Env) (flags : Flags) : M Unit := do
  readConfig env flags
  (if (← getCommander).Dispatcher = none then
    modifyCommander fun c => { c with Dispatcher := some .cassandra }
  else pure ())
  let goroutine := (← getCommander).Dispatcher
  (match goroutine with
  | some d => emit (.goStartDispatcher d)
  | none => panic .nilDereference)
  goroutinePanic env goroutine 0
  emit .signalNotify
  goroutinePanic env goroutine 1
  receiveSigint env goroutine
  goroutinePanic env goroutine 2
  (match (← getCommander).Dispatcher with
  | some d => emit (.stopDispatcher d)
  | none => panic .nilDereference)
  goroutinePanic env goroutine 3

/-- The `Run` function of the `seed` command. -/
def seedCommand (env : Env) (flags : Flags) : M Unit := do
  readConfig env flags
  let orig := (← getConfig).AddNewDomains
  withDefer (do setConfig { (← getConfig) with AddNewDomains := orig }) do
    setConfig { (← getConfig) with AddNewDomains := true }
    if flags.seedURL = "" then
      fatalf "Seed URL needed to execute; add on with --url/-u"
    let u ← match env.ParseURL flags.seedURL with
      | .error err => fatalf ("Could not parse " ++ flags.seedURL ++ " as a url: " ++ err)
      | .ok u => pure u
    if (← getCommander).Datastore = none then
      emit .newDatastore
      match env.NewDatastore with
      | some err => fatalf ("Failed creating Cassandra datastore: " ++ err)
      | none => pure ()
      modifyCommander fun c => { c with Datastore := some .cassandra }
    match (← getCommander).Datastore with
    | some ds => emit (.storeParsedURL ds u none)
    | none => panic .nilDereference

/-- The `Run` function of the `schema` command. -/
def schemaCommand (env : Env) (flags : Flags) : M Unit := do
  readConfig env flags
  if flags.outfile = "" then
    fatalf "An output file is needed to execute; add with --out/-o"
  emit (.createFile flags.outfile)
  match env.osCreate flags.outfile with
  | some err => panic (.error err)
  | none => pure ()
  withDefer (emit (.closeFile flags.outfile)) do
    let schema ← match env.GetCassandraSchema with
      | .error err => panic (.error err)
      | .ok schema => pure schema
    emit (.writeFile flags.outfile schema)

end walker.Cmd

/-! ## Observations on a run -/

namespace walker

/-- The state a command starts from: a commander, a configuration, nothing done
yet. -/
def State.init (c : Commander) (cfg : walker.Config) : State :=
  { commander := c, Config := cfg, trace := [] }

/-- Whether an event is the launch or the stop of a dispatcher. -/
def Event.isDispatcherCall : Event → Bool
  | .goStartDispatcher _ => true
  | .stopDispatcher _ => true
  | _ => false

/-- Whether an event is a method call on a datastore (`cassandra.NewDatastore`
is a constructor, not a method). -/
def Event.isDatastoreCall : Event → Bool
  | .storeParsedURL _ _ _ => true
  | .findLink _ _ _ => true
  | _ => false

/-- Whether an event builds a `FetchManager` or calls one of its methods; the
handler is only ever reached through a manager. -/
def Event.isManagerCall : Event → Bool
  | .newFetchManager _ => true
  | .goManagerStart _ => true
  | .managerStop _ => true
  | _ => false

/-- Whether an event concerns a datastore, a dispatcher, a handler or a fetch
manager at all, the creation of the default datastore included. -/
def Event.isComponentCall (e : Event) : Bool :=
  e.isDispatcherCall || e.isDatastoreCall || e.isManagerCall || decide (e = .newDatastore)

/-- Whether an event is a call of `StoreParsedURL`. -/
def Event.isStoreParsedURL : Event → Bool
  | .storeParsedURL _ _ _ => true
  | _ => false

/-- Whether an event is the reading of a config file. -/
def Event.isReadConfigFile : Event → Bool
  | .readConfigFile _ => true
  | _ => false

/-- The calls of `StoreParsedURL` of a run, each with the configuration that was
in force when it was made. -/
def storeCalls (s : State) : List (Event × walker.Config) :=
  s.trace.filter fun p => p.1.isStoreParsedURL

/-- Whether the configuration step gets through: no `--config`, or a file that
`walker.ReadConfigFile` loads without error. -/
def configLoads (env : Env) (flags : Flags) (cfg : walker.Config) : Bool :=
  decide (flags.config = "") || (env.ReadConfigFile flags.config cfg).1.isNone

/-- The events of `readConfig` (package `walker`) when it gets through. -/
def readConfigEvents (flags : Flags) : List Event :=
  if flags.config = "" then [] else [.readConfigFile flags.config]

/-- The events of `initCommand` (package `cmd`) when it gets through. -/
def initEvents (env : Env) (flags : Flags) : List Event :=
  readConfigEvents flags ++ (if env.WALKER_PPROF = "1" then [.goPprofListener] else [])

/-- The text written to one stream, in order. -/
def written (p : Printer) : List Event → String
  | [] => ""
  | .write q text :: es => if q = p then text ++ written p es else written p es
  | _ :: es => written p es

end walker

/-! ## URL normalization -/

namespace walker

/-- Cut a character list at the first occurrence of a separator: what precedes it
and, when the separator occurs, what follows it. -/
def cutAt (sep : Char) : List Char → List Char × Option (List Char)
  | [] => ([], none)
  | c :: cs =>
    if c = sep then ([], some cs)
    else ((c :: (cutAt sep cs).1), (cutAt sep cs).2)

/-- Join pieces with a separator between them. -/
def joinWith (sep : Char) : List (List Char) → List Char
  | [] => []
  | [x] => x
  | x :: y :: rest => x ++ sep :: joinWith sep (y :: rest)

/-- ASCII lowercasing of a character list. -/
def asciiLower (cs : List Char) : List Char := cs.map Char.toLower

/-- The name of a parameter `name=value` (or `name`). -/
def paramName (p : List Char) : List Char := (cutAt '=' p).1

/-- Modelled from the spec: the parser `walker.ParseURL` is not among the sources.
Rule 6 of §4.1, "remove from both path parameters (`;name=value`) and query
string, case-insensitive": a parameter is a session identifier when its name
equals, ignoring case, a name of the configured list. -/
def isSessionId (sids : List String) (p : List Char) : Bool :=
  (sids.map fun s => asciiLower s.toList).contains (asciiLower (paramName p))

/-- Modelled from the spec: the parser `walker.ParseURL` is not among the sources.
A path segment `name;p1;p2` without its session-identifier parameters. -/
def stripSegment (sids : List String) (seg : List Char) : List Char :=
  match splitChars ';' seg with
  | [] => []
  | name :: params => joinWith ';' (name :: params.filter fun p => !isSessionId sids p)

/-- Modelled from the spec: the parser `walker.ParseURL` is not among the sources.
Rules 6 and 8 of §4.1 for the path: `/` for the empty path, otherwise every
segment without its session-identifier parameters. -/
def normalizePath (sids : List String) (path : List Char) : List Char :=
  if path = [] then ['/']
  else joinWith '/' ((splitChars '/' path).map (stripSegment sids))

/-- Lexicographic order on keys, by code point. -/
def keyLe : List Char → List Char → Bool
  | [], _ => true
  | _ :: _, [] => false
  | a :: as, b :: bs =>
    if a.toNat < b.toNat then true
    else if a.toNat = b.toNat then keyLe as bs
    else false

/-- The order of query parameters: by key. -/
def paramLe (p q : List Char) : Prop := keyLe (paramName p) (paramName q) = true

instance : DecidableRel paramLe := fun p q =>
  inferInstanceAs (Decidable (keyLe (paramName p) (paramName q) = true))

/-- The parameters of a raw query, which `&` separates; the empty query has none. -/
def queryParams (q : List Char) : List (List Char) :=
  if q = [] then [] else splitChars '&' q

/-- Modelled from the spec: the parser `walker.ParseURL` is not among the sources.
Rules 6 and 7 of §4.1 for the query: drop the session identifiers, then sort the
remaining parameters by key with a stable sort, so that the values of a repeated
key keep their order. -/
def normalizeQuery (sids : List String) (q : List Char) : List Char :=
  joinWith '&' (((queryParams q).filter fun p => !isSessionId sids p).insertionSort paramLe)

/-- Modelled from the spec: the parser `walker.ParseURL` is not among the sources.
Rule 3 of §4.1, "Punycode IDN hosts": a host of ASCII characters is kept, any
other host goes through the IDNA encoder, which is a parameter. -/
def idnHost (toASCII : List Char → List Char) (host : List Char) : List Char :=
  if host.all (fun c => decide (c.toNat < 128)) then host else toASCII host

/-- Modelled from the spec: the IDNA encoder behind rule 3 of §4.1 ("Punycode IDN
hosts") is not among the sources. The characters of a host in its ASCII form are
lowercase letters, digits, the hyphen and the dot. -/
def isHostChar (c : Char) : Bool :=
  decide ((97 ≤ c.toNat ∧ c.toNat ≤ 122) ∨ (48 ≤ c.toNat ∧ c.toNat ≤ 57) ∨ c = '-' ∨ c = '.')

/-- Modelled from the spec: the parser `walker.ParseURL` is not among the sources.
Rule 4 of §4.1, "Drop default ports (80/http, 443/https)". -/
def keepPort (scheme port : List Char) : List Char :=
  if (scheme = "http".toList ∧ port = "80".toList)
      ∨ (scheme = "https".toList ∧ port = "443".toList) then []
  else port

/-- Modelled from the spec: the parser `walker.ParseURL` (`parse` in §4.1) is not
among the sources. Rules 1 to 8 of §4.1 in order: an absolute URI
`scheme://host[:port][path][?query][#fragment]` whose scheme is http or https in
any case; scheme and host lowercased; the IDN step; the default port dropped; the
fragment dropped; session identifiers stripped from path and query; the query
sorted by key; the empty path replaced by `/`. Rule 9 concerns references that
are resolved against a base and has no part in parsing an absolute URL. -/
def ParseURL (toASCII : List Char → List Char) (sids : List String) (input : String) :
    Except String URL :=
  let noFragment := (cutAt '#' input.toList).1
  let beforeQuery := (cutAt '?' noFragment).1
  let query := ((cutAt '?' noFragment).2).getD []
  match cutAt ':' beforeQuery with
  | (_, none) => .error "missing protocol scheme"
  | (sch, some rest) =>
    if asciiLower sch = "http".toList ∨ asciiLower sch = "https".toList then
      match rest with
      | '/' :: '/' :: hostAndPath =>
        let authority := hostAndPath.takeWhile (· ≠ '/')
        let path := hostAndPath.dropWhile (· ≠ '/')
        let host := (cutAt ':' authority).1
        let port := ((cutAt ':' authority).2).getD []
        if host = [] then .error "missing host"
        else
          .ok
            { scheme := String.mk (asciiLower sch)
              host := String.mk (idnHost toASCII (asciiLower host))
              port := String.mk (keepPort (asciiLower sch) port)
              path := String.mk (normalizePath sids path)
              query := String.mk (normalizeQuery sids query) }
      | _ => .error "not an absolute URL"
    else .error "unsupported protocol scheme"

end walker

/-! ## The test helpers of package `cmd` (`cmd/cmd_test.go`) -/

namespace cmd

open walker

/-- The verb `%v` applied to the value of a panic. -/
def fmtPanic : PanicValue → String
  | .error msg => msg
  | .nilDereference => "runtime error: invalid memory address or nil pointer dereference"
  | .exitCarrier stat => "&\x7b" ++ fmtInt stat ++ "\x7d"

/-- How a call of `executeInSandbox` ends: it returns its three results, or the
process ends (or blocks, or a panic goes on) inside it. -/
inductive SandboxResult where
  | returned (out : String) (err : String) (status : Int)
  | aborted (o : Outcome)
deriving DecidableEq, Repr

/-- The function `executeInSandbox`: install the two buffers and the panicking
exit, run `Execute`, and in the deferred function read the buffers, recover an
`ExitCarrier` into the status (any other panic is passed on, before the streams
are restored) and put the three function values back. -/
def executeInSandbox (env : Env) (command : Command) (flags : Flags) (s : State) :
    SandboxResult × State :=
  let origPf := s.commander.printf
  let origEf := s.commander.errorf
  let origEx := s.commander.exit
  let s0 : State :=
    { s with
      commander :=
        { s.commander with
          printf := some .sandboxStdout
          errorf := some .sandboxStderr
          exit := some .sandboxExit } }
  let r := run (Execute env command flags) s0
  let fresh := (r.2.trace.drop s.trace.length).map Prod.fst
  let out := written .sandboxStdout fresh
  let err := written .sandboxStderr fresh
  let restored : State :=
    { r.2 with
      commander :=
        { r.2.commander with printf := origPf, errorf := origEf, exit := origEx } }
  match r.1 with
  | .returned => (.returned out err (-1), restored)
  | .panicked (.exitCarrier stat) => (.returned out err stat, restored)
  | .panicked v =>
    (.aborted (.panicked (.error ("Unexpected exception in executeInSandbox:\n" ++ fmtPanic v))),
      r.2)
  | .exited n => (.aborted (.exited n), r.2)
  | .blocked => (.aborted .blocked, r.2)

end cmd

/-! ## The course of `readlink` in closed form -/

namespace walker

/-- The state after a configuration step of package `cmd` that gets through: the
configuration that `walker.ReadConfigFile` left, and the events of the step. -/
def afterInit (env : Env) (flags : Flags) (s : State) : State :=
  { s with
    Config := if flags.config = "" then s.Config
      else (env.ReadConfigFile flags.config s.Config).2
    trace := s.trace
      ++ (if flags.config = "" then [] else [(Event.readConfigFile flags.config, s.Config)])
      ++ (if env.WALKER_PPROF = "1" then
            [(Event.goPprofListener,
              if flags.config = "" then s.Config
              else (env.ReadConfigFile flags.config s.Config).2)]
          else []) }

/-- The state after further events under an unchanged configuration. -/
def State.record (s : State) (evs : List Event) : State :=
  { s with trace := s.trace ++ evs.map fun e => (e, s.Config) }

/-- A piece that, run with commander `c`, records `evs` and finishes with `a`. -/
def Steps {α : Type} (c : Commander) (m : M α) (evs : List Event) (a : α) : Prop :=
  ∀ s : State, s.commander = c → m s = .ok a (s.record evs)

/-- A piece that, run with commander `c`, records `r.1` and ends the command with
outcome `r.2`. -/
def Ends {α : Type} (c : Commander) (m : M α) (r : List Event × Outcome) : Prop :=
  ∀ s : State, s.commander = c → m s = .halt r.2 (s.record r.1)

/-- One more event in front of the events of `r`. -/
def following (e : Event) (r : List Event × Outcome) : List Event × Outcome :=
  (e :: r.1, r.2)

/-- The outcome of calling an exit function. -/
def exitOutcome : Exiter → Int → Outcome
  | .osExit, status => .exited status
  | .sandboxExit, status => .panicked (.exitCarrier status)

/-- A message through a printing function that may be nil, then the exit
function. -/
def sayAndExit (f : Option Printer) (x : Exiter) (text : String) (status : Int) :
    List Event × Outcome :=
  match f with
  | none => ([], .panicked .nilDereference)
  | some p => ([.write p text], exitOutcome x status)

/-- The stream that `printf` is after `cmd.setUpCommanderStreams`. -/
def streamsPrintf (c : Commander) : Printer :=
  if c.errorf = none then .osStderr else c.printf.getD .osStdout

/-- The exit function after `cmd.setUpCommanderStreams`. -/
def streamsExit (c : Commander) : Exiter := c.exit.getD .osExit

/-- The commander after `cmd.setUpCommanderStreams`. -/
def withStreams (c : Commander) : Commander :=
  { c with
    printf := some (streamsPrintf c)
    exit := some (streamsExit c) }

/-- The texts of `readlink` about a crawled link other than its body. -/
def readLinkMetaLines (env : Env) (linfo : LinkInfo) : List String :=
  [ "Url:            " ++ fmtURL linfo.URL ++ "\n",
    "HttpStatus:     " ++ fmtInt linfo.Status ++ "\n",
    "CrawlTime:      " ++ env.timeString linfo.CrawlTime ++ "\n",
    "Error:          " ++ "\n",
    "RobotsExcluded: " ++ fmtBool linfo.RobotsExcluded ++ "\n",
    "RedirectedTo:   " ++ linfo.RedirectedTo ++ "\n",
    "GetNow:         " ++ fmtBool linfo.GetNow ++ "\n",
    "Mime:           " ++ linfo.Mime ++ "\n",
    "FnvFingerprint: " ++ fmtInt linfo.FnvFingerprint ++ "\n" ]
  ++ (match linfo.Headers with
      | none => ["HEADERS:        <none>\n"]
      | some hs => "HEADERS:\n" ::
          ((env.rangeHeader hs).map fun kvs =>
            kvs.2.map fun v => "    " ++ kvs.1 ++ ": " ++ v ++ "\n").flatten)

/-- The text of `readlink` for the body of a crawled link. -/
def readLinkBodyLine (flags : Flags) (linfo : LinkInfo) : String :=
  if flags.readLinkBodyOnly then linfo.Body ++ "\n"
  else if linfo.Body = "" then "BODY:           <none>\n"
  else "BODY:\n" ++ linfo.Body ++ "\n"

/-- The texts that `readlink` prints for a crawled link, in order. -/
def readLinkLines (env : Env) (flags : Flags) (linfo : LinkInfo) : List String :=
  (if flags.readLinkBodyOnly then [] else readLinkMetaLines env linfo)
  ++ (if flags.readLinkMetaOnly then [] else [readLinkBodyLine flags linfo])

/-- What `readlink` does once it has its datastore `ds`: the events and the
outcome. -/
def readLinkLookup (env : Env) (flags : Flags) (ds : Datastore) (p : Printer)
    (e : Option Printer) (x : Exiter) : List Event × Outcome :=
  match env.ParseURL flags.readLinkLink with
  | .error err =>
    sayAndExit e x ("Failed to parse link " ++ flags.readLinkLink ++ ": " ++ err ++ "\n") 1
  | .ok u =>
    following (.findLink ds u true)
      (match env.FindLink ds u true with
      | .error err => sayAndExit e x ("Failed FindLink: " ++ err ++ "\n") 1
      | .ok none =>
        sayAndExit e x ("Failed to find link " ++ flags.readLinkLink ++ " in datastore\n") 1
      | .ok (some linfo) =>
        if linfo.CrawlTime.Equal NotYetCrawled then
          sayAndExit (some p) x
            ("Link " ++ flags.readLinkLink ++ " is present, but has not yet been fetched\n") 0
        else
          ((readLinkLines env flags linfo).map (Event.write p), exitOutcome x 0))

/-- What `readlink` does after its configuration step when it was started with
commander `c`: the events and the outcome. -/
def readLinkScript (env : Env) (flags : Flags) (c : Commander) : List Event × Outcome :=
  let p := streamsPrintf c
  let x := streamsExit c
  if flags.readLinkLink = "" then
    sayAndExit c.errorf x "Failed to specify link to read; add --url/-u to your call\n" 1
  else if flags.readLinkBodyOnly && flags.readLinkMetaOnly then
    sayAndExit c.errorf x "Can't specify both --body-only/-b AND --meta-only/-m\n" 1
  else
    match c.Datastore with
    | none =>
      following .newDatastore
        (match env.NewDatastore with
        | some err =>
          sayAndExit c.errorf x ("Failed creating Cassandra datastore: " ++ err ++ "\n") 1
        | none => readLinkLookup env flags .cassandra p c.errorf x)
    | some d =>
      if cmd.isFinder d then readLinkLookup env flags d p c.errorf x
      else
        sayAndExit c.errorf x
          "Tried to use pre-configured datastore, but it wasn't a Finder\n" 1

/-- The commander with the streams that `cmd.executeInSandbox` installs. -/
def inSandbox (c : Commander) : Commander :=
  { c with
    printf := some .sandboxStdout
    errorf := some .sandboxStderr
    exit := some .sandboxExit }

/-! ## The fetcher (`fetcher.go`) as the spec and its tests describe it -/

/-- The shapes of regular expression that `TestPathInclusion` configures, each with
the text it looks for: `\.mov$` is `ending ".mov"`, `janky` is
`containing "janky"`, and `^\/root$` is `exactly "/root"`. -/
inductive LinkPattern where
  | ending (text : String)
  | containing (text : String)
  | exactly (text : String)
deriving DecidableEq, Repr

/-- Whether a text begins with the given characters. -/
def startsWith : List Char → List Char → Bool
  | [], _ => true
  | _ :: _, [] => false
  | p :: ps, c :: cs => p == c && startsWith ps cs

/-- Whether the given characters occur somewhere in a text. -/
def occursIn (pat : List Char) : List Char → Bool
  | [] => startsWith pat []
  | c :: cs => startsWith pat (c :: cs) || occursIn pat cs

/-- The method `MatchString` of a compiled pattern of one of these shapes. -/
def LinkPattern.matchString : LinkPattern → String → Bool
  | .ending text, s => startsWith text.toList.reverse s.toList.reverse
  | .containing text, s => occursIn text.toList s.toList
  | .exactly text, s => decide (s = text)

/-- Whether some pattern of a list matches. -/
def matchesAny (patterns : List LinkPattern) (s : String) : Bool :=
  patterns.any fun p => p.matchString s

/-- The part of `walker.Config` that `TestMetaNos` and `TestPathInclusion` set. -/
structure FetchConfig where
  HonorMetaNoindex : Bool
  HonorMetaNofollow : Bool
  ExcludeLinkPatterns : List LinkPattern
  IncludeLinkPatterns : List LinkPattern
deriving DecidableEq, Repr

/-- The method `RequestURI` of a URL: the path and, if there is one, the query. -/
def URL.requestURI (u : URL) : String :=
  u.path ++ (if u.query = "" then "" else "?" ++ u.query)

/-- Modelled from the spec: the link filter of the fetcher (`fetcher.go`) is not
among the sources. §4.2 as written: "Exclude takes precedence over include; a URL
that matches any exclude pattern is dropped. If any include patterns exist, a URL
matching none of them is dropped". -/
def specKeepsLink (cfg : FetchConfig) (u : URL) : Bool :=
  !matchesAny cfg.ExcludeLinkPatterns u.path
    && (cfg.IncludeLinkPatterns.isEmpty || matchesAny cfg.IncludeLinkPatterns u.path)

/-- Modelled from the spec: the link filter of the fetcher (`fetcher.go`) is not
among the sources. "Include-patterns and exclude-patterns are applied to the final
canonical URL path" (§4.2), with the precedence that `TestPathInclusion` expects: a
link is kept when no exclude pattern matches its path or some include pattern
does. -/
def keepsLink (cfg : FetchConfig) (u : URL) : Bool :=
  !matchesAny cfg.ExcludeLinkPatterns u.path || matchesAny cfg.IncludeLinkPatterns u.path

/-- A `<meta>` element of a page: its `name` and `content` attributes. -/
structure MetaTag where
  name : String
  content : String
deriving DecidableEq, Repr

/-- The directives of §4.2 that a page gives to robots. -/
structure MetaDirectives where
  noindex : Bool
  nofollow : Bool
deriving DecidableEq, Repr

/-- A character list without the blanks at its two ends. -/
def trimBlanks (cs : List Char) : List Char :=
  ((cs.dropWhile Char.isWhitespace).reverse.dropWhile Char.isWhitespace).reverse

/-- Modelled from the spec: the HTML parser of the fetcher is not among the
sources. The "content tokens (case-insensitive, comma-separated)" of a `<meta>`
element (§4.2), lowercased and without surrounding blanks. -/
def robotsTokens (content : String) : List (List Char) :=
  (splitChars ',' content.toList).map fun t => asciiLower (trimBlanks t)

/-- Modelled from the spec: the HTML parser of the fetcher is not among the
sources. "MetaDirectives reads `<meta name="robots">` content tokens
(case-insensitive, comma-separated): `noindex`, `nofollow`" (§4.2); the name is
compared without regard to case, as `TestMetaNos` writes `ROBOTS`. -/
def metaDirectives (metas : List MetaTag) : MetaDirectives :=
  let tokens := ((metas.filter fun m => asciiLower m.name.toList = "robots".toList).map
    fun m => robotsTokens m.content).flatten
  { noindex := tokens.contains "noindex".toList
    nofollow := tokens.contains "nofollow".toList }

/-- A fetched page as the fetcher sees it: the link it was fetched for, its
`<meta>` elements, and its outgoing links, resolved and normalized (§4.1). -/
structure Page where
  link : URL
  metas : List MetaTag
  links : List URL
deriving DecidableEq, Repr

/-- The calls that the fetcher makes for a page, on the datastore and on the
handler. -/
inductive FetcherCall where
  | storeParsedURL (link : URL) (source : URL)
  | storeURLFetchResults (source : URL)
  | handleResponse (source : URL)
deriving DecidableEq, Repr

/-- Whether a call is a `StoreParsedURL`. -/
def FetcherCall.isStoreParsedURL : FetcherCall → Bool
  | .storeParsedURL _ _ => true
  | _ => false

/-- Modelled from the spec: `extractLinks` of §4.2 (`fetcher.go` is not among the
sources). "If `nofollow` is set and honored by config, the returned links list is
empty"; otherwise the links that the filter keeps, in page order. -/
def extractLinks (cfg : FetchConfig) (page : Page) : List URL × MetaDirectives :=
  let directives := metaDirectives page.metas
  (if directives.nofollow && cfg.HonorMetaNofollow then []
    else page.links.filter (keepsLink cfg), directives)

/-- Modelled from the spec: what the fetcher does with a page it fetched with
success (`fetcher.go` is not among the sources). §4.4, step 6: "parse links
(§4.2), call `storeParsedURL(link, result)` for each extracted link, call
`storeURLFetchResults(result)`, call `handler.handleResponse(result)`", and §8:
with `noindex` honored the handler is not called but `storeURLFetchResults` is. -/
def processPage (cfg : FetchConfig) (page : Page) : List FetcherCall :=
  let extracted := extractLinks cfg page
  (extracted.1.map fun l => FetcherCall.storeParsedURL l page.link)
    ++ [.storeURLFetchResults page.link]
    ++ (if extracted.2.noindex && cfg.HonorMetaNoindex then []
        else [.handleResponse page.link])

/-- The paths of the `StoreParsedURL` calls among the calls, as the tests read
them with `RequestURI`. -/
def storedPaths : List FetcherCall → List String
  | [] => []
  | .storeParsedURL l _ :: cs => l.requestURI :: storedPaths cs
  | _ :: cs => storedPaths cs

/-- The links that handler calls were made for. -/
def handledLinks : List FetcherCall → List String
  | [] => []
  | .handleResponse src :: cs => src.string :: handledLinks cs
  | _ :: cs => handledLinks cs

/-- A millisecond of `time.Duration`, in nanoseconds. -/
def millisecond : Nat := 1000000

/-- A second of `time.Duration`, in nanoseconds. -/
def second : Nat := 1000 * millisecond

/-- Modelled from the spec: the robots policy of the fetcher (`fetcher.go`) is not
among the sources. §4.3: "The effective crawl-delay is
`max(configured-default, robots-delay)` clamped to `max-crawl-delay`". Durations
are in nanoseconds. -/
def effectiveCrawlDelay (defaultDelay robotsDelay maxDelay : Nat) : Nat :=
  min (max defaultDelay robotsDelay) maxDelay

/-- Modelled from the spec: the page loop of the host fetcher (`fetcher.go`) is
not among the sources. §4.4: "within a single host, requests are strictly
serialized", and step 7: "sleep for the host's effective crawl-delay measured from
the start of the previous request to this host". The instants at which the
requests for the links of a host end, when the first one starts at `now` and the
requests take the given durations. -/
def fetchEnds (delay : Nat) : Nat → List Nat → List Nat
  | _, [] => []
  | now, d :: ds => (now + d) :: fetchEnds delay (max (now + d) (now + delay)) ds

/-- What a server answers to a request: a redirect with its `Location`, or any
other response with its body. -/
inductive Response where
  | redirect (status : Nat) (location : String)
  | final (status : Nat) (body : List Nat)
deriving DecidableEq, Repr

/-- The offset basis of the 64-bit FNV hashes (`offset64` of `hash/fnv`). -/
def fnvOffset64 : Nat := 14695981039346656037

/-- The prime of the 64-bit FNV hashes (`prime64` of `hash/fnv`). -/
def fnvPrime64 : Nat := 1099511628211

/-- The hash that `fnv.New64()` computes, as `TestFnvFingerprint` uses it: FNV-1,
for every byte a multiplication modulo `2^64` and then an exclusive or. -/
def fnv64 (data : List Nat) : Nat :=
  data.foldl (fun hash b => ((hash * fnvPrime64) % 2 ^ 64) ^^^ (b % 256)) fnvOffset64

/-- The conversion `int64(x)` of a `uint64`: two's complement. -/
def int64 (x : Nat) : Int :=
  if x % 2 ^ 64 < 2 ^ 63 then ((x % 2 ^ 64 : Nat) : Int) else ((x % 2 ^ 64 : Nat) : Int) - 2 ^ 64

/-- The conversion `[]byte(s)`: the UTF-8 encoding of a string. -/
def bytesOf (s : String) : List Nat :=
  (s.toList.map fun c => (String.utf8EncodeChar c).map UInt8.toNat).flatten

/-- The fields of `walker.FetchResults` that `TestRedirects` and
`TestFnvFingerprint` read, and the response they come from. -/
structure FetchRecord where
  URL : String
  RedirectedFrom : List String
  Status : Nat
  Body : List Nat
  FnvFingerprint : Int
deriving DecidableEq, Repr

/-- Modelled from the spec: the request loop of the fetcher (`fetcher.go`) is not
among the sources. §4.4, step 5: "Redirects are followed up to a configured limit;
each intermediate URL is recorded in the result's `redirected-from` chain". The
URLs redirected to, in order, and the response that ends the chain; nothing when
the limit is exceeded. -/
def followRedirects (respond : String → Response) :
    Nat → String → List String → Option (List String × Nat × List Nat)
  | limit, current, chain =>
    match respond current, limit with
    | .final status body, _ => some (chain, status, body)
    | .redirect _ _, 0 => none
    | .redirect _ location, n + 1 => followRedirects respond n location (chain ++ [location])

/-- Modelled from the spec: the fetch of one link (`fetcher.go` is not among the
sources). §8, scenario 4: "The result for the fetch has final URL = original
request URL A, with `redirected-from = [B, C]` (recorded intermediates), body from
C"; §4.4, step 6, and §8, scenario 6: the fingerprint is the FNV-64 hash of the
received bytes "interpreted as signed 64-bit". -/
def fetchLink (respond : String → Response) (limit : Nat) (link : String) :
    Option FetchRecord :=
  (followRedirects respond limit link []).map fun r =>
    { URL := link
      RedirectedFrom := r.1
      Status := r.2.1
      Body := r.2.2
      FnvFingerprint := int64 (fnv64 r.2.2) }

/-- A chain of redirects from a link through the given URLs, the last of which
answers with something other than a redirect. -/
def RedirectChain (respond : String → Response) : String → List String → Prop
  | a, [] => ∃ status body, respond a = .final status body
  | a, b :: rest => (∃ status, respond a = .redirect status b) ∧ RedirectChain respond b rest

/-- The texts of a list one after the other. -/
def concatLines : List String → String
  | [] => ""
  | l :: ls => l ++ concatLines ls

/-- An environment that differs from `env` only in the `Error` field of the records
that `FindLink` returns, which is `g` of the record. -/
def withStoredError (env : Env) (g : LinkInfo → String) : Env :=
  { env with
    FindLink := fun ds u collect =>
      match env.FindLink ds u collect with
      | .ok (some linfo) => .ok (some { linfo with Error := g linfo })
      | r => r }

/-- A piece of a command that, when it ends the command by a call of the exit
function of the sandbox, passes it the status 0 or 1. -/
def ExitsZeroOrOne {α : Type} (m : M α) : Prop :=
  ∀ s o s1, m s = .halt o s1 → ∀ n : Int, o = .panicked (.exitCarrier n) → n = 0 ∨ n = 1

/-! ## The comparison of long strings in the tests of `cmd` -/

/-- The function `unicode.IsSpace` of the Go library: the white space of Latin-1
(`\t`, `\n`, `\v`, `\f`, `\r`, space, U+0085, U+00A0) and the characters with the
Unicode property White_Space. -/
def unicodeIsSpace (c : Char) : Bool :=
  c = '\t' || c = '\n' || c.toNat = 0x0B || c.toNat = 0x0C || c = '\r' || c = ' '
    || c.toNat = 0x85 || c.toNat = 0xA0 || c.toNat = 0x1680
    || (0x2000 ≤ c.toNat && c.toNat ≤ 0x200A)
    || c.toNat = 0x2028 || c.toNat = 0x2029 || c.toNat = 0x202F || c.toNat = 0x205F
    || c.toNat = 0x3000

/-- The function `strings.TrimSpace`: the string without its leading and trailing
white space. -/
def stringsTrimSpace (s : String) : String :=
  String.mk ((s.toList.dropWhile unicodeIsSpace).reverse.dropWhile unicodeIsSpace).reverse

/-- The loop `for i := 0; ; i++ { ... }` of `compareLongString` from the index `i`
on, over the lines `left` and `right`; one unit of fuel per iteration. The result
is the triple `(match, leftLine, rightLine)`, whose strings are empty where the
function does not assign them. -/
def compareLongStringLoop (left right : List String) :
    Nat → Nat → Option (Bool × String × String)
  | 0, _ => none
  | fuel + 1, i =>
    if left.length ≤ i ∧ right.length ≤ i then some (true, "", "")
    else if left.length ≤ i then some (false, "<<<no data>>>", right.getD i "")
    else if right.length ≤ i then some (false, left.getD i "", "<<<no data>>>")
    else if stringsTrimSpace (left.getD i "") ≠ stringsTrimSpace (right.getD i "") then
      some (false, left.getD i "", right.getD i "")
    else compareLongStringLoop left right fuel (i + 1)

/-- The function `compareLongString` of `cmd_test.go`, with the number of
iterations its loop may take. -/
def compareLongString (fuel : Nat) (leftStr rightStr : String) :
    Option (Bool × String × String) :=
  compareLongStringLoop (stringsSplit leftStr '\n') (stringsSplit rightStr '\n') fuel 0

/-- The first pair of corresponding lines that differ after trimming, as the
documentation of `compareLongString` words its result: `"<<<no data>>>"` stands
for the side that has no line left, and there is no such pair when the lists have
the same number of lines and these agree. -/
def firstDifference : List String → List String → Option (String × String)
  | [], [] => none
  | [], r :: _ => some ("<<<no data>>>", r)
  | l :: _, [] => some (l, "<<<no data>>>")
  | l :: ls, r :: rs =>
    if stringsTrimSpace l = stringsTrimSpace r then firstDifference ls rs else some (l, r)

/-- The result of `compareLongString` that belongs to a first difference. -/
def comparisonOf : Option (String × String) → Bool × String × String
  | none => (true, "", "")
  | some (l, r) => (false, l, r)

/-! ## Rendering in the console -/

namespace console

/-- A value of the type `interface{}` as `doRender` sees it: a string, or a value
of another dynamic type (told apart by a tag), such as the list of domains. -/
inductive Value where
  | str (s : String)
  | other (tag : Nat)
  deriving DecidableEq, Repr

/-- A value of the type `map[string]interface{}`. -/
abbrev GoMap := String → Option Value

/-- The literal `map[string]interface{}{}`. -/
def GoMap.empty : GoMap := fun _ => none

/-- The statement `mp[key] = value`. -/
def GoMap.set (mp : GoMap) (key : String) (value : Value) : GoMap :=
  fun k => if k = key then some value else mp k

/-- What a call of `doRender` does: it panics with an error, or makes the one call
`renderer.HTML(w, status, template, mp)` and returns. -/
inductive RenderResult where
  | panicked (err : String)
  | rendered (status : Nat) (template : String) (mp : GoMap)

/-- The loop `for i := 0; i < len(keyValues); i = i + 2` of `doRender` over the
elements from `i` on: the type assertion on `keyValues[i]` comes first, then the
read of `keyValues[i+1]`, which is a run-time panic if there is no such element. -/
def doRenderLoop : List Value → GoMap → Except String GoMap
  | [], mp => .ok mp
  | .str key :: value :: rest, mp => doRenderLoop rest (mp.set key value)
  | .str _ :: [], _ => .error "runtime error: index out of range"
  | .other _ :: _, _ =>
    .error "INTERNAL ERROR: poorly used doRender: found a non-string in keyValues"

/-- The function `doRender` of `console/handlers.go`. -/
def doRender (template : String) (keyValues : List Value) : RenderResult :=
  if keyValues.length % 2 ≠ 0 then
    .panicked
      "INTERNAL ERROR: poorly used doRender: keyValues does not have even number of elements"
  else
    match doRenderLoop keyValues GoMap.empty with
    | .error err => .panicked err
    | .ok mp => .rendered 200 template mp

end console

/-! ## The mocks of the tests -/

namespace test

/-- A buffered channel of Go: its capacity, the elements sent and not yet received
(oldest first), and whether it has been closed. -/
structure Chan (α : Type) where
  capacity : Nat
  buffer : List α
  closed : Bool
deriving DecidableEq, Repr

/-- The expression `make(chan T, capacity)`. -/
def Chan.make {α : Type} (capacity : Nat) : Chan α :=
  { capacity := capacity, buffer := [], closed := false }

/-- What a statement on a channel does when no other goroutine holds the channel:
it goes through and leaves the channel in a new state, it blocks for ever, or it
panics. -/
inductive ChanStep (α : Type) where
  | done (ch : Chan α)
  | blocks
  | panics (msg : String)
deriving DecidableEq, Repr

/-- The statement `ch <- x` with no receiver waiting: the element is appended when
the buffer has room, the send blocks when it is full, and a send on a closed
channel panics. -/
def Chan.send {α : Type} (ch : Chan α) (x : α) : ChanStep α :=
  if ch.closed then .panics "send on closed channel"
  else if ch.buffer.length < ch.capacity then .done { ch with buffer := ch.buffer ++ [x] }
  else .blocks

/-- The statement `close(ch)`. -/
def Chan.close {α : Type} (ch : Chan α) : ChanStep α :=
  if ch.closed then .panics "close of closed channel" else .done { ch with closed := true }

/-- What a receive `u, ok := <-ch` gives when no sender is left: the oldest element
of the buffer, the report that the channel is closed and empty, or a block for
ever. -/
inductive Received (α : Type) where
  | value (x : α) (ch : Chan α)
  | closed
  | blocks
deriving DecidableEq, Repr

/-- The receive `<-ch`. -/
def Chan.receive {α : Type} (ch : Chan α) : Received α :=
  match ch.buffer with
  | x :: rest => .value x { ch with buffer := rest }
  | [] => if ch.closed then .closed else .blocks

/-- The loop `for _, u := range urls { ch <- u }`. -/
def sendAll {α : Type} : List α → Chan α → ChanStep α
  | [], ch => .done ch
  | u :: rest, ch =>
    match ch.send u with
    | .done ch1 => sendAll rest ch1
    | .blocks => .blocks
    | .panics msg => .panics msg

/-- The method `MockDatastore.LinksForHost`, for the list `urls` that the mock is
configured to return for the domain (`args.Get(0)`): `done ch` is the return of the
channel `ch`. -/
def MockDatastore.LinksForHost (urls : List URL) : ChanStep URL :=
  match sendAll urls (Chan.make urls.length) with
  | .done ch => ch.close
  | .blocks => .blocks
  | .panics msg => .panics msg

/-- What a consumer `for u := range ch` has received when its loop ends, or when it
blocks because the channel is empty and not closed. -/
inductive Ranged (α : Type) where
  | finished (items : List α)
  | blocked (items : List α)
deriving DecidableEq, Repr

/-- The loop `for u := range ch` of a consumer that collects what it receives after
`items`; one unit of fuel per receive. -/
def rangeOver {α : Type} : Nat → Chan α → List α → Option (Ranged α)
  | 0, _, _ => none
  | fuel + 1, ch, items =>
    match ch.receive with
    | .value x ch1 => rangeOver fuel ch1 (items ++ [x])
    | .closed => some (.finished items)
    | .blocks => some (.blocked items)

end test

namespace test

/-- The struct `MockResponse`. -/
structure MockResponse where
  Status : Int
  Method : String
  Body : String
  ContentType : String
deriving DecidableEq, Repr

/-- The `MockResponse` objects in memory, by address: the handler keeps pointers
to them and writes through the pointers. -/
abbrev Heap := Nat → MockResponse

/-- The statement `*p = obj` on the memory. -/
def Heap.store (heap : Heap) (p : Nat) (obj : MockResponse) : Heap :=
  fun a => if a = p then obj else heap a

/-- The struct `MockHTTPHandler`: `returns` is a map by method of maps by link of
pointers; `none` is an absent key. -/
structure MockHTTPHandler where
  returns : String → Option (String → Option Nat)

/-- The function `NewMockHTTPHandler`. -/
def NewMockHTTPHandler : MockHTTPHandler :=
  { returns := fun method =>
      if method = "DELETE" ∨ method = "GET" ∨ method = "HEAD" ∨ method = "OPTIONS"
          ∨ method = "POST" ∨ method = "PUT" ∨ method = "TRACE" then
        some (fun _ => none)
      else none }

/-- The expression `s.returns[method][link]` with its `ok`: a read of an absent
key of a map, also of a nil map, gives no value. -/
def MockHTTPHandler.entry (s : MockHTTPHandler) (method link : String) : Option Nat :=
  match s.returns method with
  | none => none
  | some m => m link

/-- A handler and the memory its pointers point into. -/
structure World where
  handler : MockHTTPHandler
  heap : Heap

/-- How a call ends: it returns, or it panics with a message. -/
inductive Ending where
  | returned
  | panicked (msg : String)
deriving DecidableEq, Repr

/-- The method `SetResponse(link, r)` for a pointer `r` that is not nil: the
statement `m[link] = r` panics when `m` is the nil map of an absent method. -/
def MockHTTPHandler.SetResponse (w : World) (link : String) (r : Nat) : Ending × World :=
  let heap1 : Heap :=
    if (w.heap r).Method = "" then w.heap.store r { w.heap r with Method := "GET" }
    else w.heap
  match w.handler.returns (heap1 r).Method with
  | none => (.panicked "assignment to entry in nil map", { w with heap := heap1 })
  | some m =>
    (.returned,
      { handler :=
          { returns := fun method =>
              if method = (heap1 r).Method then
                some (fun l => if l = link then some r else m l)
              else w.handler.returns method }
        heap := heap1 })

/-- The struct `url.URL` of the Go library; `User` is the user information, if
any. -/
structure RequestURL where
  Scheme : String
  Opaque : String
  User : Option String
  Host : String
  Path : String
  RawQuery : String
  Fragment : String
deriving DecidableEq, Repr

/-- The fields of `http.Request` that `ServeHTTP` reads: `TLS` says whether
`r.TLS` is not nil. -/
structure Request where
  TLS : Bool
  Host : String
  Method : String
  URL : RequestURL
deriving DecidableEq, Repr

/-- The first statements of `ServeHTTP`: `r.URL.Scheme` becomes `http` or `https`
and `r.URL.Host` becomes `r.Host`. -/
def Request.withSchemeAndHost (r : Request) : Request :=
  { r with URL := { r.URL with Scheme := if r.TLS then "https" else "http", Host := r.Host } }

/-- The key under which `ServeHTTP` looks a request up: `r.URL.String()` after the
scheme and the host have been set. The method `String()` of `url.URL` belongs to
the Go library and is a parameter. -/
def Request.key (urlString : RequestURL → String) (r : Request) : String :=
  urlString r.withSchemeAndHost.URL

/-- The methods that the table of `NewMockHTTPHandler` has a map for. -/
def methods : List String := ["DELETE", "GET", "HEAD", "OPTIONS", "POST", "PUT", "TRACE"]

/-- The `http.Response` that `ServeHTTP` builds; `RequestMethod` is the method of
its `Request` field. -/
structure HTTPResponse where
  RequestMethod : String
  StatusCode : Int
  ProtoMajor : Nat
  ProtoMinor : Nat
  Body : String
  ContentLength : Nat
deriving DecidableEq, Repr

/-- A call that `ServeHTTP` makes on its `http.ResponseWriter`. -/
inductive WriterCall where
  | headerSet (key value : String)
  | responseWrite (res : HTTPResponse)
deriving DecidableEq, Repr

/-- What a call of `ServeHTTP` does: its calls on the `http.ResponseWriter`, in
order, and how it ends. -/
structure Served where
  calls : List WriterCall
  ending : Ending
deriving DecidableEq, Repr

/-- The method `ServeHTTP(w, r)`. The method `String()` of `url.URL` is a
parameter, and `writeErr` is the error that `httpRes.Write(w)` returns, if any.
The result is what the call does, the memory and the request as it leaves
them. -/
def MockHTTPHandler.ServeHTTP (urlString : RequestURL → String) (w : World) (r : Request)
    (writeErr : Option String) : Served × World × Request :=
  let r1 : Request := r.withSchemeAndHost
  match w.handler.returns r1.Method with
  | none =>
    ({ calls := []
       ending := .panicked ("Got an http method we didn't expect: " ++ r1.Method) }, w, r1)
  | some m =>
    match m (urlString r1.URL) with
    | none => ({ calls := [], ending := .returned }, w, r1)
    | some p =>
      let res : MockResponse :=
        { Status := if (w.heap p).Status = 0 then 200 else (w.heap p).Status
          Method := if (w.heap p).Method = "" then "GET" else (w.heap p).Method
          Body := (w.heap p).Body
          ContentType :=
            if (w.heap p).ContentType = "" then "text/html" else (w.heap p).ContentType }
      let httpRes : HTTPResponse :=
        { RequestMethod := res.Method
          StatusCode := res.Status
          ProtoMajor := 1
          ProtoMinor := 1
          Body := res.Body
          ContentLength := res.Body.utf8ByteSize }
      ({ calls := [.headerSet "Content-Type" res.ContentType, .responseWrite httpRes]
         ending :=
           match writeErr with
           | none => .returned
           | some err =>
             .panicked ("Failed to write response for page " ++ urlString r1.URL ++ ", err: "
               ++ err) },
        { w with heap := w.heap.store p res }, r1)

/-- An `http.ResponseWriter` of the server of `net/http`: the header map, the
status and the headers that have been sent, if any, and the body written. -/
structure ResponseWriter where
  header : List (String × String)
  sent : Option (Int × List (String × String))
  body : String
deriving DecidableEq, Repr

/-- The response writer that the server hands to a handler. -/
def ResponseWriter.new : ResponseWriter := { header := [], sent := none, body := "" }

/-- The call `w.Header().Set(key, value)`. -/
def ResponseWriter.headerSet (w : ResponseWriter) (key value : String) : ResponseWriter :=
  { w with header := (key, value) :: w.header.filter fun kv => kv.1 ≠ key }

/-- The call `w.Write(data)`: as documented, "if WriteHeader has not yet been called,
Write calls WriteHeader(http.StatusOK) before writing the data", and the headers
go out as they are then. -/
def ResponseWriter.write (w : ResponseWriter) (data : String) : ResponseWriter :=
  { w with sent := some (w.sent.getD (200, w.header)), body := w.body ++ data }

/-- A call of `ServeHTTP` on the response writer. The call `httpRes.Write(w)` "writes
r to w in the HTTP/1.x server response format, including the status line, headers,
body"; that text, which `wire` gives, goes to `w.Write`. -/
def ResponseWriter.call (wire : HTTPResponse → String) (w : ResponseWriter) :
    WriterCall → ResponseWriter
  | .headerSet key value => w.headerSet key value
  | .responseWrite res => w.write (wire res)

/-- What the client of the server gets for a request: the status, the headers that
the handler has set (the server adds its own, such as `Date`) and the body. -/
structure Reply where
  StatusCode : Int
  Header : List (String × String)
  Body : String
deriving DecidableEq, Repr

/-- The reply of the server once the handler is done with the response writer: a
handler that has written nothing gets the status 200 sent for it. -/
def ResponseWriter.reply (w : ResponseWriter) : Reply :=
  { StatusCode := (w.sent.getD (200, w.header)).1
    Header := (w.sent.getD (200, w.header)).2
    Body := w.body }

/-- The reply to a request when the call of `ServeHTTP` that serves it returns. -/
def Served.reply (wire : HTTPResponse → String) (s : Served) : Reply :=
  (s.calls.foldl (ResponseWriter.call wire) ResponseWriter.new).reply

end test

/-! ## The goroutine of the dispatcher -/

/-- The events that a piece of a command adds, and how the command ends with it,
from every state with the commander `c`. -/
def Runs (c : Commander) (m : M Unit) (r : List Event × Outcome) : Prop :=
  ∀ s : State, s.commander = c → run m s = (r.2, s.record r.1)

/-- The result of a piece that adds the events `evs` and goes on with a rest whose
result is `r`. -/
def prefixed (evs : List Event) (r : List Event × Outcome) : List Event × Outcome :=
  (evs ++ r.1, r.2)

/-- The events of the statements that follow the `go` statement of the dispatcher,
each statement given by its events, up to the panic of the goroutine: all of them
when there is no dispatcher or its `StartDispatcher` returns no error, and those of
the first `k` statements when it returns one after `k` statements. -/
def untilGoroutinePanic (env : Env) (d : Option Dispatcher) (steps : List (List Event)) :
    List Event :=
  match d.bind env.StartDispatcher with
  | none => steps.flatten
  | some (_, k) => (steps.take k).flatten

/-- How a command ends that has got past the `go` statement of the dispatcher and
has `steps` statements after it, the receive of the signal among them: with the
panic of the goroutine when `StartDispatcher` returns an error before these
statements and the return are over, or when no SIGINT arrives; else it returns
when a SIGINT arrives and waits for ever when none does. -/
def outcomeAfterGo (env : Env) (d : Option Dispatcher) (steps : Nat) : Outcome :=
  match d.bind env.StartDispatcher with
  | some (err, k) =>
    if env.sigintArrives then (if k ≤ steps then .panicked (.error err) else .returned)
    else .panicked (.error err)
  | none => if env.sigintArrives then .returned else .blocked

/-! ## Sample runs -/

/-- The session-identifier names of `TestUrlParsing`. -/
def testSidList : List String := ["jsessionid", "phpsessid"]

/-- A stand-in for the IDNA encoder in sample runs; their hosts are ASCII and never
reach it. -/
def sampleToASCII : List Char → List Char := fun _ => "xn--idn".toList

/-- The URL that the `QuerySID` input of `TestUrlParsing` parses to. -/
def querySidURL : URL :=
  { scheme := "http", host := "a.com", port := "", path := "/page1.com",
    query := "baz=niffler&foo=bar" }

/-- An environment in which every outside call succeeds and SIGINT arrives. -/
def quietEnv : Env where
  ReadConfigFile := fun _ cfg => (none, { cfg with UserAgent := "Test Agent (set in yaml)" })
  WALKER_PPROF := ""
  NewDatastore := none
  ParseURL := ParseURL sampleToASCII testSidList
  ParseAndNormalizeURL := ParseURL sampleToASCII testSidList
  FindLink := fun _ _ _ => .ok none
  sigintArrives := true
  osCreate := fun _ => none
  GetSchema := "-- The schema file for walker"
  GetCassandraSchema := .ok "-- The schema file for walker"
  timeString := fun _ => "2006-01-02 15:04:05 -0700 MST"
  rangeHeader := id
  StartDispatcher := fun _ => none

/-- An environment whose config files cannot be loaded. -/
def brokenConfigEnv : Env :=
  { quietEnv with
    ReadConfigFile := fun file cfg =>
      (some ("open " ++ file ++ ": no such file or directory"), cfg) }

/-- The flag variables when no flag is given. -/
def noFlags : Flags :=
  { config := "", noConsole := false, seedURL := "", outfile := "", readLinkLink := "",
    readLinkBodyOnly := false, readLinkMetaOnly := false }

/-- The commander of a binary that sets nothing before `Execute`. -/
def bareCommander : Commander :=
  { Handler := none, Datastore := none, Dispatcher := none, printf := none, errorf := none,
    exit := none }

/-- The commander of the tests: mock handler, mock datastore (with `FindLink`) and
mock dispatcher. -/
def mockCommander : Commander :=
  { bareCommander with
    Handler := some (.preset 1)
    Datastore := some (.preset 2 true)
    Dispatcher := some (.preset 3) }

/-- The default configuration. -/
def defaultConfig : Config :=
  { AddNewDomains := false, UserAgent := "Walker (http://github.com/iParadigms/walker)",
    PurgeSidList := [] }

/-- The flag variables of `seed --url=http://test.com`, as in `TestSeedCommand`. -/
def seedFlags : Flags := { noFlags with seedURL := "http://test.com" }

/-- The flag variables of `seed --url=ftp://test.com`. -/
def ftpSeedFlags : Flags := { noFlags with seedURL := "ftp://test.com" }

/-- The URL that `http://test.com` parses to. -/
def testURL : URL := { scheme := "http", host := "test.com", port := "", path := "/", query := "" }

/-- The flag variables of a command given `--config=walker.yaml`. -/
def configFlags : Flags := { noFlags with config := "walker.yaml" }

/-- The flag variables of `readlink` with a link and both `--body-only` and
`--meta-only`. -/
def bothOnlyFlags : Flags :=
  { noFlags with
    readLinkLink := "http://test.com/page1.com"
    readLinkBodyOnly := true
    readLinkMetaOnly := true }

/-- The URL `goodUrl` of `TestReadlinkCommand`. -/
def goodUrl : URL :=
  { scheme := "http", host := "test.com", port := "", path := "/page1.com", query := "" }

/-- The flag variables of `readlink -u http://test.com/page1.com`. -/
def readlinkFlags : Flags := { noFlags with readLinkLink := "http://test.com/page1.com" }

/-- The record `notYetCrawledLinfo` of `TestReadlinkCommand`. -/
def notYetCrawledLinfo : LinkInfo :=
  { URL := some goodUrl, Status := 0, CrawlTime := NotYetCrawled, Error := "",
    RobotsExcluded := false, RedirectedTo := "", GetNow := false, Mime := "",
    FnvFingerprint := 0, Body := "", Headers := none }

/-- An environment whose datastore answers `FindLink` with `notYetCrawledLinfo`. -/
def notYetCrawledEnv : Env :=
  { quietEnv with FindLink := fun _ _ _ => .ok (some notYetCrawledLinfo) }

/-- A link of the host `t1.com` of the fetcher tests. -/
def t1Link (path : String) : URL :=
  { scheme := "http", host := "t1.com", port := "", path := path, query := "" }

/-- A link of the host `other.org` of `TestMetaNos`. -/
def otherOrgLink (path : String) : URL :=
  { scheme := "https", host := "other.org", port := "", path := path, query := "" }

/-- The patterns that `TestPathInclusion` configures: exclude `\.mov$`, `janky`,
`\/foo\/bang` and `^\/root$`, include `\.keep$`. -/
def pathInclusionConfig : FetchConfig :=
  { HonorMetaNoindex := false
    HonorMetaNofollow := false
    ExcludeLinkPatterns :=
      [.ending ".mov", .containing "janky", .containing "/foo/bang", .exactly "/root"]
    IncludeLinkPatterns := [.ending ".keep"] }

/-- The page `http://t1.com/target.html` of `TestPathInclusion` with its nine
links, in page order. -/
def pathInclusionPage : Page :=
  { link := t1Link "/target.html"
    metas := [{ name := "", content := "text/html; charset=utf-8" }]
    links := ["/foo/bar.html", "/foo/bar.mov", "/foo/mov.bar", "/janky/page.html",
      "/foo/janky.html", "/foo/bang/baz.html", "/foo/bang/baz.keep", "/root",
      "/root/more"].map t1Link }

/-- The map `expectedPaths` of `TestPathInclusion`. -/
def expectedPaths : List String :=
  ["/foo/bar.html", "/foo/mov.bar", "/foo/bang/baz.keep", "/root/more"]

/-- The two loops that end `TestPathInclusion`: every `StoreParsedURL` call is for
a path still expected, which is then struck off, and no expected path is left. -/
def pathInclusionCheck (calls : List FetcherCall) : Bool :=
  let r := (storedPaths calls).foldl
    (fun (acc : List String × Bool) path =>
      if acc.1.contains path then (acc.1.erase path, acc.2) else (acc.1, false))
    (expectedPaths, true)
  r.2 && r.1.isEmpty

/-- The configuration of `TestMetaNos`. -/
def metaNosConfig : FetchConfig :=
  { HonorMetaNoindex := true
    HonorMetaNofollow := true
    ExcludeLinkPatterns := []
    IncludeLinkPatterns := [] }

/-- The page `nofollow.html` of `TestMetaNos`. -/
def nofollowPage : Page :=
  { link := t1Link "/nofollow.html"
    metas := [{ name := "", content := "text/html; charset=utf-8" },
      { name := "ROBOTS", content := "NoFollow" }]
    links := [t1Link "/relative-dir/", t1Link "/relative-page/page.html",
      t1Link "/abs-relative-dir/", t1Link "/abs-relative-page/page.html",
      otherOrgLink "/abs-dir/", otherOrgLink "/abs-page/page.html"] }

/-- The page `noindex.html` of `TestMetaNos`. -/
def noindexPage : Page :=
  { link := t1Link "/noindex.html"
    metas := [{ name := "ROBOTS", content := "noindex" },
      { name := "", content := "text/html; charset=utf-8" }]
    links := [] }

/-- The page `both.html` of `TestMetaNos`. -/
def bothPage : Page :=
  { link := t1Link "/both.html"
    metas := [{ name := "ROBOTS", content := "noindeX, nofoLLow" }]
    links := [t1Link "/relative-dirX/", t1Link "/relative-pageX/page.html",
      t1Link "/abs-relative-dirX/", t1Link "/abs-relative-pageX/page.html",
      otherOrgLink "/abs-dirX/", otherOrgLink "/abs-pageX/page.html"] }

/-- The checks that end `TestMetaNos`: the handler was called once, for
`nofollow.html` and for no other link, and `StoreParsedURL` was never called. -/
def metaNosCheck (calls : List FetcherCall) : Bool :=
  (handledLinks calls).all (fun link => decide (link = "http://t1.com/nofollow.html"))
    && decide ((handledLinks calls).length = 1)
    && decide ((storedPaths calls).length = 0)

/-- The function `link` of `TestRedirects`. -/
def redirectsLink (index : Nat) : String :=
  "http://sub.dom.com/page" ++ toString index ++ ".html"

/-- The round tripper of `TestRedirects`: page 1 redirects to page 2, page 2 to
page 3, and page 3 answers 200. -/
def redirectsRespond (url : String) : Response :=
  if url = redirectsLink 1 then .redirect 307 (redirectsLink 2)
  else if url = redirectsLink 2 then .redirect 307 (redirectsLink 3)
  else if url = redirectsLink 3 then .final 200 []
  else .final 404 []

/-- The page of `TestFnvFingerprint`. -/
def fnvHtml : String :=
  "<!DOCTYPE html>\n<html>\n<head>\n<meta http-equiv=\"Content-Type\" content=\"text/html; charset=utf-8\">\n<title>No Links</title>\n</head>\n<div>\n\tRoses are red, violets are blue, golang is the bomb, aint it so true!\n</div>\n</html>"

/-- The server of `TestFnvFingerprint`: `http://a.com/page1.html` has the page. -/
def fnvRespond (url : String) : Response :=
  if url = "http://a.com/page1.html" then .final 200 (bytesOf fnvHtml) else .final 404 []

/-- The variable `crawlTime` of `TestReadlinkCommand`: 2006-01-02 15:04:05 -0700. -/
def testCrawlTime : Time := ⟨1136239445000000000⟩

/-- The variable `body` of `TestReadlinkCommand`. -/
def testBody : String :=
  "<!DOCTYPE html>\n<html>\n<head>\n<meta http-equiv=\"Content-Type\" content=\"text/html; charset=utf-8\">\n<title>No Links</title>\n</head>\n<div>\n\tRoses are red, violets are blue, golang is the bomb, aint it so true!\n</div>\n</html>"

/-- The record `goodLinfo` of `TestReadlinkCommand`. -/
def goodLinfo : LinkInfo :=
  { URL := some goodUrl
    Status := 200
    CrawlTime := testCrawlTime
    Error := "A nice long\nError\nwith plenty of \nnewlines and such\n"
    RobotsExcluded := false
    RedirectedTo := ""
    GetNow := true
    Mime := "text/html"
    FnvFingerprint := 0
    Body := testBody
    Headers := some [("foo", ["bar"]), ("baz", ["click", "clack"])] }

/-- An environment whose datastore answers `FindLink` with `goodLinfo`. -/
def goodLinfoEnv : Env :=
  { quietEnv with FindLink := fun _ _ _ => .ok (some goodLinfo) }

/-- The flag variables of `readlink -u http://test.com/page1.com --body-only`. -/
def bodyOnlyFlags : Flags := { readlinkFlags with readLinkBodyOnly := true }

/-- The flag variables of `readlink -u http://test.com/page1.com --meta-only`. -/
def metaOnlyFlags : Flags := { readlinkFlags with readLinkMetaOnly := true }

/-- The field `stdout` of case `standard` of `TestReadlinkCommand`, with the
newline that the test trims off. -/
def standardStdout : String :=
  "Url:            http://test.com/page1.com\nHttpStatus:     200\nCrawlTime:      2006-01-02 15:04:05 -0700 MST\nError:          \nRobotsExcluded: false\nRedirectedTo:   \nGetNow:         true\nMime:           text/html\nFnvFingerprint: 0\nHEADERS:\n    foo: bar\n    baz: click\n    baz: clack\nBODY:\n" ++ testBody ++ "\n"

/-- The text of case `standard` without its `BODY` part. -/
def standardMetaStdout : String :=
  "Url:            http://test.com/page1.com\nHttpStatus:     200\nCrawlTime:      2006-01-02 15:04:05 -0700 MST\nError:          \nRobotsExcluded: false\nRedirectedTo:   \nGetNow:         true\nMime:           text/html\nFnvFingerprint: 0\nHEADERS:\n    foo: bar\n    baz: click\n    baz: clack\n"

/-- A response that sets only its body, as most of the fetcher tests register. -/
def bodyOnlyResponse : test.MockResponse :=
  { Status := 0, Method := "", Body := "<html/>", ContentType := "" }

/-- A new handler, and a memory whose objects are all `bodyOnlyResponse`. -/
def newWorld : test.World :=
  { handler := test.NewMockHTTPHandler, heap := fun _ => bodyOnlyResponse }

/-- A new handler, and a memory whose objects all have the method `PATCH`. -/
def patchWorld : test.World :=
  { handler := test.NewMockHTTPHandler
    heap := fun _ => { bodyOnlyResponse with Method := "PATCH" } }

/-- A new handler, and a memory whose objects all have the status 404, as
`&MockResponse{Status: 404}` with a body. -/
def notFoundWorld : test.World :=
  { handler := test.NewMockHTTPHandler
    heap := fun _ => { bodyOnlyResponse with Status := 404 } }

/-- The request `GET /page1.com` to the host `test.com`, or the same with another
method. -/
def page1Request (method : String) : test.Request :=
  { TLS := false
    Host := "test.com"
    Method := method
    URL :=
      { Scheme := ""
        Opaque := ""
        User := none
        Host := ""
        Path := "/page1.com"
        RawQuery := ""
        Fragment := "" } }

/-- A stand-in, in the sample runs, for the method `String()` of `url.URL`: what
it gives for a URL that has a scheme, a host and a path that starts with a slash
and needs no escaping, and nothing else. -/
def sampleURLString (u : test.RequestURL) : String :=
  u.Scheme ++ "://" ++ u.Host ++ u.Path

/-- A stand-in, in the sample runs, for the text that `(*http.Response).Write`
writes: status line, content length, empty line and body. -/
def sampleWire (res : test.HTTPResponse) : String :=
  "HTTP/" ++ toString res.ProtoMajor ++ "." ++ toString res.ProtoMinor ++ " "
    ++ toString res.StatusCode ++ " "
    ++ (if res.StatusCode = 200 then "OK"
        else if res.StatusCode = 404 then "Not Found"
        else "status code " ++ toString res.StatusCode)
    ++ "\r\nContent-Length: " ++ toString res.ContentLength ++ "\r\n\r\n" ++ res.Body

/-- An environment in which `StartDispatcher` returns an error at once: the
goroutine panics when one statement has completed after the `go` statement. -/
def failingDispatcherEnv : Env :=
  { quietEnv with StartDispatcher := fun _ => some ("dispatcher: no cassandra host", 1) }

/-- The state a piece of a command ends in. -/
def Res.state {α : Type} : Res α → State
  | .ok _ s => s
  | .halt _ s => s

/-- A piece of a command that extends the events by `pre` followed by events that
all satisfy `P`, and leaves the earlier events alone. -/
def AppendsAfter {α : Type} (pre : List Event) (P : Event → Prop) (m : M α) : Prop :=
  ∀ s, ∃ extra, (m s).state.events = s.events ++ pre ++ extra ∧ ∀ e ∈ extra, P e

/-- An event other than the reading of a config file. -/
def NotReadConfig (e : Event) : Prop := e.isReadConfigFile = false

/-- The events of a run that reads the config file first, if it reads one: with
`--config` the first event is the reading of that file and no later event reads a
config file; without `--config` no event does. -/
def ReadsConfigFirst (flags : Flags) (events : List Event) : Prop :=
  if flags.config = "" then ∀ e ∈ events, e.isReadConfigFile = false
  else ∃ rest, events = .readConfigFile flags.config :: rest
    ∧ ∀ e ∈ rest, e.isReadConfigFile = false

/-- The events a dispatcher field gives rise to: one call when it is set, none
when it is nil. -/
def whenSet (d : Option Dispatcher) (f : Dispatcher → Event) : List Event :=
  match d with
  | some d => [f d]
  | none => []

end walker

/-! ## Running the pieces of a command -/

namespace walker

theorem M.bind_apply {α β : Type} (m : M α) (f : α → M β) (s : State) :
    (m >>= f) s = match m s with
      | .ok a s1 => f a s1
      | .halt o s1 => .halt o s1 := rfl

theorem M.pure_apply {α : Type} (a : α) (s : State) : (pure a : M α) s = .ok a s := rfl

theorem emit_apply (e : Event) (s : State) :
    emit e s = .ok () { s with trace := s.trace ++ [(e, s.Config)] } := rfl

theorem halt_apply {α : Type} (o : Outcome) (s : State) : (halt o : M α) s = .halt o s := rfl

theorem panic_apply {α : Type} (v : PanicValue) (s : State) :
    (walker.panic v : M α) s = .halt (.panicked v) s := rfl

theorem getCommander_apply (s : State) : getCommander s = .ok s.commander s := rfl

theorem getConfig_apply (s : State) : getConfig s = .ok s.Config s := rfl

theorem setConfig_apply (c : Config) (s : State) :
    setConfig c s = .ok () { s with Config := c } := rfl

theorem setCommander_apply (c : Commander) (s : State) :
    setCommander c s = .ok () { s with commander := c } := rfl

theorem modifyCommander_apply (f : Commander → Commander) (s : State) :
    modifyCommander f s = .ok () { s with commander := f s.commander } := rfl

theorem ite_M_apply {α : Type} (c : Prop) [Decidable c] (a b : M α) (s : State) :
    (if c then a else b) s = if c then a s else b s := by
  split <;> rfl

theorem awaitSigint_apply (env : Env) (s : State) :
    awaitSigint env s =
      if env.sigintArrives then
        .ok () { s with trace := s.trace ++ [(.signalNotify, s.Config), (.sigint, s.Config)] }
      else .halt .blocked { s with trace := s.trace ++ [(.signalNotify, s.Config)] } := by
  unfold awaitSigint
  cases env.sigintArrives <;>
    simp [M.bind_apply, emit_apply, halt_apply]

/-- Package `walker`: what `readConfig` does to a state. -/
theorem readConfig_apply (env : Env) (flags : Flags) (s : State) :
    walker.Cmd.readConfig env flags s =
      if flags.config = "" then .ok () s
      else
        match (env.ReadConfigFile flags.config s.Config).1 with
        | some err => .halt (.panicked (.error err))
            { s with
              Config := (env.ReadConfigFile flags.config s.Config).2
              trace := s.trace ++ [(.readConfigFile flags.config, s.Config)] }
        | none => .ok ()
            { s with
              Config := (env.ReadConfigFile flags.config s.Config).2
              trace := s.trace ++ [(.readConfigFile flags.config, s.Config)] } := by
  unfold walker.Cmd.readConfig
  by_cases h1 : flags.config = ""
  · simp only [h1, M.pure_apply, if_true, ne_eq, not_true_eq_false, if_false]
  · cases h3 : (env.ReadConfigFile flags.config s.Config).1 <;>
      simp [h1, h3, M.bind_apply, M.pure_apply, emit, walker.panic, halt, getConfig, setConfig]

/-- Package `cmd`: what `initCommand` does to a state. -/
theorem initCommand_apply (env : Env) (flags : Flags) (s : State) :
    cmd.initCommand env flags s =
      if flags.config = "" then
        if env.WALKER_PPROF = "1" then
          .ok () { s with trace := s.trace ++ [(.goPprofListener, s.Config)] }
        else .ok () s
      else
        match (env.ReadConfigFile flags.config s.Config).1 with
        | some err => .halt (.panicked (.error err))
            { s with
              Config := (env.ReadConfigFile flags.config s.Config).2
              trace := s.trace ++ [(.readConfigFile flags.config, s.Config)] }
        | none =>
          if env.WALKER_PPROF = "1" then
            .ok ()
              { s with
                Config := (env.ReadConfigFile flags.config s.Config).2
                trace := s.trace ++ [(.readConfigFile flags.config, s.Config),
                  (.goPprofListener, (env.ReadConfigFile flags.config s.Config).2)] }
          else
            .ok ()
              { s with
                Config := (env.ReadConfigFile flags.config s.Config).2
                trace := s.trace ++ [(.readConfigFile flags.config, s.Config)] } := by
  unfold cmd.initCommand
  by_cases h1 : flags.config = ""
  · by_cases h2 : env.WALKER_PPROF = "1" <;>
      simp only [h1, h2, M.bind_apply, M.pure_apply, emit, if_true, ne_eq, not_true_eq_false,
        if_false]
  · by_cases h2 : env.WALKER_PPROF = "1" <;>
      cases h3 : (env.ReadConfigFile flags.config s.Config).1 <;>
      simp [h1, h2, h3, M.bind_apply, M.pure_apply, emit, walker.panic, halt, getConfig,
        setConfig]

theorem run_snd (m : M Unit) (s : State) : (run m s).2 = (m s).state := by
  unfold run Res.state
  cases m s <;> rfl

theorem AppendsAfter.pure {α : Type} (P : Event → Prop) (a : α) :
    AppendsAfter [] P (Pure.pure a : M α) :=
  fun s => ⟨[], by simp [M.pure_apply, Res.state], by simp⟩

theorem AppendsAfter.halt {α : Type} (P : Event → Prop) (o : Outcome) :
    AppendsAfter [] P (halt o : M α) :=
  fun s => ⟨[], by simp [halt_apply, Res.state], by simp⟩

theorem AppendsAfter.panic {α : Type} (P : Event → Prop) (v : PanicValue) :
    AppendsAfter [] P (walker.panic v : M α) :=
  AppendsAfter.halt P _

theorem AppendsAfter.emit (P : Event → Prop) (e : Event) (h : P e) :
    AppendsAfter [] P (emit e) :=
  fun s => ⟨[e], by simp [emit_apply, Res.state, State.events], by simpa using h⟩

theorem AppendsAfter.getCommander (P : Event → Prop) : AppendsAfter [] P getCommander :=
  fun s => ⟨[], by simp [getCommander_apply, Res.state], by simp⟩

theorem AppendsAfter.getConfig (P : Event → Prop) : AppendsAfter [] P getConfig :=
  fun s => ⟨[], by simp [getConfig_apply, Res.state], by simp⟩

theorem AppendsAfter.setConfig (P : Event → Prop) (c : Config) :
    AppendsAfter [] P (setConfig c) :=
  fun s => ⟨[], by simp [setConfig_apply, Res.state, State.events], by simp⟩

theorem AppendsAfter.modifyCommander (P : Event → Prop) (f : Commander → Commander) :
    AppendsAfter [] P (modifyCommander f) :=
  fun s => ⟨[], by simp [modifyCommander_apply, Res.state, State.events], by simp⟩

theorem AppendsAfter.bind {α β : Type} {pre : List Event} {P : Event → Prop} {m : M α}
    {f : α → M β} (hm : AppendsAfter pre P m) (hf : ∀ a, AppendsAfter [] P (f a)) :
    AppendsAfter pre P (m >>= f) := by
  intro s
  obtain ⟨x1, h1, p1⟩ := hm s
  rw [M.bind_apply]
  cases hms : m s with
  | halt o s1 =>
    rw [hms] at h1
    exact ⟨x1, by simpa [Res.state] using h1, p1⟩
  | ok a s1 =>
    rw [hms] at h1
    obtain ⟨x2, h2, p2⟩ := hf a s1
    refine ⟨x1 ++ x2, ?_, ?_⟩
    · simp only [Res.state] at h1
      simp only [h2, h1, List.append_nil, List.append_assoc]
    · intro e he
      rcases List.mem_append.1 he with he | he
      · exact p1 e he
      · exact p2 e he

theorem AppendsAfter.ite {α : Type} {pre : List Event} {P : Event → Prop} (c : Prop)
    [Decidable c] {a b : M α} (ha : AppendsAfter pre P a) (hb : AppendsAfter pre P b) :
    AppendsAfter pre P (if c then a else b) := by
  split
  · exact ha
  · exact hb

theorem AppendsAfter.awaitSigint (P : Event → Prop) (env : Env) (h1 : P .signalNotify)
    (h2 : P .sigint) : AppendsAfter [] P (awaitSigint env) := by
  unfold walker.awaitSigint
  exact AppendsAfter.bind (AppendsAfter.emit P _ h1)
    (fun _ => AppendsAfter.ite _ (AppendsAfter.emit P _ h2) (AppendsAfter.halt P _))

theorem AppendsAfter.goroutinePanic (P : Event → Prop) (env : Env) (d : Option Dispatcher)
    (done : Nat) : AppendsAfter [] P (goroutinePanic env d done) := by
  unfold walker.goroutinePanic
  split
  · exact AppendsAfter.pure _ _
  · split
    · exact AppendsAfter.ite _ (AppendsAfter.panic P _) (AppendsAfter.pure _ _)
    · exact AppendsAfter.pure _ _

theorem AppendsAfter.receiveSigint (P : Event → Prop) (env : Env) (d : Option Dispatcher)
    (h : P .sigint) : AppendsAfter [] P (receiveSigint env d) := by
  unfold walker.receiveSigint
  refine AppendsAfter.ite _ (AppendsAfter.emit P _ h) ?_
  split
  · exact AppendsAfter.halt P _
  · split
    · exact AppendsAfter.panic P _
    · exact AppendsAfter.halt P _

theorem AppendsAfter.withDefer {α : Type} {P : Event → Prop} {d : M Unit} {b : M α}
    (hd : AppendsAfter [] P d) (hb : AppendsAfter [] P b) :
    AppendsAfter [] P (withDefer d b) := by
  intro s
  obtain ⟨x1, h1, p1⟩ := hb s
  unfold walker.withDefer
  cases hbs : b s with
  | ok a s1 =>
    rw [hbs] at h1
    obtain ⟨x2, h2, p2⟩ := hd s1
    refine ⟨x1 ++ x2, ?_, ?_⟩
    · simp only [Res.state, List.append_nil] at h1 h2 ⊢
      cases hds : d s1 <;> rw [hds] at h2 <;> simp only [Res.state] at h2 ⊢ <;>
        simp only [h2, h1, List.append_assoc]
    · intro e he
      rcases List.mem_append.1 he with he | he
      · exact p1 e he
      · exact p2 e he
  | halt o s1 =>
    rw [hbs] at h1
    cases o with
    | panicked v =>
      obtain ⟨x2, h2, p2⟩ := hd s1
      refine ⟨x1 ++ x2, ?_, ?_⟩
      · simp only [Res.state, List.append_nil] at h1 h2 ⊢
        cases hds : d s1 <;> rw [hds] at h2 <;> simp only [Res.state] at h2 ⊢ <;>
          simp only [h2, h1, List.append_assoc]
      · intro e he
        rcases List.mem_append.1 he with he | he
        · exact p1 e he
        · exact p2 e he
    | returned => exact ⟨x1, by simpa [Res.state] using h1, p1⟩
    | exited n => exact ⟨x1, by simpa [Res.state] using h1, p1⟩
    | blocked => exact ⟨x1, by simpa [Res.state] using h1, p1⟩

theorem AppendsAfter.fatalf {α : Type} (P : Event → Prop) (msg : String)
    (h : ∀ text, P (.write .osStdout text)) : AppendsAfter [] P (cmd.fatalf msg : M α) := by
  unfold cmd.fatalf
  exact AppendsAfter.bind (AppendsAfter.emit P _ (h _))
    (fun _ => AppendsAfter.bind (AppendsAfter.emit P _ (h _)) (fun _ => AppendsAfter.halt P _))

theorem AppendsAfter.fatalf_walker {α : Type} (P : Event → Prop) (msg : String)
    (h : ∀ text, P (.write .osStdout text)) :
    AppendsAfter [] P (walker.Cmd.fatalf msg : M α) := by
  unfold walker.Cmd.fatalf
  exact AppendsAfter.bind (AppendsAfter.emit P _ (h _))
    (fun _ => AppendsAfter.bind (AppendsAfter.emit P _ (h _)) (fun _ => AppendsAfter.halt P _))

theorem AppendsAfter.initCommand (env : Env) (flags : Flags) :
    AppendsAfter (readConfigEvents flags) NotReadConfig (cmd.initCommand env flags) := by
  intro s
  rw [initCommand_apply]
  unfold readConfigEvents
  by_cases h1 : flags.config = "" <;> by_cases h2 : env.WALKER_PPROF = "1" <;>
    cases h3 : (env.ReadConfigFile flags.config s.Config).1 <;>
    simp [h1, h2, h3, Res.state, State.events, NotReadConfig, Event.isReadConfigFile]

theorem AppendsAfter.readConfig (env : Env) (flags : Flags) :
    AppendsAfter (readConfigEvents flags) NotReadConfig (walker.Cmd.readConfig env flags) := by
  intro s
  rw [readConfig_apply]
  unfold readConfigEvents
  by_cases h1 : flags.config = "" <;>
    cases h3 : (env.ReadConfigFile flags.config s.Config).1 <;>
    simp [h1, h3, Res.state, State.events, NotReadConfig, Event.isReadConfigFile]

/-- A command that adds the events of the configuration step and then no other
reading of a config file reads the config file first. -/
theorem readsConfigFirst_of_appendsAfter (flags : Flags) (m : M Unit)
    (h : AppendsAfter (readConfigEvents flags) NotReadConfig m) (c : Commander)
    (cfg : Config) : ReadsConfigFirst flags (run m (State.init c cfg)).2.events := by
  obtain ⟨extra, h1, h2⟩ := h (State.init c cfg)
  rw [run_snd, h1]
  unfold ReadsConfigFirst readConfigEvents
  by_cases hc : flags.config = ""
  · simpa [hc, State.init, State.events] using h2
  · simp only [hc, if_false]
    exact ⟨extra, by simp [State.init, State.events], h2⟩

theorem run_bind_halt {α : Type} (m : M α) (f : α → M Unit) (s s1 : State) (o : Outcome)
    (h : m s = .halt o s1) : run (m >>= f) s = (o, s1) := by
  unfold run
  rw [M.bind_apply, h]

theorem run_bind_ok {α : Type} (m : M α) (f : α → M Unit) (s s1 : State) (a : α)
    (h : m s = .ok a s1) : run (m >>= f) s = run (f a) s1 := by
  unfold run
  rw [M.bind_apply, h]

theorem initCommand_fails (env : Env) (flags : Flags) (s : State) (err : String)
    (hfile : flags.config ≠ "")
    (hfail : (env.ReadConfigFile flags.config s.Config).1 = some err) :
    cmd.initCommand env flags s = .halt (.panicked (.error err))
      { s with
        Config := (env.ReadConfigFile flags.config s.Config).2
        trace := s.trace ++ [(.readConfigFile flags.config, s.Config)] } := by
  rw [initCommand_apply]
  simp only [hfile, if_false, hfail]

theorem readConfig_fails (env : Env) (flags : Flags) (s : State) (err : String)
    (hfile : flags.config ≠ "")
    (hfail : (env.ReadConfigFile flags.config s.Config).1 = some err) :
    walker.Cmd.readConfig env flags s = .halt (.panicked (.error err))
      { s with
        Config := (env.ReadConfigFile flags.config s.Config).2
        trace := s.trace ++ [(.readConfigFile flags.config, s.Config)] } := by
  rw [readConfig_apply]
  simp only [hfile, if_false, hfail]

theorem setUpCommanderStreams_apply (s : State) :
    ∃ c, cmd.setUpCommanderStreams s = .ok () { s with commander := c } := by
  obtain ⟨⟨h0, d0, p, pf, ef, ex⟩, cfg, tr⟩ := s
  unfold cmd.setUpCommanderStreams
  cases pf <;> cases ef <;> cases ex <;>
    simp [M.bind_apply, M.pure_apply, getCommander_apply, modifyCommander_apply]

end walker

/-! ## The commands -/

namespace walker

/-- C1. For every original value of the add-new-domains setting and every non-empty
`--url` that the parser accepts, in a run whose configuration loads and that has a
datastore (preset, or the default one created without error), the seed command
calls `StoreParsedURL` exactly once, with the parsed URL and a nil fetch result,
and `AddNewDomains` is true in the configuration in force at that call. Both
revisions of the command (`cmd/cmd.go` and `cmd.go`). -/
theorem seed_stores_parsed_url_once (env : Env) (flags : Flags) (c : Commander) (cfg : Config)
    (u : URL) (hcfg : configLoads env flags cfg = true) (hurl : flags.seedURL ≠ "")
    (hds : c.Datastore ≠ none ∨ env.NewDatastore = none) :
    (env.ParseAndNormalizeURL flags.seedURL = .ok u →
      ∃ cfg1, storeCalls (run (cmd.seedCommand env flags) (State.init c cfg)).2
          = [(.storeParsedURL (c.Datastore.getD .cassandra) u none, cfg1)]
        ∧ cfg1.AddNewDomains = true)
    ∧ (env.ParseURL flags.seedURL = .ok u →
      ∃ cfg1, storeCalls (run (walker.Cmd.seedCommand env flags) (State.init c cfg)).2
          = [(.storeParsedURL (c.Datastore.getD .cassandra) u none, cfg1)]
        ∧ cfg1.AddNewDomains = true) := by
  obtain ⟨h, d, p, pf, ef, ex⟩ := c
  have hurl' : (flags.seedURL = "") = False := eq_false hurl
  unfold configLoads at hcfg
  constructor <;> intro hparse
  · unfold cmd.seedCommand run
    simp only [M.bind_apply, initCommand_apply, State.init]
    by_cases h1 : flags.config = "" <;> by_cases h2 : env.WALKER_PPROF = "1" <;>
      cases d <;> cases h4 : env.NewDatastore <;>
      cases h5 : (env.ReadConfigFile flags.config cfg).1 <;>
      simp only [h4, h5, reduceCtorEq, ne_eq, not_true_eq_false, not_false_eq_true, or_false,
        false_or, h1, decide_True, decide_False, Bool.true_or, Bool.false_or, Option.isNone_none,
        Option.isNone_some] at hds hcfg <;>
      simp only [h1, h2, h4, h5, hurl', hparse, reduceCtorEq, if_true, if_false, M.bind_apply,
        M.pure_apply, emit_apply, halt_apply, withDefer, getConfig_apply, setConfig_apply,
        getCommander_apply, modifyCommander_apply, ite_M_apply, storeCalls, List.filter_append,
        List.filter_cons, List.filter_nil, List.nil_append, Event.isStoreParsedURL, Option.getD,
        List.append_nil, List.cons_append] <;>
      exact ⟨_, rfl, rfl⟩
  · unfold walker.Cmd.seedCommand run
    simp only [M.bind_apply, readConfig_apply, State.init]
    by_cases h1 : flags.config = "" <;>
      cases d <;> cases h4 : env.NewDatastore <;>
      cases h5 : (env.ReadConfigFile flags.config cfg).1 <;>
      simp only [h4, h5, reduceCtorEq, ne_eq, not_true_eq_false, not_false_eq_true, or_false,
        false_or, h1, decide_True, decide_False, Bool.true_or, Bool.false_or, Option.isNone_none,
        Option.isNone_some] at hds hcfg <;>
      simp only [h1, h4, h5, hurl', hparse, reduceCtorEq, if_true, if_false, M.bind_apply,
        M.pure_apply, emit_apply, halt_apply, withDefer, getConfig_apply, setConfig_apply,
        getCommander_apply, modifyCommander_apply, ite_M_apply, storeCalls, List.filter_append,
        List.filter_cons, List.filter_nil, List.nil_append, Event.isStoreParsedURL, Option.getD,
        List.append_nil, List.cons_append] <;>
      exact ⟨_, rfl, rfl⟩

/-- C1, at the input of `TestSeedCommand`: `seed --url=http://test.com` with the
mock datastore stores that URL once, under `AddNewDomains = true`, although the
configuration says false. -/
theorem seed_stores_parsed_url_once_witness :
    configLoads quietEnv seedFlags defaultConfig = true
    ∧ seedFlags.seedURL ≠ ""
    ∧ (mockCommander.Datastore ≠ none ∨ quietEnv.NewDatastore = none)
    ∧ quietEnv.ParseAndNormalizeURL seedFlags.seedURL = .ok testURL
    ∧ defaultConfig.AddNewDomains = false
    ∧ ∃ cfg1, storeCalls (run (cmd.seedCommand quietEnv seedFlags)
          (State.init mockCommander defaultConfig)).2
        = [(.storeParsedURL (.preset 2 true) testURL none, cfg1)]
      ∧ cfg1.AddNewDomains = true :=
  ⟨by decide, by decide, by decide, rfl, rfl,
    (seed_stores_parsed_url_once quietEnv seedFlags mockCommander defaultConfig testURL
      (by decide) (by decide) (by decide)).1 rfl⟩

/-- C2. If the `--url` of the seed command is empty or the parser rejects it,
`StoreParsedURL` is never called, and when the configuration loads the command
ends through `fatalf`, that is with exit status 1. Both revisions. -/
theorem seed_bad_url_exits_one (env : Env) (flags : Flags) (c : Commander) (cfg : Config) :
    ((flags.seedURL = "" ∨ ∃ err, env.ParseAndNormalizeURL flags.seedURL = .error err) →
      storeCalls (run (cmd.seedCommand env flags) (State.init c cfg)).2 = []
      ∧ (configLoads env flags cfg = true →
          (run (cmd.seedCommand env flags) (State.init c cfg)).1 = .exited 1))
    ∧ ((flags.seedURL = "" ∨ ∃ err, env.ParseURL flags.seedURL = .error err) →
      storeCalls (run (walker.Cmd.seedCommand env flags) (State.init c cfg)).2 = []
      ∧ (configLoads env flags cfg = true →
          (run (walker.Cmd.seedCommand env flags) (State.init c cfg)).1 = .exited 1)) := by
  obtain ⟨h, d, p, pf, ef, ex⟩ := c
  unfold configLoads
  constructor <;> intro hbad
  · unfold cmd.seedCommand run
    simp only [M.bind_apply, initCommand_apply, State.init]
    by_cases h0 : flags.seedURL = ""
    · by_cases h1 : flags.config = "" <;> by_cases h2 : env.WALKER_PPROF = "1" <;>
        cases h5 : (env.ReadConfigFile flags.config cfg).1 <;>
        simp only [h0, h1, h2, h5, reduceCtorEq, if_true, if_false, M.bind_apply,
          M.pure_apply, emit_apply, halt_apply, withDefer, getConfig_apply, setConfig_apply,
          getCommander_apply, modifyCommander_apply, ite_M_apply, storeCalls, cmd.fatalf,
          List.filter_append, List.filter_cons, List.filter_nil, List.nil_append,
          Event.isStoreParsedURL, List.append_nil, List.cons_append, decide_True, decide_False,
          Bool.true_or, Bool.false_or, Option.isNone_none, Option.isNone_some,
          Bool.false_eq_true, true_and, false_implies, implies_true, and_self]
    · obtain ⟨err, hparse⟩ := hbad.resolve_left h0
      by_cases h1 : flags.config = "" <;> by_cases h2 : env.WALKER_PPROF = "1" <;>
        cases h5 : (env.ReadConfigFile flags.config cfg).1 <;>
        simp only [h0, h1, h2, h5, hparse, reduceCtorEq, if_true, if_false, M.bind_apply,
          M.pure_apply, emit_apply, halt_apply, withDefer, getConfig_apply, setConfig_apply,
          getCommander_apply, modifyCommander_apply, ite_M_apply, storeCalls, cmd.fatalf,
          List.filter_append, List.filter_cons, List.filter_nil, List.nil_append,
          Event.isStoreParsedURL, List.append_nil, List.cons_append, decide_True, decide_False,
          Bool.true_or, Bool.false_or, Option.isNone_none, Option.isNone_some,
          Bool.false_eq_true, true_and, false_implies, implies_true, and_self]
  · unfold walker.Cmd.seedCommand run
    simp only [M.bind_apply, readConfig_apply, State.init]
    by_cases h0 : flags.seedURL = ""
    · by_cases h1 : flags.config = "" <;>
        cases h5 : (env.ReadConfigFile flags.config cfg).1 <;>
        simp only [h0, h1, h5, reduceCtorEq, if_true, if_false, M.bind_apply,
          M.pure_apply, emit_apply, halt_apply, withDefer, getConfig_apply, setConfig_apply,
          getCommander_apply, modifyCommander_apply, ite_M_apply, storeCalls, walker.Cmd.fatalf,
          List.filter_append, List.filter_cons, List.filter_nil, List.nil_append,
          Event.isStoreParsedURL, List.append_nil, List.cons_append, decide_True, decide_False,
          Bool.true_or, Bool.false_or, Option.isNone_none, Option.isNone_some,
          Bool.false_eq_true, true_and, false_implies, implies_true, and_self]
    · obtain ⟨err, hparse⟩ := hbad.resolve_left h0
      by_cases h1 : flags.config = "" <;>
        cases h5 : (env.ReadConfigFile flags.config cfg).1 <;>
        simp only [h0, h1, h5, hparse, reduceCtorEq, if_true, if_false, M.bind_apply,
          M.pure_apply, emit_apply, halt_apply, withDefer, getConfig_apply, setConfig_apply,
          getCommander_apply, modifyCommander_apply, ite_M_apply, storeCalls, walker.Cmd.fatalf,
          List.filter_append, List.filter_cons, List.filter_nil, List.nil_append,
          Event.isStoreParsedURL, List.append_nil, List.cons_append, decide_True, decide_False,
          Bool.true_or, Bool.false_or, Option.isNone_none, Option.isNone_some,
          Bool.false_eq_true, true_and, false_implies, implies_true, and_self]

/-- C2, at two inputs: `seed` without `--url`, and `seed --url=ftp://test.com`,
which the parser rejects. Both store nothing and exit with status 1. -/
theorem seed_bad_url_exits_one_witness :
    (noFlags.seedURL = ""
      ∧ storeCalls (run (cmd.seedCommand quietEnv noFlags)
          (State.init mockCommander defaultConfig)).2 = []
      ∧ (run (cmd.seedCommand quietEnv noFlags)
          (State.init mockCommander defaultConfig)).1 = .exited 1)
    ∧ (quietEnv.ParseAndNormalizeURL ftpSeedFlags.seedURL = .error "unsupported protocol scheme"
      ∧ storeCalls (run (cmd.seedCommand quietEnv ftpSeedFlags)
          (State.init mockCommander defaultConfig)).2 = []
      ∧ (run (cmd.seedCommand quietEnv ftpSeedFlags)
          (State.init mockCommander defaultConfig)).1 = .exited 1) :=
  ⟨⟨rfl,
    ((seed_bad_url_exits_one quietEnv noFlags mockCommander defaultConfig).1 (Or.inl rfl)).1,
    ((seed_bad_url_exits_one quietEnv noFlags mockCommander defaultConfig).1 (Or.inl rfl)).2
      (by decide)⟩,
   ⟨rfl,
    ((seed_bad_url_exits_one quietEnv ftpSeedFlags mockCommander defaultConfig).1
      (Or.inr ⟨_, rfl⟩)).1,
    ((seed_bad_url_exits_one quietEnv ftpSeedFlags mockCommander defaultConfig).1
      (Or.inr ⟨_, rfl⟩)).2 (by decide)⟩⟩

/-- C3. For every preset handler and datastore, and whatever the dispatcher field
holds, the run of the fetch command is exactly: the configuration step, the
construction of a `FetchManager` from the preset datastore and handler, the
launch of its `Start`, the wait for SIGINT and, once SIGINT has arrived, `Stop`
on that manager; nothing at all after a config file that fails to load. No event
of the run is a `StartDispatcher` or a `StopDispatcher`. Both revisions. -/
theorem fetch_starts_only_manager (env : Env) (flags : Flags) (c : Commander) (cfg : Config)
    (h : Handler) (ds : Datastore) (hh : c.Handler = some h) (hds : c.Datastore = some ds) :
    ((run (cmd.fetchCommand env flags) (State.init c cfg)).2.events =
      if configLoads env flags cfg then
        initEvents env flags
          ++ [.newFetchManager ⟨some ds, some h⟩, .goManagerStart ⟨some ds, some h⟩,
              .signalNotify]
          ++ (if env.sigintArrives then [.sigint, .managerStop ⟨some ds, some h⟩] else [])
      else [.readConfigFile flags.config])
    ∧ ((run (walker.Cmd.fetchCommand env flags) (State.init c cfg)).2.events =
      if configLoads env flags cfg then
        readConfigEvents flags
          ++ [.newFetchManager ⟨some ds, some h⟩, .goManagerStart ⟨some ds, some h⟩,
              .signalNotify]
          ++ (if env.sigintArrives then [.sigint, .managerStop ⟨some ds, some h⟩] else [])
      else [.readConfigFile flags.config])
    ∧ (∀ e ∈ (run (cmd.fetchCommand env flags) (State.init c cfg)).2.events,
        e.isDispatcherCall = false)
    ∧ (∀ e ∈ (run (walker.Cmd.fetchCommand env flags) (State.init c cfg)).2.events,
        e.isDispatcherCall = false) := by
  obtain ⟨h0, d0, p, pf, ef, ex⟩ := c
  simp only at hh hds
  subst hh hds
  obtain ⟨rcf, pprof, nd, pu, pnu, fl, sg, oc, gs, gcs, ts, rh, sd⟩ := env
  obtain ⟨config, noConsole, seedURL, outfile, rl, rb, rm⟩ := flags
  have k1 : (run (cmd.fetchCommand ⟨rcf, pprof, nd, pu, pnu, fl, sg, oc, gs, gcs, ts, rh, sd⟩
        ⟨config, noConsole, seedURL, outfile, rl, rb, rm⟩)
      (State.init ⟨some h, some ds, p, pf, ef, ex⟩ cfg)).2.events =
      if configLoads ⟨rcf, pprof, nd, pu, pnu, fl, sg, oc, gs, gcs, ts, rh, sd⟩
          ⟨config, noConsole, seedURL, outfile, rl, rb, rm⟩ cfg then
        initEvents ⟨rcf, pprof, nd, pu, pnu, fl, sg, oc, gs, gcs, ts, rh, sd⟩
            ⟨config, noConsole, seedURL, outfile, rl, rb, rm⟩
          ++ [.newFetchManager ⟨some ds, some h⟩, .goManagerStart ⟨some ds, some h⟩,
              .signalNotify]
          ++ (if sg then [.sigint, .managerStop ⟨some ds, some h⟩] else [])
      else [.readConfigFile config] := by
    unfold cmd.fetchCommand run configLoads initEvents readConfigEvents
    simp only [M.bind_apply, initCommand_apply, State.init]
    by_cases h1 : config = "" <;> by_cases h2 : pprof = "1" <;>
      cases h5 : (rcf config cfg).1 <;>
      simp only [h1, h2, h5, if_true, if_false, decide_True, decide_False, Bool.true_or,
        Bool.false_or, Option.isNone_none, Option.isNone_some, Bool.false_eq_true] <;>
      cases sg <;> rfl
  have k2 : (run (walker.Cmd.fetchCommand
        ⟨rcf, pprof, nd, pu, pnu, fl, sg, oc, gs, gcs, ts, rh, sd⟩
        ⟨config, noConsole, seedURL, outfile, rl, rb, rm⟩)
      (State.init ⟨some h, some ds, p, pf, ef, ex⟩ cfg)).2.events =
      if configLoads ⟨rcf, pprof, nd, pu, pnu, fl, sg, oc, gs, gcs, ts, rh, sd⟩
          ⟨config, noConsole, seedURL, outfile, rl, rb, rm⟩ cfg then
        readConfigEvents ⟨config, noConsole, seedURL, outfile, rl, rb, rm⟩
          ++ [.newFetchManager ⟨some ds, some h⟩, .goManagerStart ⟨some ds, some h⟩,
              .signalNotify]
          ++ (if sg then [.sigint, .managerStop ⟨some ds, some h⟩] else [])
      else [.readConfigFile config] := by
    unfold walker.Cmd.fetchCommand run configLoads readConfigEvents
    simp only [M.bind_apply, readConfig_apply, State.init]
    by_cases h1 : config = "" <;>
      cases h5 : (rcf config cfg).1 <;>
      simp only [h1, h5, if_true, if_false, decide_True, decide_False, Bool.true_or,
        Bool.false_or, Option.isNone_none, Option.isNone_some, Bool.false_eq_true] <;>
      cases sg <;> rfl
  refine ⟨k1, k2, ?_, ?_⟩
  · rw [k1]
    unfold initEvents readConfigEvents
    split_ifs <;> simp [Event.isDispatcherCall]
  · rw [k2]
    unfold readConfigEvents
    split_ifs <;> simp [Event.isDispatcherCall]

/-- C3, at the input of `TestFetchCommand`: `fetch` with the three mocks preset. -/
theorem fetch_starts_only_manager_witness :
    mockCommander.Handler = some (.preset 1)
    ∧ mockCommander.Datastore = some (.preset 2 true)
    ∧ (run (cmd.fetchCommand quietEnv noFlags) (State.init mockCommander defaultConfig)).2.events
        = [.newFetchManager ⟨some (.preset 2 true), some (.preset 1)⟩,
           .goManagerStart ⟨some (.preset 2 true), some (.preset 1)⟩,
           .signalNotify, .sigint,
           .managerStop ⟨some (.preset 2 true), some (.preset 1)⟩] :=
  ⟨rfl, rfl,
    (fetch_starts_only_manager quietEnv noFlags mockCommander defaultConfig (.preset 1)
      (.preset 2 true) rfl rfl).1⟩

/-- C6, the code at a failing input: a binary sets its own dispatcher and no
datastore, and runs `crawl`. The default datastore is created, the dispatcher
field is overwritten with the default dispatcher, and it is the default
dispatcher that is started and stopped; the dispatcher of the binary is neither.
The dispatch command, run from the same commander, starts and stops the
dispatcher of the binary. Both revisions of crawl. -/
theorem crawl_default_datastore_replaces_dispatcher :
    (run (cmd.crawlCommand quietEnv { noFlags with noConsole := true })
        (State.init { bareCommander with Dispatcher := some (.preset 3) }
          defaultConfig)).2.events
      = [.newDatastore,
         .newFetchManager ⟨some .cassandra, some .simplehandler⟩,
         .goManagerStart ⟨some .cassandra, some .simplehandler⟩,
         .goStartDispatcher .cassandra,
         .signalNotify, .sigint,
         .stopDispatcher .cassandra,
         .managerStop ⟨some .cassandra, some .simplehandler⟩]
    ∧ (run (walker.Cmd.crawlCommand quietEnv { noFlags with noConsole := true })
        (State.init { bareCommander with Dispatcher := some (.preset 3) }
          defaultConfig)).2.events
      = [.newDatastore,
         .newFetchManager ⟨some .cassandra, some .simplehandler⟩,
         .goManagerStart ⟨some .cassandra, some .simplehandler⟩,
         .goStartDispatcher .cassandra,
         .signalNotify, .sigint,
         .stopDispatcher .cassandra,
         .managerStop ⟨some .cassandra, some .simplehandler⟩]
    ∧ (run (cmd.crawlCommand quietEnv { noFlags with noConsole := true })
        (State.init { bareCommander with Dispatcher := some (.preset 3) }
          defaultConfig)).2.commander.Dispatcher = some .cassandra
    ∧ (run (cmd.dispatchCommand quietEnv noFlags)
        (State.init { bareCommander with Dispatcher := some (.preset 3) }
          defaultConfig)).2.events
      = [.goStartDispatcher (.preset 3), .signalNotify, .sigint,
         .stopDispatcher (.preset 3)] :=
  ⟨rfl, rfl, rfl, rfl⟩

/-- C7, the code at two failing inputs: `readlink` without `--url`, and `readlink`
with a link and both `--body-only` and `--meta-only`, each run with no stream
installed beforehand. `setUpCommanderStreams` leaves `errorf` nil (its second
branch assigns `printf`), so the call of `errorf` is a call of a nil function:
the command panics, which is exit status 2 and not 1, and the error message is
never written. Nothing is written and `FindLink` is not called. -/
theorem readlink_bad_arguments_without_streams :
    (run (cmd.readLinkCommand quietEnv noFlags)
        (State.init mockCommander defaultConfig)).1 = .panicked .nilDereference
    ∧ (run (cmd.readLinkCommand quietEnv noFlags)
        (State.init mockCommander defaultConfig)).1.status = some 2
    ∧ (run (cmd.readLinkCommand quietEnv noFlags)
        (State.init mockCommander defaultConfig)).2.events = []
    ∧ (run (cmd.readLinkCommand quietEnv noFlags)
        (State.init mockCommander defaultConfig)).2.commander.errorf = none
    ∧ (run (cmd.readLinkCommand quietEnv noFlags)
        (State.init mockCommander defaultConfig)).2.commander.printf = some .osStderr
    ∧ (run (cmd.readLinkCommand quietEnv bothOnlyFlags)
        (State.init mockCommander defaultConfig)).1 = .panicked .nilDereference
    ∧ (run (cmd.readLinkCommand quietEnv bothOnlyFlags)
        (State.init mockCommander defaultConfig)).2.events = [] :=
  ⟨rfl, rfl, rfl, rfl, rfl, rfl, rfl⟩

/-- C8 as stated fails: `crawl --config=walker.yaml` with a file that cannot be
loaded ends in a panic that carries the error of the loader, not in an exit
with status 1. -/
theorem config_failure_is_not_exit_one :
    (run (cmd.crawlCommand brokenConfigEnv configFlags)
        (State.init mockCommander defaultConfig)).1
      = .panicked (.error "open walker.yaml: no such file or directory")
    ∧ (run (cmd.crawlCommand brokenConfigEnv configFlags)
        (State.init mockCommander defaultConfig)).1.status ≠ some 1 :=
  ⟨rfl, by decide⟩

/-- C8, amended. When `--config` names a file that `walker.ReadConfigFile` fails
to load, every command (crawl, fetch, dispatch, seed, schema, console and
readlink of package `cmd`; crawl, fetch, dispatch, seed and schema of package
`walker`) ends in a panic that carries the error of the loader, and the reading
of the config file is the only event of the run: no datastore, dispatcher or
handler is called. -/
theorem config_failure_panics (env : Env) (flags : Flags) (c : Commander) (cfg : Config)
    (err : String) (hfile : flags.config ≠ "")
    (hfail : (env.ReadConfigFile flags.config cfg).1 = some err) :
    (∀ command : cmd.Command,
      (run (cmd.Execute env command flags) (State.init c cfg)).1 = .panicked (.error err)
      ∧ (run (cmd.Execute env command flags) (State.init c cfg)).2.events
          = [.readConfigFile flags.config])
    ∧ (∀ m ∈ [walker.Cmd.crawlCommand env flags, walker.Cmd.fetchCommand env flags,
          walker.Cmd.dispatchCommand env flags, walker.Cmd.seedCommand env flags,
          walker.Cmd.schemaCommand env flags],
      (run m (State.init c cfg)).1 = .panicked (.error err)
      ∧ (run m (State.init c cfg)).2.events = [.readConfigFile flags.config]) := by
  constructor
  · intro command
    cases command
    case readlink =>
      obtain ⟨c1, hc1⟩ := setUpCommanderStreams_apply (State.init c cfg)
      unfold cmd.Execute cmd.readLinkCommand
      rw [run_bind_ok _ _ _ _ _ hc1, run_bind_ok _ _ _ _ _ (getCommander_apply _)]
      dsimp only
      rw [run_bind_ok _ _ _ _ _ (getCommander_apply _)]
      dsimp only
      rw [run_bind_ok _ _ _ _ _ (getCommander_apply _)]
      dsimp only
      rw [run_bind_halt _ _ _ _ _ (initCommand_fails env flags _ err hfile hfail)]
      exact ⟨rfl, rfl⟩
    all_goals
      simp only [cmd.Execute]
      first
        | unfold cmd.crawlCommand
        | unfold cmd.fetchCommand
        | unfold cmd.dispatchCommand
        | unfold cmd.seedCommand
        | unfold cmd.schemaCommand
        | unfold cmd.consoleCommand
    all_goals
      rw [run_bind_halt _ _ _ _ _ (initCommand_fails env flags _ err hfile hfail)]
      exact ⟨rfl, rfl⟩
  · intro m hm
    simp only [List.mem_cons, List.mem_singleton, List.not_mem_nil, or_false] at hm
    rcases hm with hm | hm | hm | hm | hm <;> subst hm <;>
      first
        | unfold walker.Cmd.crawlCommand
        | unfold walker.Cmd.fetchCommand
        | unfold walker.Cmd.dispatchCommand
        | unfold walker.Cmd.seedCommand
        | unfold walker.Cmd.schemaCommand
    all_goals
      rw [run_bind_halt _ _ _ _ _ (readConfig_fails env flags _ err hfile hfail)]
      exact ⟨rfl, rfl⟩

/-- C8 amended, at an input: `seed --config=walker.yaml` with a file that cannot be
loaded panics with the error of the loader after reading the file and nothing
else. -/
theorem config_failure_panics_witness :
    configFlags.config ≠ ""
    ∧ (brokenConfigEnv.ReadConfigFile configFlags.config defaultConfig).1
        = some "open walker.yaml: no such file or directory"
    ∧ (run (cmd.Execute brokenConfigEnv .seed configFlags)
        (State.init mockCommander defaultConfig)).1
        = .panicked (.error "open walker.yaml: no such file or directory")
    ∧ (run (cmd.Execute brokenConfigEnv .seed configFlags)
        (State.init mockCommander defaultConfig)).2.events = [.readConfigFile "walker.yaml"] :=
  ⟨by decide, rfl,
    ((config_failure_panics brokenConfigEnv configFlags mockCommander defaultConfig _
      (by decide) rfl).1 .seed).1,
    ((config_failure_panics brokenConfigEnv configFlags mockCommander defaultConfig _
      (by decide) rfl).1 .seed).2⟩

/-- C9. For each of crawl, fetch, dispatch and seed, in both revisions and from
every commander, configuration and environment: when `--config` is not empty the
first event of the run is the reading of the named config file, so that it
precedes every datastore, dispatcher and handler call and the construction of
the `FetchManager`, and no config file is read after it; when `--config` is empty
no event of the run reads a config file. -/
theorem config_file_read_first (env : Env) (flags : Flags) (c : Commander) (cfg : Config) :
    (∀ command ∈ [cmd.Command.crawl, .fetch, .dispatch, .seed],
      ReadsConfigFirst flags
        (run (cmd.Execute env command flags) (State.init c cfg)).2.events)
    ∧ (∀ m ∈ [walker.Cmd.crawlCommand env flags, walker.Cmd.fetchCommand env flags,
          walker.Cmd.dispatchCommand env flags, walker.Cmd.seedCommand env flags],
      ReadsConfigFirst flags (run m (State.init c cfg)).2.events) := by
  constructor
  · intro command hcommand
    apply readsConfigFirst_of_appendsAfter
    simp only [List.mem_cons, List.mem_singleton, List.not_mem_nil, or_false] at hcommand
    rcases hcommand with h | h | h | h <;> subst h <;>
      simp only [cmd.Execute] <;>
      first
        | unfold cmd.crawlCommand
        | unfold cmd.fetchCommand
        | unfold cmd.dispatchCommand
        | unfold cmd.seedCommand
    all_goals
      refine AppendsAfter.bind (AppendsAfter.initCommand env flags) (fun _ => ?_)
      dsimp only
      repeat' first
        | with_reducible exact AppendsAfter.pure _ _
        | with_reducible exact AppendsAfter.halt _ _
        | with_reducible exact AppendsAfter.panic _ _
        | with_reducible refine AppendsAfter.emit _ _ ?_
        | with_reducible exact AppendsAfter.getCommander _
        | with_reducible exact AppendsAfter.getConfig _
        | with_reducible exact AppendsAfter.setConfig _ _
        | with_reducible exact AppendsAfter.modifyCommander _ _
        | with_reducible refine AppendsAfter.awaitSigint _ _ ?_ ?_
        | with_reducible exact AppendsAfter.goroutinePanic _ _ _ _
        | with_reducible refine AppendsAfter.receiveSigint _ _ _ ?_
        | with_reducible refine AppendsAfter.fatalf _ _ (fun _ => ?_)
        | with_reducible refine AppendsAfter.withDefer ?_ ?_
        | with_reducible refine AppendsAfter.bind ?_ (fun _ => ?_)
        | with_reducible refine AppendsAfter.ite _ ?_ ?_
        | (show NotReadConfig _; exact rfl)
        | dsimp only
        | split
  · intro m hm
    apply readsConfigFirst_of_appendsAfter
    simp only [List.mem_cons, List.mem_singleton, List.not_mem_nil, or_false] at hm
    rcases hm with h | h | h | h <;> subst h <;>
      first
        | unfold walker.Cmd.crawlCommand
        | unfold walker.Cmd.fetchCommand
        | unfold walker.Cmd.dispatchCommand
        | unfold walker.Cmd.seedCommand
    all_goals
      refine AppendsAfter.bind (AppendsAfter.readConfig env flags) (fun _ => ?_)
      dsimp only
      repeat' first
        | with_reducible exact AppendsAfter.pure _ _
        | with_reducible exact AppendsAfter.halt _ _
        | with_reducible exact AppendsAfter.panic _ _
        | with_reducible refine AppendsAfter.emit _ _ ?_
        | with_reducible exact AppendsAfter.getCommander _
        | with_reducible exact AppendsAfter.getConfig _
        | with_reducible exact AppendsAfter.setConfig _ _
        | with_reducible exact AppendsAfter.modifyCommander _ _
        | with_reducible refine AppendsAfter.awaitSigint _ _ ?_ ?_
        | with_reducible exact AppendsAfter.goroutinePanic _ _ _ _
        | with_reducible refine AppendsAfter.receiveSigint _ _ _ ?_
        | with_reducible refine AppendsAfter.fatalf_walker _ _ (fun _ => ?_)
        | with_reducible refine AppendsAfter.withDefer ?_ ?_
        | with_reducible refine AppendsAfter.bind ?_ (fun _ => ?_)
        | with_reducible refine AppendsAfter.ite _ ?_ ?_
        | (show NotReadConfig _; exact rfl)
        | dsimp only
        | split

/-! ## URL normalization: lemmas -/

theorem toNat_ofNat_of_lt (n : Nat) (h : n < 55296) : (Char.ofNat n).toNat = n := by
  have hv : n.isValidChar := Or.inl h
  simp only [Char.ofNat, hv, dite_true, Char.ofNatAux, Char.toNat]
  show (UInt32.ofNat' n _).toNat = n
  simp [UInt32.toNat, UInt32.ofNat']

theorem toNat_toLower (c : Char) :
    c.toLower.toNat = if 65 ≤ c.toNat ∧ c.toNat ≤ 90 then c.toNat + 32 else c.toNat := by
  unfold Char.toLower
  by_cases h : c.toNat ≥ 65 ∧ c.toNat ≤ 90
  · simp only [h, and_self, if_true]
    rw [toNat_ofNat_of_lt _ (by omega)]
  · have h' : ¬ (65 ≤ c.toNat ∧ c.toNat ≤ 90) := h
    simp only [h, h', if_false]

theorem char_eq_of_toNat_eq {c d : Char} (h : c.toNat = d.toNat) : c = d := by
  rw [← Char.ofNat_toNat c, ← Char.ofNat_toNat d, h]

theorem toLower_toLower (c : Char) : c.toLower.toLower = c.toLower := by
  apply char_eq_of_toNat_eq
  rw [toNat_toLower c.toLower, toNat_toLower c]
  split_ifs <;> omega

theorem asciiLower_asciiLower (cs : List Char) : asciiLower (asciiLower cs) = asciiLower cs := by
  unfold asciiLower
  rw [List.map_map]
  apply List.map_congr_left
  intro c _
  exact toLower_toLower c

theorem toLower_ne_hash {c : Char} (h : c ≠ '#') : c.toLower ≠ '#' := by
  intro hc
  have h1 := toNat_toLower c
  rw [hc] at h1
  have h2 : ('#' : Char).toNat = 35 := rfl
  rw [h2] at h1
  apply h
  apply char_eq_of_toNat_eq
  rw [h2]
  split_ifs at h1 <;> omega

theorem not_mem_asciiLower_hash {cs : List Char} (h : '#' ∉ cs) : '#' ∉ asciiLower cs := by
  unfold asciiLower
  intro hm
  obtain ⟨c, hc, hcl⟩ := List.mem_map.1 hm
  exact toLower_ne_hash (fun e => h (e ▸ hc)) hcl

theorem cutAt_fst_not_mem (sep : Char) (l : List Char) : sep ∉ (cutAt sep l).1 := by
  induction l with
  | nil => simp [cutAt]
  | cons c cs ih =>
    unfold cutAt
    by_cases h : c = sep
    · simp [h]
    · simp only [h, if_false, List.mem_cons, not_or]
      exact ⟨fun e => h e.symm, ih⟩

theorem mem_of_mem_cutAt_fst {sep x : Char} {l : List Char} (h : x ∈ (cutAt sep l).1) :
    x ∈ l := by
  induction l with
  | nil => simp [cutAt] at h
  | cons c cs ih =>
    unfold cutAt at h
    by_cases hc : c = sep
    · simp [hc] at h
    · simp only [hc, if_false, List.mem_cons] at h
      rcases h with h | h
      · exact h ▸ List.mem_cons_self _ _
      · exact List.mem_cons_of_mem _ (ih h)

theorem mem_of_mem_cutAt_snd {sep x : Char} {l r : List Char} (hr : (cutAt sep l).2 = some r)
    (h : x ∈ r) : x ∈ l := by
  induction l with
  | nil => simp [cutAt] at hr
  | cons c cs ih =>
    unfold cutAt at hr
    by_cases hc : c = sep
    · simp only [hc, if_true, Option.some.injEq] at hr
      exact List.mem_cons_of_mem _ (hr ▸ h)
    · simp only [hc, if_false] at hr
      exact List.mem_cons_of_mem _ (ih hr)

theorem mem_of_mem_cutAt_snd_getD {sep x : Char} {l : List Char}
    (h : x ∈ ((cutAt sep l).2).getD []) : x ∈ l := by
  cases hr : (cutAt sep l).2 with
  | none => simp [hr] at h
  | some r =>
    rw [hr] at h
    exact mem_of_mem_cutAt_snd hr h

theorem splitChars_ne_nil (sep : Char) (l : List Char) : splitChars sep l ≠ [] := by
  induction l with
  | nil => simp [splitChars]
  | cons c cs ih =>
    unfold splitChars
    by_cases h : c = sep
    · simp [h]
    · simp only [h, if_false]
      split <;> simp

theorem mem_of_mem_splitChars {sep x : Char} {l p : List Char} (hp : p ∈ splitChars sep l)
    (h : x ∈ p) : x ∈ l := by
  induction l generalizing p with
  | nil =>
    simp only [splitChars, List.mem_singleton] at hp
    subst hp
    exact h
  | cons c cs ih =>
    unfold splitChars at hp
    by_cases hc : c = sep
    · simp only [hc, if_true, List.mem_cons] at hp
      rcases hp with hp | hp
      · subst hp
        simp at h
      · exact List.mem_cons_of_mem _ (ih hp h)
    · simp only [hc, if_false] at hp
      cases hs : splitChars sep cs with
      | nil => exact absurd hs (splitChars_ne_nil sep cs)
      | cons w ws =>
        rw [hs] at hp
        simp only [List.mem_cons] at hp
        rcases hp with hp | hp
        · subst hp
          rcases List.mem_cons.1 h with h | h
          · exact h ▸ List.mem_cons_self _ _
          · exact List.mem_cons_of_mem _ (ih (hs ▸ List.mem_cons_self _ _) h)
        · exact List.mem_cons_of_mem _ (ih (hs ▸ List.mem_cons_of_mem _ hp) h)

theorem sep_not_mem_of_mem_splitChars {sep : Char} {l p : List Char}
    (hp : p ∈ splitChars sep l) : sep ∉ p := by
  induction l generalizing p with
  | nil =>
    simp only [splitChars, List.mem_singleton] at hp
    subst hp
    simp
  | cons c cs ih =>
    unfold splitChars at hp
    by_cases hc : c = sep
    · simp only [hc, if_true, List.mem_cons] at hp
      rcases hp with hp | hp
      · subst hp
        simp
      · exact ih hp
    · simp only [hc, if_false] at hp
      cases hs : splitChars sep cs with
      | nil => exact absurd hs (splitChars_ne_nil sep cs)
      | cons w ws =>
        rw [hs] at hp
        simp only [List.mem_cons] at hp
        rcases hp with hp | hp
        · subst hp
          simp only [List.mem_cons, not_or]
          exact ⟨fun e => hc e.symm, ih (hs ▸ List.mem_cons_self _ _)⟩
        · exact ih (hs ▸ List.mem_cons_of_mem _ hp)

theorem splitChars_of_not_mem {sep : Char} {x : List Char} (h : sep ∉ x) :
    splitChars sep x = [x] := by
  induction x with
  | nil => rfl
  | cons c cs ih =>
    simp only [List.mem_cons, not_or] at h
    unfold splitChars
    have hc : ¬ c = sep := fun e => h.1 e.symm
    simp only [hc, if_false, ih h.2]

theorem splitChars_append_sep {sep : Char} {x : List Char} (h : sep ∉ x) (rest : List Char) :
    splitChars sep (x ++ sep :: rest) = x :: splitChars sep rest := by
  induction x with
  | nil => simp [splitChars]
  | cons c cs ih =>
    simp only [List.mem_cons, not_or] at h
    have hc : ¬ c = sep := fun e => h.1 e.symm
    rw [List.cons_append, splitChars]
    simp only [hc, if_false, ih h.2]

/-- Splitting undoes joining when no piece holds the separator. -/
theorem splitChars_joinWith {sep : Char} {xs : List (List Char)} (hne : xs ≠ [])
    (h : ∀ x ∈ xs, sep ∉ x) : splitChars sep (joinWith sep xs) = xs := by
  induction xs with
  | nil => exact absurd rfl hne
  | cons x rest ih =>
    cases rest with
    | nil =>
      simp only [joinWith]
      exact splitChars_of_not_mem (h x (List.mem_cons_self _ _))
    | cons y ys =>
      simp only [joinWith]
      rw [splitChars_append_sep (h x (List.mem_cons_self _ _))]
      rw [ih (by simp) (fun z hz => h z (List.mem_cons_of_mem _ hz))]

theorem mem_joinWith {sep c : Char} {xs : List (List Char)} (h : c ∈ joinWith sep xs) :
    c = sep ∨ ∃ x ∈ xs, c ∈ x := by
  induction xs with
  | nil => simp [joinWith] at h
  | cons x rest ih =>
    cases rest with
    | nil =>
      simp only [joinWith] at h
      exact Or.inr ⟨x, List.mem_cons_self _ _, h⟩
    | cons y ys =>
      simp only [joinWith, List.mem_append, List.mem_cons] at h
      rcases h with h | h | h
      · exact Or.inr ⟨x, List.mem_cons_self _ _, h⟩
      · exact Or.inl h
      · rcases ih h with h | ⟨z, hz, hcz⟩
        · exact Or.inl h
        · exact Or.inr ⟨z, List.mem_cons_of_mem _ hz, hcz⟩

theorem keyLe_total (a b : List Char) : keyLe a b = true ∨ keyLe b a = true := by
  induction a generalizing b with
  | nil => exact Or.inl (by simp [keyLe])
  | cons x xs ih =>
    cases b with
    | nil => exact Or.inr (by simp [keyLe])
    | cons y ys =>
      simp only [keyLe]
      rcases Nat.lt_trichotomy x.toNat y.toNat with h | h | h
      · simp [h]
      · have h1 : ¬ x.toNat < y.toNat := by omega
        have h2 : ¬ y.toNat < x.toNat := by omega
        simp only [h1, h2, h, if_false, if_true, lt_self_iff_false]
        exact ih ys
      · simp [h]

theorem keyLe_trans {a b c : List Char} (hab : keyLe a b = true) (hbc : keyLe b c = true) :
    keyLe a c = true := by
  induction a generalizing b c with
  | nil => simp [keyLe]
  | cons x xs ih =>
    cases b with
    | nil => simp [keyLe] at hab
    | cons y ys =>
      cases c with
      | nil => simp [keyLe] at hbc
      | cons z zs =>
        simp only [keyLe] at hab hbc ⊢
        by_cases h1 : x.toNat < y.toNat
        · by_cases h2 : y.toNat < z.toNat
          · have : x.toNat < z.toNat := by omega
            simp [this]
          · by_cases h3 : y.toNat = z.toNat
            · have : x.toNat < z.toNat := by omega
              simp [this]
            · simp [h2, h3] at hbc
        · by_cases h4 : x.toNat = y.toNat
          · simp only [h1, h4, if_false, if_true, lt_self_iff_false] at hab
            by_cases h2 : y.toNat < z.toNat
            · have : x.toNat < z.toNat := by omega
              simp [this]
            · by_cases h3 : y.toNat = z.toNat
              · simp only [h2, h3, if_false, if_true, lt_self_iff_false] at hbc
                have e1 : ¬ x.toNat < z.toNat := by omega
                have e2 : x.toNat = z.toNat := by omega
                simp only [e1, e2, if_false, if_true, lt_self_iff_false]
                exact ih hab hbc
              · simp [h2, h3] at hbc
          · simp [h1, h4] at hab

theorem paramLe_isTotal : IsTotal (List Char) paramLe :=
  ⟨fun p q => keyLe_total (paramName p) (paramName q)⟩

theorem paramLe_isTrans : IsTrans (List Char) paramLe :=
  ⟨fun _ _ _ hab hbc => keyLe_trans hab hbc⟩

/-- The parameters of a canonical query, read back from its text. -/
theorem queryParams_normalizeQuery (sids : List String) (q : List Char) :
    queryParams (normalizeQuery sids q) = []
    ∨ queryParams (normalizeQuery sids q)
        = ((queryParams q).filter fun p => !isSessionId sids p).insertionSort paramLe := by
  unfold normalizeQuery
  generalize hxs : ((queryParams q).filter fun p => !isSessionId sids p).insertionSort paramLe
    = xs
  by_cases hj : joinWith '&' xs = []
  · exact Or.inl (by simp [queryParams, hj])
  · right
    have hne : xs ≠ [] := by
      intro e
      exact hj (by simp [e, joinWith])
    have hsep : ∀ x ∈ xs, '&' ∉ x := by
      intro x hx
      rw [← hxs, List.mem_insertionSort] at hx
      have hx' := (List.mem_filter.1 hx).1
      unfold queryParams at hx'
      split_ifs at hx' with hq
      · simp at hx'
      · exact sep_not_mem_of_mem_splitChars hx'
    simp only [queryParams, hj, if_false]
    exact splitChars_joinWith hne hsep

/-- The segments of a canonical path, read back from its text. -/
theorem splitChars_normalizePath (sids : List String) (path : List Char) :
    splitChars '/' (normalizePath sids path)
      = if path = [] then [[], []] else (splitChars '/' path).map (stripSegment sids) := by
  unfold normalizePath
  by_cases hp : path = []
  · simp only [hp, if_true]
    rfl
  · simp only [hp, if_false]
    apply splitChars_joinWith
    · simpa using splitChars_ne_nil '/' path
    · intro x hx
      obtain ⟨seg, hseg, rfl⟩ := List.mem_map.1 hx
      intro hmem
      have hseg' : '/' ∉ seg := sep_not_mem_of_mem_splitChars hseg
      unfold stripSegment at hmem
      cases hs : splitChars ';' seg with
      | nil => simp [hs] at hmem
      | cons name params =>
        rw [hs] at hmem
        rcases mem_joinWith hmem with h | ⟨y, hy, hcy⟩
        · exact absurd h (by decide)
        · have hy' : y ∈ splitChars ';' seg := by
            rw [hs]
            rcases List.mem_cons.1 hy with hy | hy
            · exact hy ▸ List.mem_cons_self _ _
            · exact List.mem_cons_of_mem _ (List.mem_filter.1 hy).1
          exact hseg' (mem_of_mem_splitChars hy' hcy)

/-- The parameters of a canonical segment, read back from its text. -/
theorem splitChars_stripSegment (sids : List String) (seg : List Char) :
    ∀ p ∈ (splitChars ';' (stripSegment sids seg)).tail, isSessionId sids p = false := by
  unfold stripSegment
  cases hs : splitChars ';' seg with
  | nil => exact absurd hs (splitChars_ne_nil ';' seg)
  | cons name params =>
    simp only
    have hsep : ∀ x ∈ name :: params.filter (fun p => !isSessionId sids p), ';' ∉ x := by
      intro x hx
      have hx' : x ∈ splitChars ';' seg := by
        rw [hs]
        rcases List.mem_cons.1 hx with hx | hx
        · exact hx ▸ List.mem_cons_self _ _
        · exact List.mem_cons_of_mem _ (List.mem_filter.1 hx).1
      exact sep_not_mem_of_mem_splitChars hx'
    rw [splitChars_joinWith (by simp) hsep]
    intro p hp
    simp only [List.tail_cons] at hp
    simpa using (List.mem_filter.1 hp).2

/-- What a successful parse is made of. -/
theorem ParseURL_ok {toASCII : List Char → List Char} {sids : List String} {input : String}
    {u : URL} (h : ParseURL toASCII sids input = .ok u) :
    ∃ sch host port path query : List Char,
      (asciiLower sch = "http".toList ∨ asciiLower sch = "https".toList)
      ∧ '#' ∉ host ∧ '#' ∉ port ∧ '#' ∉ path ∧ '#' ∉ query
      ∧ u = { scheme := String.mk (asciiLower sch)
              host := String.mk (idnHost toASCII (asciiLower host))
              port := String.mk (keepPort (asciiLower sch) port)
              path := String.mk (normalizePath sids path)
              query := String.mk (normalizeQuery sids query) } := by
  unfold ParseURL at h
  simp only at h
  have hfrag : '#' ∉ (cutAt '#' input.toList).1 := cutAt_fst_not_mem _ _
  generalize (cutAt '#' input.toList).1 = body at h hfrag
  have hq : '#' ∉ ((cutAt '?' body).2).getD [] :=
    fun hm => hfrag (mem_of_mem_cutAt_snd_getD hm)
  have hb : '#' ∉ (cutAt '?' body).1 := fun hm => hfrag (mem_of_mem_cutAt_fst hm)
  generalize ((cutAt '?' body).2).getD [] = query at h hq
  generalize (cutAt '?' body).1 = beforeQuery at h hb
  split at h
  · exact absurd h (by simp)
  · rename_i sch rest hcut
    have hrest : (cutAt ':' beforeQuery).2 = some rest := by rw [hcut]
    have hr : '#' ∉ rest := fun hm => hb (mem_of_mem_cutAt_snd hrest hm)
    split_ifs at h with hs
    split at h
    · rename_i hostAndPath
      have hhp : '#' ∉ hostAndPath := fun hm =>
        hr (List.mem_cons_of_mem _ (List.mem_cons_of_mem _ hm))
      have hauth : '#' ∉ hostAndPath.takeWhile (· ≠ '/') :=
        fun hm => hhp ((List.takeWhile_sublist _).subset hm)
      have hpath : '#' ∉ hostAndPath.dropWhile (· ≠ '/') :=
        fun hm => hhp ((List.dropWhile_sublist _).subset hm)
      split_ifs at h with hhost
      refine ⟨sch, (cutAt ':' (hostAndPath.takeWhile (· ≠ '/'))).1,
        ((cutAt ':' (hostAndPath.takeWhile (· ≠ '/'))).2).getD [],
        hostAndPath.dropWhile (· ≠ '/'), query, hs, ?_, ?_, hpath, hq, ?_⟩
      · exact fun hm => hauth (mem_of_mem_cutAt_fst hm)
      · exact fun hm => hauth (mem_of_mem_cutAt_snd_getD hm)
      · simp only [Except.ok.injEq] at h
        exact h.symm
    · exact absurd h (by simp)

theorem not_mem_normalizePath_hash {sids : List String} {path : List Char} (h : '#' ∉ path) :
    '#' ∉ normalizePath sids path := by
  unfold normalizePath
  split_ifs with hp
  · decide
  · intro hm
    rcases mem_joinWith hm with e | ⟨x, hx, hcx⟩
    · exact absurd e (by decide)
    · obtain ⟨seg, hseg, rfl⟩ := List.mem_map.1 hx
      unfold stripSegment at hcx
      cases hs : splitChars ';' seg with
      | nil => simp [hs] at hcx
      | cons name params =>
        rw [hs] at hcx
        rcases mem_joinWith hcx with e | ⟨y, hy, hcy⟩
        · exact absurd e (by decide)
        · have hy' : y ∈ splitChars ';' seg := by
            rw [hs]
            rcases List.mem_cons.1 hy with hy | hy
            · exact hy ▸ List.mem_cons_self _ _
            · exact List.mem_cons_of_mem _ (List.mem_filter.1 hy).1
          exact h (mem_of_mem_splitChars hseg (mem_of_mem_splitChars hy' hcy))

theorem not_mem_normalizeQuery_hash {sids : List String} {q : List Char} (h : '#' ∉ q) :
    '#' ∉ normalizeQuery sids q := by
  unfold normalizeQuery
  intro hm
  rcases mem_joinWith hm with e | ⟨x, hx, hcx⟩
  · exact absurd e (by decide)
  · rw [List.mem_insertionSort] at hx
    have hx' := (List.mem_filter.1 hx).1
    unfold queryParams at hx'
    split_ifs at hx' with hq
    · simp at hx'
    · exact h (mem_of_mem_splitChars hx' hcx)

/-- C10. Against the parser modelled from §4.1 of the spec, with the IDNA encoder
a parameter that emits only characters which lowercasing leaves alone and never
`#`: for every input that parses, the URL has scheme `http` or `https`; its host
is unchanged by lowercasing; its string form holds no `#`, hence no fragment; no
path segment of it has a parameter `;name=value` whose name is, ignoring case, a
configured session-identifier name; no query parameter of it has such a name; and
its query parameters are sorted by key. With the names `jsessionid` and
`phpsessid`, `HTTP://A.com/page1.com;jSessionID=ABC?b=2&a=1#frag` parses to
`http://a.com/page1.com?a=1&b=2`. -/
theorem ParseURL_normal_form (toASCII : List Char → List Char) (sids : List String)
    (input : String) (u : URL)
    (hidn : ∀ host, ∀ c ∈ toASCII host, c.toLower = c ∧ c ≠ '#')
    (h : ParseURL toASCII sids input = .ok u) :
    (u.scheme = "http" ∨ u.scheme = "https")
    ∧ asciiLower u.host.toList = u.host.toList
    ∧ '#' ∉ u.string.toList
    ∧ (∀ seg ∈ splitChars '/' u.path.toList, ∀ p ∈ (splitChars ';' seg).tail,
        isSessionId sids p = false)
    ∧ (∀ p ∈ queryParams u.query.toList, isSessionId sids p = false)
    ∧ (queryParams u.query.toList).Sorted paramLe
    ∧ (ParseURL toASCII ["jsessionid", "phpsessid"]
          "HTTP://A.com/page1.com;jSessionID=ABC?b=2&a=1#frag").map URL.string
        = .ok "http://a.com/page1.com?a=1&b=2" := by
  obtain ⟨sch, host, port, path, query, hs, hhost, hport, hpath, hquery, rfl⟩ := ParseURL_ok h
  have hhostLower : asciiLower (idnHost toASCII (asciiLower host))
      = idnHost toASCII (asciiLower host) := by
    unfold idnHost
    split_ifs
    · exact asciiLower_asciiLower host
    · unfold asciiLower
      conv_rhs => rw [← List.map_id (toASCII (List.map Char.toLower host))]
      apply List.map_congr_left
      intro c hc
      exact (hidn _ c hc).1
  have hhostHash : '#' ∉ idnHost toASCII (asciiLower host) := by
    unfold idnHost
    split_ifs
    · exact not_mem_asciiLower_hash hhost
    · exact fun hm => (hidn _ _ hm).2 rfl
  have hschHash : '#' ∉ asciiLower sch := by
    rcases hs with e | e <;> rw [e] <;> decide
  have hportHash : '#' ∉ keepPort (asciiLower sch) port := by
    unfold keepPort
    split_ifs
    · simp
    · exact hport
  refine ⟨?_, hhostLower, ?_, ?_, ?_, ?_, rfl⟩
  · rcases hs with e | e
    · exact Or.inl (by simp only [e]; rfl)
    · exact Or.inr (by simp only [e]; rfl)
  · unfold URL.string
    simp only [String.toList, String.data_append, List.mem_append, not_or]
    refine ⟨⟨⟨⟨⟨hschHash, by decide⟩, hhostHash⟩, ?_⟩, not_mem_normalizePath_hash hpath⟩, ?_⟩
    · split_ifs
      · simp
      · simp only [String.data_append, List.mem_append, not_or]
        exact ⟨by decide, hportHash⟩
    · split_ifs
      · simp
      · simp only [String.data_append, List.mem_append, not_or]
        exact ⟨by decide, not_mem_normalizeQuery_hash hquery⟩
  · intro seg hseg p hp
    simp only [String.toList] at hseg
    rw [splitChars_normalizePath] at hseg
    split_ifs at hseg with hpe
    · simp only [List.mem_cons, List.mem_singleton, List.not_mem_nil, or_false, or_self] at hseg
      subst hseg
      simp [splitChars] at hp
    · obtain ⟨seg0, _, rfl⟩ := List.mem_map.1 hseg
      exact splitChars_stripSegment sids seg0 p hp
  · intro p hp
    simp only [String.toList] at hp
    rcases queryParams_normalizeQuery sids query with e | e
    · rw [e] at hp
      simp at hp
    · rw [e, List.mem_insertionSort] at hp
      simpa using (List.mem_filter.1 hp).2
  · simp only [String.toList]
    rcases queryParams_normalizeQuery sids query with e | e
    · rw [e]
      exact List.sorted_nil
    · rw [e]
      haveI := paramLe_isTotal
      haveI := paramLe_isTrans
      exact List.sorted_insertionSort paramLe _

/-- C10, at the `QuerySID` input of `TestUrlParsing`: the session identifier is
dropped from the query and the two remaining parameters are put in key order. -/
theorem ParseURL_normal_form_witness :
    (∀ host, ∀ c ∈ sampleToASCII host, c.toLower = c ∧ c ≠ '#')
    ∧ ParseURL sampleToASCII testSidList
        "http://A.com/page1.com?foo=bar&jsessionID=436100313FAFBBB9B4DC8BA3C2EC267B&baz=niffler"
        = .ok querySidURL
    ∧ querySidURL.string = "http://a.com/page1.com?baz=niffler&foo=bar"
    ∧ (querySidURL.scheme = "http" ∨ querySidURL.scheme = "https")
    ∧ asciiLower querySidURL.host.toList = querySidURL.host.toList
    ∧ '#' ∉ querySidURL.string.toList
    ∧ (∀ p ∈ queryParams querySidURL.query.toList, isSessionId testSidList p = false)
    ∧ (queryParams querySidURL.query.toList).Sorted paramLe :=
  have hidn : ∀ host, ∀ c ∈ sampleToASCII host, c.toLower = c ∧ c ≠ '#' :=
    fun _ => (by decide : ∀ c ∈ "xn--idn".toList, c.toLower = c ∧ c ≠ '#')
  have key := ParseURL_normal_form sampleToASCII testSidList
    "http://A.com/page1.com?foo=bar&jsessionID=436100313FAFBBB9B4DC8BA3C2EC267B&baz=niffler"
    querySidURL hidn rfl
  ⟨hidn, rfl, rfl, key.1, key.2.1, key.2.2.1, key.2.2.2.2.1, key.2.2.2.2.2.1⟩

/-! ## The sandbox and `readlink`: lemmas -/

theorem initCommand_of_loads (env : Env) (flags : Flags) (s : State)
    (h : configLoads env flags s.Config = true) :
    cmd.initCommand env flags s = .ok () (afterInit env flags s) := by
  rw [initCommand_apply]
  unfold configLoads at h
  unfold afterInit
  by_cases h1 : flags.config = "" <;> by_cases h2 : env.WALKER_PPROF = "1" <;>
    cases h3 : (env.ReadConfigFile flags.config s.Config).1 <;>
    simp [h1, h2, h3] at h ⊢

theorem written_append (p : Printer) (es fs : List Event) :
    written p (es ++ fs) = written p es ++ written p fs := by
  induction es with
  | nil => simp [written]
  | cons e es ih =>
    cases e with
    | write q text =>
      simp only [List.cons_append, written]
      split_ifs
      · show text ++ written p (es ++ fs) = text ++ written p es ++ written p fs
        rw [ih, String.append_assoc]
      · exact ih
    | _ => simpa only [List.cons_append, written] using ih

theorem written_initEvents (p : Printer) (env : Env) (flags : Flags) :
    written p (initEvents env flags) = "" := by
  unfold initEvents readConfigEvents
  split_ifs <;> rfl

theorem afterInit_events (env : Env) (flags : Flags) (s : State) :
    (afterInit env flags s).events = s.events ++ initEvents env flags := by
  unfold afterInit initEvents readConfigEvents State.events
  split_ifs <;> simp

theorem State.record_record (s : State) (e1 e2 : List Event) :
    (s.record e1).record e2 = s.record (e1 ++ e2) := by
  simp [State.record]

theorem State.record_nil (s : State) : s.record [] = s := by
  simp [State.record]

theorem steps_pure {α : Type} (c : Commander) (a : α) : Steps c (pure a) [] a :=
  fun s _ => by rw [M.pure_apply, State.record_nil]

theorem steps_getCommander (c : Commander) : Steps c getCommander [] c :=
  fun s hs => by rw [getCommander_apply, State.record_nil, hs]

theorem steps_emit (c : Commander) (e : Event) : Steps c (emit e) [e] () :=
  fun _ _ => rfl

theorem steps_print (c : Commander) (p : Printer) (text : String) :
    Steps c (cmd.callPrinter (some p) text) [.write p text] () :=
  fun _ _ => rfl

theorem steps_bind {α β : Type} {c : Commander} {m : M α} {f : α → M β} {e1 e2 : List Event}
    {a : α} {b : β} (h1 : Steps c m e1 a) (h2 : Steps c (f a) e2 b) :
    Steps c (m >>= f) (e1 ++ e2) b := fun s hs => by
  rw [M.bind_apply, h1 s hs]
  show f a (s.record e1) = _
  rw [h2 (s.record e1) hs, State.record_record]

theorem steps_print_bind {β : Type} {c : Commander} {p : Printer} {text : String}
    {f : Unit → M β} {e2 : List Event} {b : β} (h : Steps c (f ()) e2 b) :
    Steps c (cmd.callPrinter (some p) text >>= f) (.write p text :: e2) b :=
  steps_bind (steps_print c p text) h

theorem steps_forEach {α : Type} {c : Commander} {f : α → M Unit} {g : α → List Event}
    (h : ∀ x, Steps c (f x) (g x) ()) (xs : List α) :
    Steps c (forEach xs f) (xs.map g).flatten () := by
  induction xs with
  | nil => exact steps_pure c ()
  | cons x xs ih => exact steps_bind (h x) ih

theorem ends_of_eq {α : Type} {c : Commander} {m : M α} {r r1 : List Event × Outcome}
    (h : Ends c m r) (e : r = r1) : Ends c m r1 := e ▸ h

theorem ends_left {α β : Type} {c : Commander} {m : M α} {f : α → M β}
    {r : List Event × Outcome} (h : Ends c m r) : Ends c (m >>= f) r := fun s hs => by
  rw [M.bind_apply, h s hs]

theorem ends_bind {α β : Type} {c : Commander} {m : M α} {f : α → M β} {e : List Event}
    {a : α} {r : List Event × Outcome} (h1 : Steps c m e a) (h2 : Ends c (f a) r) :
    Ends c (m >>= f) (e ++ r.1, r.2) := fun s hs => by
  rw [M.bind_apply, h1 s hs]
  show f a (s.record e) = _
  rw [h2 (s.record e) hs, State.record_record]

theorem ends_pure_bind {α β : Type} {c : Commander} {a : α} {f : α → M β}
    {r : List Event × Outcome} (h : Ends c (f a) r) : Ends c (pure a >>= f) r :=
  ends_bind (steps_pure c a) h

theorem ends_getCommander_bind {β : Type} {c : Commander} {f : Commander → M β}
    {r : List Event × Outcome} (h : Ends c (f c) r) : Ends c (getCommander >>= f) r :=
  ends_bind (steps_getCommander c) h

theorem ends_emit_bind {β : Type} {c : Commander} {e : Event} {f : Unit → M β}
    {r : List Event × Outcome} (h : Ends c (f ()) r) :
    Ends c (emit e >>= f) (following e r) :=
  ends_bind (steps_emit c e) h

theorem ends_exit {α : Type} (c : Commander) (x : Exiter) (status : Int) :
    Ends c (cmd.callExiter (some x) status : M α) ([], exitOutcome x status) := fun s _ => by
  cases x <;> simp [cmd.callExiter, exitOutcome, halt_apply, panic_apply, State.record_nil]

theorem ends_sayAndExit {α : Type} (c : Commander) (f : Option Printer) (x : Exiter)
    (text : String) (status : Int) :
    Ends c (cmd.callPrinter f text >>= fun _ => (cmd.callExiter (some x) status : M α))
      (sayAndExit f x text status) := by
  cases f with
  | none =>
    intro s _
    rw [M.bind_apply]
    simp only [cmd.callPrinter, panic_apply, halt_apply, walker.sayAndExit, State.record_nil]
  | some p =>
    exact ends_of_eq
      (ends_bind (f := fun _ => cmd.callExiter (some x) status) (steps_print c p text)
        (ends_exit c x status)) rfl

theorem steps_of_eq {α : Type} {c : Commander} {m : M α} {e e1 : List Event} {a : α}
    (h : Steps c m e a) (he : e = e1) : Steps c m e1 a := he ▸ h

theorem ends_bind_of {α β : Type} {c : Commander} {m : M α} {f : α → M β}
    {g : α → List Event × Outcome} {r : List Event × Outcome} (hf : ∀ a, Ends c (f a) (g a))
    (hm : Ends c m r ∨ ∃ a evs, Steps c m evs a ∧ r = (evs ++ (g a).1, (g a).2)) :
    Ends c (m >>= f) r := by
  rcases hm with hm | ⟨a, evs, hm, rfl⟩
  · exact ends_left hm
  · exact ends_bind hm (hf a)

theorem steps_printEach {α : Type} (c : Commander) (p : Printer) (t : α → String)
    (xs : List α) :
    Steps c (walker.forEach xs fun a => cmd.callPrinter (some p) (t a))
      (xs.map fun a => Event.write p (t a)) () := by
  induction xs with
  | nil => exact steps_pure c ()
  | cons y ys ih => exact steps_bind (steps_print c p (t y)) ih

theorem run_of_ends {c : Commander} {m : M Unit} {r : List Event × Outcome} (h : Ends c m r)
    (s : State) (hs : s.commander = c) : run m s = (r.2, s.record r.1) := by
  unfold run
  rw [h s hs]

theorem setUpCommanderStreams_eq (s : State) :
    cmd.setUpCommanderStreams s = .ok () { s with commander := withStreams s.commander } := by
  obtain ⟨⟨h0, d0, p, pf, ef, ex⟩, cfg, tr⟩ := s
  unfold cmd.setUpCommanderStreams
  cases pf <;> cases ef <;> cases ex <;> rfl

theorem readLinkCommand_run (env : Env) (flags : Flags) (s : State)
    (hcfg : configLoads env flags s.Config = true) :
    run (cmd.readLinkCommand env flags) s
      = ((readLinkScript env flags s.commander).2,
          (afterInit env flags { s with commander := withStreams s.commander }).record
            (readLinkScript env flags s.commander).1) := by
  unfold cmd.readLinkCommand
  rw [run_bind_ok _ _ _ _ _ (setUpCommanderStreams_eq s)]
  rw [run_bind_ok _ _ _ _ _ (getCommander_apply _)]
  dsimp only
  rw [run_bind_ok _ _ _ _ _ (getCommander_apply _)]
  dsimp only
  rw [run_bind_ok _ _ _ _ _ (getCommander_apply _)]
  dsimp only
  rw [run_bind_ok _ _ _ _ _ (initCommand_of_loads env flags { s with commander := withStreams s.commander } hcfg)]
  refine run_of_ends (c := withStreams s.commander) ?_ _ rfl
  dsimp only [withStreams]
  unfold readLinkScript
  generalize streamsPrintf s.commander = p
  generalize streamsExit s.commander = x
  generalize s.commander.errorf = e
  generalize s.commander.Datastore = d
  generalize s.commander.Handler = h0
  generalize s.commander.Dispatcher = d0
  dsimp only
  by_cases hurl : flags.readLinkLink = ""
  · simp only [if_pos hurl]
    exact ends_left (ends_sayAndExit _ _ _ _ _)
  simp only [if_neg hurl]
  refine ends_pure_bind ?_
  by_cases hboth : (flags.readLinkBodyOnly && flags.readLinkMetaOnly) = true
  · simp only [if_pos hboth]
    exact ends_left (ends_sayAndExit _ _ _ _ _)
  simp only [if_neg hboth]
  refine ends_pure_bind ?_
  refine ends_getCommander_bind ?_
  dsimp only
  refine ends_bind_of (g := fun ds => readLinkLookup env flags ds p e x) (fun ds => ?_) ?_
  · unfold readLinkLookup
    cases env.ParseURL flags.readLinkLink with
    | error err => exact ends_left (ends_sayAndExit _ _ _ _ _)
    | ok u =>
      dsimp only
      refine ends_pure_bind ?_
      refine ends_emit_bind ?_
      cases env.FindLink ds u true with
      | error err => exact ends_left (ends_sayAndExit _ _ _ _ _)
      | ok o =>
        cases o with
        | none => exact ends_left (ends_sayAndExit _ _ _ _ _)
        | some linfo =>
          dsimp only
          refine ends_pure_bind ?_
          by_cases hnyc : linfo.CrawlTime.Equal NotYetCrawled = true
          · simp only [if_pos hnyc]
            exact ends_left (ends_sayAndExit _ _ _ _ _)
          simp only [if_neg hnyc]
          refine ends_pure_bind ?_
          refine ends_of_eq
            (ends_bind (a := PUnit.unit)
              (e := (if flags.readLinkBodyOnly then []
                else readLinkMetaLines env linfo).map (Event.write p)) ?_
              (ends_bind (a := PUnit.unit)
                (e := (if flags.readLinkMetaOnly then []
                  else [readLinkBodyLine flags linfo]).map (Event.write p)) ?_
                (ends_exit _ _ _))) ?_
          · by_cases hb : flags.readLinkBodyOnly = true
            · simp only [hb, Bool.not_true, Bool.false_eq_true, if_false, if_true, List.map_nil]
              exact steps_pure _ _
            · simp only [hb, Bool.not_eq_true] at hb ⊢
              simp only [hb, Bool.not_false, Bool.false_eq_true, if_false, if_true]
              unfold readLinkMetaLines
              cases linfo.Headers with
              | none =>
                iterate 9 refine steps_print_bind ?_
                exact steps_print _ _ _
              | some hs =>
                iterate 10 refine steps_print_bind ?_
                exact steps_of_eq
                  (steps_forEach
                    (fun (kvs : String × List String) => steps_printEach _ p _ kvs.2) _)
                  (by simp [List.map_flatten, Function.comp_def])
          · unfold readLinkBodyLine
            by_cases hm : flags.readLinkMetaOnly = true
            · simp only [hm, Bool.not_true, Bool.false_eq_true, if_false, if_true, List.map_nil]
              exact steps_pure _ _
            · simp only [Bool.not_eq_true] at hm
              by_cases hb : flags.readLinkBodyOnly = true
              · simp only [hm, hb, Bool.not_true, Bool.not_false, Bool.false_eq_true, if_false,
                  if_true]
                exact steps_print _ _ _
              · simp only [Bool.not_eq_true] at hb
                by_cases hbody : linfo.Body = ""
                · simp only [hm, hb, hbody, Bool.not_false, Bool.false_eq_true, if_false,
                    if_true]
                  exact steps_print _ _ _
                · simp only [hm, hb, hbody, Bool.not_false, Bool.false_eq_true, if_false,
                    if_true]
                  exact steps_print _ _ _
          · simp [readLinkLines]
  · cases d with
    | none =>
      dsimp only
      cases env.NewDatastore with
      | some err => exact Or.inl (ends_emit_bind (ends_sayAndExit _ _ _ _ _))
      | none =>
        exact Or.inr ⟨.cassandra, [.newDatastore],
          steps_of_eq (steps_bind (steps_emit _ _) (steps_pure _ _)) rfl, rfl⟩
    | some d =>
      dsimp only
      by_cases hf : cmd.isFinder d = true
      · simp only [if_pos hf]
        exact Or.inr ⟨d, [], steps_pure _ _, rfl⟩
      · simp only [if_neg hf]
        exact Or.inl (ends_sayAndExit _ _ _ _ _)

theorem State.record_events (s : State) (evs : List Event) :
    (s.record evs).events = s.events ++ evs := by
  simp [State.record, State.events, Function.comp_def]

theorem executeInSandbox_readlink (env : Env) (flags : Flags) (s : State)
    (hcfg : configLoads env flags s.Config = true) (evs : List Event) (status : Int)
    (h : readLinkScript env flags (inSandbox s.commander)
      = (evs, .panicked (.exitCarrier status))) :
    (cmd.executeInSandbox env .readlink flags s).1
      = .returned (written .sandboxStdout evs) (written .sandboxStderr evs) status := by
  have hrun := readLinkCommand_run env flags { s with commander := inSandbox s.commander } hcfg
  rw [h] at hrun
  have hfresh : ((run (cmd.Execute env .readlink flags)
      { s with commander := inSandbox s.commander }).2.trace.drop s.trace.length).map Prod.fst
      = initEvents env flags ++ evs := by
    show ((run (cmd.readLinkCommand env flags) _).2.trace.drop s.trace.length).map Prod.fst = _
    rw [hrun, List.map_drop]
    show (State.events _).drop _ = _
    rw [State.record_events, afterInit_events]
    simp [State.events]
  have hout : (run (cmd.Execute env .readlink flags)
      { s with commander := inSandbox s.commander }).1 = .panicked (.exitCarrier status) := by
    show (run (cmd.readLinkCommand env flags) _).1 = _
    rw [hrun]
  unfold cmd.executeInSandbox
  show (match (run (cmd.Execute env .readlink flags)
      { s with commander := inSandbox s.commander }).1 with
    | .returned => _
    | .panicked (.exitCarrier stat) => _
    | .panicked v => _
    | .exited n => _
    | .blocked => _ : cmd.SandboxResult × State).1 = _
  rw [hout]
  dsimp only
  unfold inSandbox at hfresh
  rw [hfresh, written_append, written_append, written_initEvents, written_initEvents,
    String.empty_append, String.empty_append]

/-! ## `readlink` -/

/-- C19. With the streams of `executeInSandbox` installed, a link given, not both
of `--body-only` and `--meta-only`, and a configuration that loads: when the
preset datastore has no `FindLink`, when the parser rejects the link, when
`FindLink` returns an error, and when it returns no record, `readlink` writes the
matching message to stderr, nothing to stdout, and exits with status 1. The
datastore consulted is the preset one or, without one, the default one. -/
theorem readlink_failures_in_sandbox (env : Env) (flags : Flags) (c : Commander)
    (cfg : Config) (hurl : flags.readLinkLink ≠ "")
    (hflags : (flags.readLinkBodyOnly && flags.readLinkMetaOnly) = false)
    (hcfg : configLoads env flags cfg = true) :
    (∀ d, c.Datastore = some d → cmd.isFinder d = false →
      (cmd.executeInSandbox env .readlink flags (State.init c cfg)).1
        = .returned "" "Tried to use pre-configured datastore, but it wasn't a Finder\n" 1)
    ∧ (∀ ds, (c.Datastore = some ds ∧ cmd.isFinder ds = true)
          ∨ (c.Datastore = none ∧ env.NewDatastore = none ∧ ds = .cassandra) →
        (∀ err, env.ParseURL flags.readLinkLink = .error err →
          (cmd.executeInSandbox env .readlink flags (State.init c cfg)).1
            = .returned ""
                ("Failed to parse link " ++ flags.readLinkLink ++ ": " ++ err ++ "\n") 1)
        ∧ (∀ u, env.ParseURL flags.readLinkLink = .ok u →
            (∀ err, env.FindLink ds u true = .error err →
              (cmd.executeInSandbox env .readlink flags (State.init c cfg)).1
                = .returned "" ("Failed FindLink: " ++ err ++ "\n") 1)
            ∧ (env.FindLink ds u true = .ok none →
              (cmd.executeInSandbox env .readlink flags (State.init c cfg)).1
                = .returned ""
                    ("Failed to find link " ++ flags.readLinkLink ++ " in datastore\n") 1))) := by
  have hfail : ∀ (pre : List Event) (msg : String),
      (∀ p, written p pre = "") →
      readLinkScript env flags (inSandbox (State.init c cfg).commander)
        = (pre ++ [.write .sandboxStderr msg], .panicked (.exitCarrier 1)) →
      (cmd.executeInSandbox env .readlink flags (State.init c cfg)).1 = .returned "" msg 1 := by
    intro pre msg hpre h
    rw [executeInSandbox_readlink env flags (State.init c cfg) hcfg _ 1 h, written_append,
      written_append, hpre, hpre]
    simp [written]
  have hboth : ¬(flags.readLinkBodyOnly && flags.readLinkMetaOnly) = true := by
    rw [hflags]
    decide
  refine ⟨?_, ?_⟩
  · intro d hd hfinder
    refine hfail [] _ (fun _ => rfl) ?_
    simp [readLinkScript, readLinkLookup, following, sayAndExit, exitOutcome, inSandbox,
      State.init, streamsExit, streamsPrintf, hurl, hboth, hd, hfinder]
  · intro ds hds
    rcases hds with ⟨hd, hfinder⟩ | ⟨hd, hnd, rfl⟩
    · refine ⟨fun err hparse => ?_, fun u hparse => ⟨fun err hfind => ?_, fun hfind => ?_⟩⟩
      · refine hfail [] _ (fun _ => rfl) ?_
        simp [readLinkScript, readLinkLookup, following, sayAndExit, exitOutcome, inSandbox,
          State.init, streamsExit, streamsPrintf, hurl, hboth, hd, hfinder, hparse]
      · refine hfail [.findLink ds u true] _ (fun _ => rfl) ?_
        simp [readLinkScript, readLinkLookup, following, sayAndExit, exitOutcome, inSandbox,
          State.init, streamsExit, streamsPrintf, hurl, hboth, hd, hfinder, hparse, hfind]
      · refine hfail [.findLink ds u true] _ (fun _ => rfl) ?_
        simp [readLinkScript, readLinkLookup, following, sayAndExit, exitOutcome, inSandbox,
          State.init, streamsExit, streamsPrintf, hurl, hboth, hd, hfinder, hparse, hfind]
    · refine ⟨fun err hparse => ?_, fun u hparse => ⟨fun err hfind => ?_, fun hfind => ?_⟩⟩
      · refine hfail [.newDatastore] _ (fun _ => rfl) ?_
        simp [readLinkScript, readLinkLookup, following, sayAndExit, exitOutcome, inSandbox,
          State.init, streamsExit, streamsPrintf, hurl, hboth, hd, hnd, hparse]
      · refine hfail [.newDatastore, .findLink .cassandra u true] _ (fun _ => rfl) ?_
        simp [readLinkScript, readLinkLookup, following, sayAndExit, exitOutcome, inSandbox,
          State.init, streamsExit, streamsPrintf, hurl, hboth, hd, hnd, hparse, hfind]
      · refine hfail [.newDatastore, .findLink .cassandra u true] _ (fun _ => rfl) ?_
        simp [readLinkScript, readLinkLookup, following, sayAndExit, exitOutcome, inSandbox,
          State.init, streamsExit, streamsPrintf, hurl, hboth, hd, hnd, hparse, hfind]

/-- C19 at the test's input: `readlink -u http://test.com/page1.com` in the sandbox
with the mock datastore holding no record for the link, as in case `linkNotThere`
of `TestReadlinkCommand`. -/
theorem readlink_failures_in_sandbox_witness :
    readlinkFlags.readLinkLink ≠ ""
    ∧ (readlinkFlags.readLinkBodyOnly && readlinkFlags.readLinkMetaOnly) = false
    ∧ configLoads quietEnv readlinkFlags defaultConfig = true
    ∧ mockCommander.Datastore = some (.preset 2 true)
    ∧ quietEnv.ParseURL readlinkFlags.readLinkLink = .ok goodUrl
    ∧ quietEnv.FindLink (.preset 2 true) goodUrl true = .ok none
    ∧ (cmd.executeInSandbox quietEnv .readlink readlinkFlags
        (State.init mockCommander defaultConfig)).1
      = .returned "" "Failed to find link http://test.com/page1.com in datastore\n" 1 :=
  ⟨by decide, rfl, rfl, rfl, rfl, rfl,
    (((readlink_failures_in_sandbox quietEnv readlinkFlags mockCommander defaultConfig
      (by decide) rfl rfl).2 (.preset 2 true) (Or.inl ⟨rfl, rfl⟩)).2 goodUrl
        rfl).2 rfl⟩

/-- With the streams of `cmd.executeInSandbox` installed, a link given, not both
of `--body-only` and `--meta-only`, a configuration that loads and a datastore
that finds a record whose crawl time is `NotYetCrawled`: `readlink` writes the
line `Link <url> is present, but has not yet been fetched` to stdout, nothing to
stderr, and exits with status 0. -/
theorem readlink_not_yet_crawled_in_sandbox (env : Env) (flags : Flags) (c : Commander)
    (cfg : Config) (ds : Datastore) (u : URL) (linfo : LinkInfo)
    (hurl : flags.readLinkLink ≠ "")
    (hflags : (flags.readLinkBodyOnly && flags.readLinkMetaOnly) = false)
    (hcfg : configLoads env flags cfg = true)
    (hds : (c.Datastore = some ds ∧ cmd.isFinder ds = true)
      ∨ (c.Datastore = none ∧ env.NewDatastore = none ∧ ds = .cassandra))
    (hparse : env.ParseURL flags.readLinkLink = .ok u)
    (hfind : env.FindLink ds u true = .ok (some linfo))
    (hnyc : linfo.CrawlTime.Equal NotYetCrawled = true) :
    (cmd.executeInSandbox env .readlink flags (State.init c cfg)).1
      = .returned
          ("Link " ++ flags.readLinkLink ++ " is present, but has not yet been fetched\n")
          "" 0 := by
  have hboth : ¬(flags.readLinkBodyOnly && flags.readLinkMetaOnly) = true := by
    rw [hflags]
    decide
  have hout : ∀ pre : List Event, (∀ p, written p pre = "") →
      readLinkScript env flags (inSandbox (State.init c cfg).commander)
        = (pre ++ [.write .sandboxStdout
            ("Link " ++ flags.readLinkLink ++ " is present, but has not yet been fetched\n")],
          .panicked (.exitCarrier 0)) →
      (cmd.executeInSandbox env .readlink flags (State.init c cfg)).1
        = .returned
            ("Link " ++ flags.readLinkLink ++ " is present, but has not yet been fetched\n")
            "" 0 := by
    intro pre hpre h
    rw [executeInSandbox_readlink env flags (State.init c cfg) hcfg _ 0 h, written_append,
      written_append, hpre, hpre]
    simp [written]
  rcases hds with ⟨hd, hfinder⟩ | ⟨hd, hnd, rfl⟩
  · refine hout [.findLink ds u true] (fun _ => rfl) ?_
    simp [readLinkScript, readLinkLookup, following, sayAndExit, exitOutcome, inSandbox,
      State.init, streamsExit, streamsPrintf, hurl, hboth, hd, hfinder, hparse, hfind, hnyc]
  · refine hout [.newDatastore, .findLink .cassandra u true] (fun _ => rfl) ?_
    simp [readLinkScript, readLinkLookup, following, sayAndExit, exitOutcome, inSandbox,
      State.init, streamsExit, streamsPrintf, hurl, hboth, hd, hnd, hparse, hfind, hnyc]

/-- C20 fails when the streams are not installed before the command runs, as
from `main`: `readlink -u http://test.com/page1.com` on a record whose crawl time
is `NotYetCrawled` exits with status 0, but `cmd.setUpCommanderStreams` has made
`printf` the writer to `os.Stderr`, so the line goes to stderr and stdout gets
nothing. -/
theorem readlink_not_yet_crawled_without_streams :
    (run (cmd.Execute notYetCrawledEnv .readlink readlinkFlags)
        (State.init mockCommander defaultConfig)).1 = .exited 0
    ∧ (run (cmd.Execute notYetCrawledEnv .readlink readlinkFlags)
        (State.init mockCommander defaultConfig)).2.events
      = [.findLink (.preset 2 true) goodUrl true,
          .write .osStderr
            "Link http://test.com/page1.com is present, but has not yet been fetched\n"]
    ∧ written .osStdout
        (run (cmd.Execute notYetCrawledEnv .readlink readlinkFlags)
          (State.init mockCommander defaultConfig)).2.events = ""
    ∧ (run (cmd.Execute notYetCrawledEnv .readlink readlinkFlags)
        (State.init mockCommander defaultConfig)).2.commander.printf = some .osStderr :=
  ⟨by decide, by decide, by decide, by decide⟩

/-! ## URL normalization is idempotent -/

theorem cutAt_of_not_mem {sep : Char} {x : List Char} (h : sep ∉ x) :
    cutAt sep x = (x, none) := by
  induction x with
  | nil => rfl
  | cons c cs ih =>
    have hc : c ≠ sep := fun e => h (e ▸ List.mem_cons_self _ _)
    have hcs : sep ∉ cs := fun hm => h (List.mem_cons_of_mem _ hm)
    rw [cutAt, if_neg hc, ih hcs]

theorem cutAt_append_sep {sep : Char} {x : List Char} (h : sep ∉ x) (rest : List Char) :
    cutAt sep (x ++ sep :: rest) = (x, some rest) := by
  induction x with
  | nil => simp [cutAt]
  | cons c cs ih =>
    have hc : c ≠ sep := fun e => h (e ▸ List.mem_cons_self _ _)
    have hcs : sep ∉ cs := fun hm => h (List.mem_cons_of_mem _ hm)
    rw [List.cons_append, cutAt, if_neg hc, ih hcs]

theorem takeWhile_ne_append {sep : Char} {a : List Char} (h : sep ∉ a) (p : List Char) :
    (a ++ sep :: p).takeWhile (· ≠ sep) = a := by
  induction a with
  | nil => simp
  | cons c cs ih =>
    have hc : c ≠ sep := fun e => h (e ▸ List.mem_cons_self _ _)
    have hcs : sep ∉ cs := fun hm => h (List.mem_cons_of_mem _ hm)
    have hd : decide (c ≠ sep) = true := decide_eq_true hc
    simp only [List.cons_append, List.takeWhile_cons, hd, if_true, ih hcs]

theorem dropWhile_ne_append {sep : Char} {a : List Char} (h : sep ∉ a) (p : List Char) :
    (a ++ sep :: p).dropWhile (· ≠ sep) = sep :: p := by
  induction a with
  | nil => simp
  | cons c cs ih =>
    have hc : c ≠ sep := fun e => h (e ▸ List.mem_cons_self _ _)
    have hcs : sep ∉ cs := fun hm => h (List.mem_cons_of_mem _ hm)
    have hd : decide (c ≠ sep) = true := decide_eq_true hc
    simp only [List.cons_append, List.dropWhile_cons, hd, if_true, ih hcs]

theorem takeWhile_ne_of_not_mem {sep : Char} {a : List Char} (h : sep ∉ a) :
    a.takeWhile (· ≠ sep) = a := by
  induction a with
  | nil => rfl
  | cons c cs ih =>
    have hc : c ≠ sep := fun e => h (e ▸ List.mem_cons_self _ _)
    have hcs : sep ∉ cs := fun hm => h (List.mem_cons_of_mem _ hm)
    have hd : decide (c ≠ sep) = true := decide_eq_true hc
    simp only [List.cons_append, List.takeWhile_cons, hd, if_true, ih hcs]

theorem dropWhile_ne_of_not_mem {sep : Char} {a : List Char} (h : sep ∉ a) :
    a.dropWhile (· ≠ sep) = [] := by
  induction a with
  | nil => rfl
  | cons c cs ih =>
    have hc : c ≠ sep := fun e => h (e ▸ List.mem_cons_self _ _)
    have hcs : sep ∉ cs := fun hm => h (List.mem_cons_of_mem _ hm)
    have hd : decide (c ≠ sep) = true := decide_eq_true hc
    simp only [List.cons_append, List.dropWhile_cons, hd, if_true, ih hcs]

theorem dropWhile_ne_head {sep : Char} (l : List Char) :
    l.dropWhile (· ≠ sep) = [] ∨ ∃ r, l.dropWhile (· ≠ sep) = sep :: r := by
  induction l with
  | nil => exact Or.inl rfl
  | cons c cs ih =>
    by_cases hc : c = sep
    · exact Or.inr ⟨cs, by simp [List.dropWhile_cons, hc]⟩
    · simpa [List.dropWhile_cons, hc] using ih

theorem not_mem_takeWhile_ne (sep : Char) (l : List Char) : sep ∉ l.takeWhile (· ≠ sep) := by
  intro hm
  have := List.mem_takeWhile_imp hm
  simp at this

theorem toLower_eq_of_lt {c d : Char} (hd : d.toNat < 97) (h : c.toLower = d) : c = d := by
  have h1 := toNat_toLower c
  rw [h] at h1
  apply char_eq_of_toNat_eq
  split_ifs at h1 <;> omega

theorem not_mem_asciiLower_of_lt {d : Char} (hd : d.toNat < 97) {cs : List Char}
    (h : d ∉ cs) : d ∉ asciiLower cs := by
  unfold asciiLower
  intro hm
  obtain ⟨c, hc, hcd⟩ := List.mem_map.1 hm
  exact h (toLower_eq_of_lt hd hcd ▸ hc)

theorem isHostChar_spec {c : Char} (h : isHostChar c = true) :
    c.toNat < 128 ∧ c.toLower = c ∧ c ≠ ':' ∧ c ≠ '/' ∧ c ≠ '?' ∧ c ≠ '#' := by
  unfold isHostChar at h
  have h' := of_decide_eq_true h
  have hn : c.toNat < 128 ∧ ¬(65 ≤ c.toNat ∧ c.toNat ≤ 90) ∧ c.toNat ≠ 58 ∧ c.toNat ≠ 47
      ∧ c.toNat ≠ 63 ∧ c.toNat ≠ 35 := by
    rcases h' with h' | h' | h' | h'
    · omega
    · omega
    · subst h'
      decide
    · subst h'
      decide
  refine ⟨hn.1, ?_, ?_, ?_, ?_, ?_⟩
  · apply char_eq_of_toNat_eq
    rw [toNat_toLower, if_neg hn.2.1]
  · intro e
    exact hn.2.2.1 (by rw [e]; rfl)
  · intro e
    exact hn.2.2.2.1 (by rw [e]; rfl)
  · intro e
    exact hn.2.2.2.2.1 (by rw [e]; rfl)
  · intro e
    exact hn.2.2.2.2.2 (by rw [e]; rfl)

theorem stripSegment_pieces (sids : List String) {seg name : List Char}
    {params : List (List Char)} (hs : splitChars ';' seg = name :: params) :
    ∀ x ∈ name :: params.filter (fun p => !isSessionId sids p), x ∈ splitChars ';' seg := by
  intro x hx
  rw [hs]
  rcases List.mem_cons.1 hx with hx | hx
  · exact hx ▸ List.mem_cons_self _ _
  · exact List.mem_cons_of_mem _ (List.mem_filter.1 hx).1

theorem stripSegment_idem (sids : List String) (seg : List Char) :
    stripSegment sids (stripSegment sids seg) = stripSegment sids seg := by
  unfold stripSegment
  cases hs : splitChars ';' seg with
  | nil => exact absurd hs (splitChars_ne_nil ';' seg)
  | cons name params =>
    simp only
    rw [splitChars_joinWith (by simp)
      (fun x hx => sep_not_mem_of_mem_splitChars (stripSegment_pieces sids hs x hx))]
    simp only [List.filter_filter, Bool.and_self]

theorem mem_stripSegment {sids : List String} {seg : List Char} {c : Char}
    (h : c ∈ stripSegment sids seg) : c ∈ seg ∨ c = ';' := by
  unfold stripSegment at h
  cases hs : splitChars ';' seg with
  | nil => exact absurd hs (splitChars_ne_nil ';' seg)
  | cons name params =>
    rw [hs] at h
    rcases mem_joinWith h with e | ⟨y, hy, hcy⟩
    · exact Or.inr e
    · exact Or.inl (mem_of_mem_splitChars (stripSegment_pieces sids hs y hy) hcy)

theorem mem_normalizePath {sids : List String} {path : List Char} {c : Char}
    (h : c ∈ normalizePath sids path) : c ∈ path ∨ c = '/' ∨ c = ';' := by
  unfold normalizePath at h
  split_ifs at h with hp
  · exact Or.inr (Or.inl (List.mem_singleton.1 h))
  · rcases mem_joinWith h with e | ⟨x, hx, hcx⟩
    · exact Or.inr (Or.inl e)
    · obtain ⟨seg, hseg, rfl⟩ := List.mem_map.1 hx
      rcases mem_stripSegment hcx with hc | hc
      · exact Or.inl (mem_of_mem_splitChars hseg hc)
      · exact Or.inr (Or.inr hc)

theorem stripSegment_nil (sids : List String) : stripSegment sids [] = [] := rfl

theorem normalizePath_head (sids : List String) {path : List Char}
    (hp : path = [] ∨ ∃ r, path = '/' :: r) : ∃ r, normalizePath sids path = '/' :: r := by
  rcases hp with hp | ⟨r, hp⟩
  · exact ⟨[], by rw [hp]; rfl⟩
  · subst hp
    unfold normalizePath
    rw [if_neg (by simp)]
    have hsplit : splitChars '/' ('/' :: r) = [] :: splitChars '/' r := by
      rw [splitChars, if_pos rfl]
    rw [hsplit, List.map_cons, stripSegment_nil]
    cases hm : (splitChars '/' r).map (stripSegment sids) with
    | nil =>
      exact absurd (List.map_eq_nil_iff.1 hm) (splitChars_ne_nil '/' r)
    | cons y ys => exact ⟨joinWith '/' (y :: ys), by simp [joinWith]⟩

theorem normalizePath_idem (sids : List String) {path : List Char}
    (hp : path = [] ∨ ∃ r, path = '/' :: r) :
    normalizePath sids (normalizePath sids path) = normalizePath sids path := by
  obtain ⟨r, hr⟩ := normalizePath_head sids hp
  have hne : normalizePath sids path ≠ [] := by
    rw [hr]
    simp
  have hsplit := splitChars_normalizePath sids path
  generalize hP : normalizePath sids path = P at hne hsplit
  unfold normalizePath
  rw [if_neg hne, hsplit]
  by_cases he : path = []
  · rw [if_pos he, ← hP, he]
    rfl
  · rw [if_neg he, ← hP]
    unfold normalizePath
    rw [if_neg he, List.map_map]
    congr 1
    apply List.map_congr_left
    intro seg _
    exact stripSegment_idem sids seg

theorem normalizeQuery_idem (sids : List String) (q : List Char) :
    normalizeQuery sids (normalizeQuery sids q) = normalizeQuery sids q := by
  haveI := paramLe_isTotal
  haveI := paramLe_isTrans
  rcases queryParams_normalizeQuery sids q with h | h
  · have hnil : normalizeQuery sids q = [] := by
      by_contra hne
      unfold queryParams at h
      rw [if_neg hne] at h
      exact splitChars_ne_nil _ _ h
    rw [hnil]
    rfl
  · have hdef : normalizeQuery sids q
        = joinWith '&' (((queryParams q).filter fun p => !isSessionId sids p).insertionSort
            paramLe) := rfl
    generalize hL : ((queryParams q).filter fun p => !isSessionId sids p).insertionSort paramLe
      = L at h hdef
    have hsorted : L.Sorted paramLe := hL ▸ List.sorted_insertionSort paramLe _
    have hkeep : ∀ p ∈ L, (!isSessionId sids p) = true := by
      intro p hp
      rw [← hL] at hp
      exact (List.mem_filter.1 ((List.perm_insertionSort paramLe _).subset hp)).2
    have hfilter : L.filter (fun p => !isSessionId sids p) = L := List.filter_eq_self.2 hkeep
    generalize normalizeQuery sids q = Q at h hdef
    unfold normalizeQuery
    rw [h, hfilter, hsorted.insertionSort_eq, hdef]

theorem keepPort_idem (scheme port : List Char) :
    keepPort scheme (keepPort scheme port) = keepPort scheme port := by
  unfold keepPort
  split_ifs with h1 h2
  · rfl
  · rfl
  · rfl

theorem idnHost_idem {toASCII : List Char → List Char}
    (hidn : ∀ host, ∀ c ∈ toASCII host, isHostChar c = true) (host : List Char) :
    idnHost toASCII (asciiLower (idnHost toASCII (asciiLower host)))
      = idnHost toASCII (asciiLower host) := by
  have hh : asciiLower (asciiLower host) = asciiLower host := asciiLower_asciiLower host
  generalize asciiLower host = h1 at hh
  unfold idnHost
  by_cases hall : (h1.all fun c => decide (c.toNat < 128)) = true
  · rw [if_pos hall, hh, if_pos hall]
  · rw [if_neg hall]
    have hlow : asciiLower (toASCII h1) = toASCII h1 := by
      unfold asciiLower
      conv_rhs => rw [← List.map_id (toASCII h1)]
      apply List.map_congr_left
      intro c hc
      exact (isHostChar_spec (hidn h1 c hc)).2.1
    have hascii : ((toASCII h1).all fun c => decide (c.toNat < 128)) = true := by
      rw [List.all_eq_true]
      intro c hc
      exact decide_eq_true (isHostChar_spec (hidn h1 c hc)).1
    rw [hlow, if_pos hascii]

theorem ParseURL_parts {toASCII : List Char → List Char} {sids : List String} {input : String}
    {u : URL} (h : ParseURL toASCII sids input = .ok u) :
    ∃ sch host port path query : List Char,
      (asciiLower sch = "http".toList ∨ asciiLower sch = "https".toList)
      ∧ host ≠ []
      ∧ (∀ c ∈ host, c ≠ ':' ∧ c ≠ '/' ∧ c ≠ '?' ∧ c ≠ '#')
      ∧ (∀ c ∈ port, c ≠ '/' ∧ c ≠ '?' ∧ c ≠ '#')
      ∧ (∀ c ∈ path, c ≠ '?' ∧ c ≠ '#')
      ∧ (path = [] ∨ ∃ r, path = '/' :: r)
      ∧ '#' ∉ query
      ∧ u = { scheme := String.mk (asciiLower sch)
              host := String.mk (idnHost toASCII (asciiLower host))
              port := String.mk (keepPort (asciiLower sch) port)
              path := String.mk (normalizePath sids path)
              query := String.mk (normalizeQuery sids query) } := by
  unfold ParseURL at h
  simp only at h
  have hfrag : '#' ∉ (cutAt '#' input.toList).1 := cutAt_fst_not_mem _ _
  generalize (cutAt '#' input.toList).1 = body at h hfrag
  have hq : '#' ∉ ((cutAt '?' body).2).getD [] :=
    fun hm => hfrag (mem_of_mem_cutAt_snd_getD hm)
  have hb : ∀ c ∈ (cutAt '?' body).1, c ≠ '?' ∧ c ≠ '#' := fun c hc =>
    ⟨fun e => cutAt_fst_not_mem '?' body (e ▸ hc),
      fun e => hfrag (mem_of_mem_cutAt_fst (e ▸ hc))⟩
  generalize ((cutAt '?' body).2).getD [] = query at h hq
  generalize (cutAt '?' body).1 = beforeQuery at h hb
  split at h
  · exact absurd h (by simp)
  · rename_i sch rest hcut
    have hrest : (cutAt ':' beforeQuery).2 = some rest := by rw [hcut]
    have hr : ∀ c ∈ rest, c ≠ '?' ∧ c ≠ '#' := fun c hc =>
      hb c (mem_of_mem_cutAt_snd hrest hc)
    split_ifs at h with hs
    split at h
    · rename_i hostAndPath
      have hhp : ∀ c ∈ hostAndPath, c ≠ '?' ∧ c ≠ '#' := fun c hc =>
        hr c (List.mem_cons_of_mem _ (List.mem_cons_of_mem _ hc))
      have hauth : ∀ c ∈ hostAndPath.takeWhile (· ≠ '/'), c ≠ '/' ∧ c ≠ '?' ∧ c ≠ '#' :=
        fun c hc =>
          ⟨fun e => not_mem_takeWhile_ne '/' hostAndPath (e ▸ hc),
            hhp c ((List.takeWhile_sublist _).subset hc)⟩
      have hpath : ∀ c ∈ hostAndPath.dropWhile (· ≠ '/'), c ≠ '?' ∧ c ≠ '#' :=
        fun c hc => hhp c ((List.dropWhile_sublist _).subset hc)
      split_ifs at h with hhost
      refine ⟨sch, (cutAt ':' (hostAndPath.takeWhile (· ≠ '/'))).1,
        ((cutAt ':' (hostAndPath.takeWhile (· ≠ '/'))).2).getD [],
        hostAndPath.dropWhile (· ≠ '/'), query, hs, hhost, ?_, ?_, hpath,
        dropWhile_ne_head hostAndPath, hq, ?_⟩
      · intro c hc
        exact ⟨fun e => cutAt_fst_not_mem ':' _ (e ▸ hc), hauth c (mem_of_mem_cutAt_fst hc)⟩
      · intro c hc
        exact hauth c (mem_of_mem_cutAt_snd_getD hc)
      · simp only [Except.ok.injEq] at h
        exact h.symm
    · exact absurd h (by simp)

theorem ParseURL_chars (toASCII : List Char → List Char) (sids : List String) (s : String)
    (sch host port path query : List Char)
    (hs : sch = "http".toList ∨ sch = "https".toList) (hhost : host ≠ [])
    (hhostc : ∀ c ∈ host, c ≠ ':' ∧ c ≠ '/' ∧ c ≠ '?' ∧ c ≠ '#')
    (hport : ∀ c ∈ port, c ≠ '/' ∧ c ≠ '?' ∧ c ≠ '#')
    (hpath : ∀ c ∈ path, c ≠ '?' ∧ c ≠ '#') (hhead : path = [] ∨ ∃ r, path = '/' :: r)
    (hquery : '#' ∉ query)
    (hstr : s.toList = sch ++ ':' :: '/' :: '/' ::
      (host ++ (if port = [] then [] else ':' :: port) ++ path)
      ++ (if query = [] then [] else '?' :: query)) :
    ParseURL toASCII sids s
      = .ok { scheme := String.mk sch
              host := String.mk (idnHost toASCII (asciiLower host))
              port := String.mk (keepPort sch port)
              path := String.mk (normalizePath sids path)
              query := String.mk (normalizeQuery sids query) } := by
  have hlow : asciiLower sch = sch := by
    rcases hs with hs | hs <;> rw [hs] <;> rfl
  have hsch : ∀ c ∈ sch, c ≠ ':' ∧ c ≠ '?' ∧ c ≠ '#' := by
    rcases hs with hs | hs <;> rw [hs] <;> decide
  generalize hpp : (if port = [] then [] else ':' :: port) = pp at hstr
  have hppc : ∀ c ∈ pp, c ≠ '/' ∧ c ≠ '?' ∧ c ≠ '#' := by
    intro c hc
    rw [← hpp] at hc
    split_ifs at hc
    · simp at hc
    · rcases List.mem_cons.1 hc with e | hc
      · rw [e]
        decide
      · exact hport c hc
  have hauth : '/' ∉ host ++ pp := by
    intro hm
    rcases List.mem_append.1 hm with hm | hm
    · exact (hhostc _ hm).2.1 rfl
    · exact (hppc _ hm).1 rfl
  have htake : (host ++ pp ++ path).takeWhile (· ≠ '/') = host ++ pp
      ∧ (host ++ pp ++ path).dropWhile (· ≠ '/') = path := by
    rcases hhead with hp | ⟨r, hp⟩
    · rw [hp, List.append_nil]
      exact ⟨takeWhile_ne_of_not_mem hauth, dropWhile_ne_of_not_mem hauth⟩
    · rw [hp]
      exact ⟨takeWhile_ne_append hauth r, dropWhile_ne_append hauth r⟩
  have hcolon : (cutAt ':' (host ++ pp)).1 = host ∧ ((cutAt ':' (host ++ pp)).2).getD [] = port := by
    have hh : ':' ∉ host := fun hm => (hhostc _ hm).1 rfl
    rw [← hpp]
    split_ifs with hp
    · rw [List.append_nil, cutAt_of_not_mem hh, hp]
      exact ⟨rfl, rfl⟩
    · rw [cutAt_append_sep hh]
      exact ⟨rfl, rfl⟩
  generalize hA : sch ++ ':' :: '/' :: '/' :: (host ++ pp ++ path) = A at hstr
  have hAc : ∀ c ∈ A, c ≠ '?' ∧ c ≠ '#' := by
    intro c hc
    rw [← hA] at hc
    simp only [List.mem_append, List.mem_cons] at hc
    rcases hc with hc | hc | hc | hc | (hc | hc) | hc
    · exact (hsch c hc).2
    · rw [hc]
      decide
    · rw [hc]
      decide
    · rw [hc]
      decide
    · exact (hhostc c hc).2.2
    · exact (hppc c hc).2
    · exact hpath c hc
  have hcutA : cutAt ':' A = (sch, some ('/' :: '/' :: (host ++ pp ++ path))) := by
    rw [← hA]
    exact cutAt_append_sep (fun hm => (hsch _ hm).1 rfl) _
  have hfrag : (cutAt '#' s.toList).1 = s.toList := by
    rw [cutAt_of_not_mem]
    rw [hstr]
    intro hm
    rcases List.mem_append.1 hm with hm | hm
    · exact (hAc _ hm).2 rfl
    · split_ifs at hm
      · simp at hm
      · rcases List.mem_cons.1 hm with e | hm
        · exact absurd e (by decide)
        · exact hquery hm
  have hq : (cutAt '?' s.toList).1 = A ∧ ((cutAt '?' s.toList).2).getD [] = query := by
    have hA' : '?' ∉ A := fun hm => (hAc _ hm).1 rfl
    rw [hstr]
    split_ifs with hqe
    · rw [List.append_nil, cutAt_of_not_mem hA', hqe]
      exact ⟨rfl, rfl⟩
    · rw [cutAt_append_sep hA']
      exact ⟨rfl, rfl⟩
  unfold ParseURL
  simp only [hfrag, hq.1, hq.2, hcutA, hlow, hs, if_true, htake.1, htake.2, hcolon.1, hcolon.2,
    hhost, if_false]

theorem URL.string_toList (sch host port path query : List Char) :
    (URL.string
      { scheme := String.mk sch
        host := String.mk host
        port := String.mk port
        path := String.mk path
        query := String.mk query }).toList
      = sch ++ ':' :: '/' :: '/' :: (host ++ (if port = [] then [] else ':' :: port) ++ path)
        ++ (if query = [] then [] else '?' :: query) := by
  have hmk : ∀ l : List Char, (String.mk l = "") = (l = []) := by
    intro l
    apply propext
    constructor
    · intro e
      exact congrArg String.data e
    · intro e
      rw [e]
  unfold URL.string
  simp only [hmk]
  by_cases hp : port = [] <;> by_cases hq : query = [] <;>
    simp [hp, hq, String.toList, String.data_append]

/-- C11. Normalization is idempotent: when an input parses to the URL `u`, the
string form of `u` parses too, and to `u` itself, so to a URL with the same
canonical string. The IDNA encoder is a parameter that returns a non-empty host of
lowercase letters, digits, hyphens and dots. -/
theorem ParseURL_idempotent (toASCII : List Char → List Char) (sids : List String)
    (input : String) (u : URL)
    (hidn : ∀ host, toASCII host ≠ [] ∧ ∀ c ∈ toASCII host, isHostChar c = true)
    (h : ParseURL toASCII sids input = .ok u) :
    ParseURL toASCII sids u.string = .ok u
    ∧ (ParseURL toASCII sids u.string).map URL.string = .ok u.string := by
  have hmain : ParseURL toASCII sids u.string = .ok u := by
    obtain ⟨sch, host, port, path, query, hs, hhost, hhostc, hport, hpath, hhead, hquery, rfl⟩ :=
      ParseURL_parts h
    have hhost1 : idnHost toASCII (asciiLower host) ≠ [] := by
      unfold idnHost
      split_ifs
      · unfold asciiLower
        intro e
        exact hhost (List.map_eq_nil_iff.1 e)
      · exact (hidn _).1
    have hhostc1 : ∀ c ∈ idnHost toASCII (asciiLower host),
        c ≠ ':' ∧ c ≠ '/' ∧ c ≠ '?' ∧ c ≠ '#' := by
      intro c hc
      unfold idnHost at hc
      split_ifs at hc
      · unfold asciiLower at hc
        obtain ⟨c0, hc0, rfl⟩ := List.mem_map.1 hc
        have h0 := hhostc c0 hc0
        exact ⟨fun e => h0.1 (toLower_eq_of_lt (by decide) e),
          fun e => h0.2.1 (toLower_eq_of_lt (by decide) e),
          fun e => h0.2.2.1 (toLower_eq_of_lt (by decide) e),
          fun e => h0.2.2.2 (toLower_eq_of_lt (by decide) e)⟩
      · exact (isHostChar_spec ((hidn _).2 c hc)).2.2
    have hport1 : ∀ c ∈ keepPort (asciiLower sch) port, c ≠ '/' ∧ c ≠ '?' ∧ c ≠ '#' := by
      intro c hc
      unfold keepPort at hc
      split_ifs at hc
      · simp at hc
      · exact hport c hc
    have hpath1 : ∀ c ∈ normalizePath sids path, c ≠ '?' ∧ c ≠ '#' := by
      intro c hc
      rcases mem_normalizePath hc with hc | hc | hc
      · exact hpath c hc
      · rw [hc]
        decide
      · rw [hc]
        decide
    have hhead1 : normalizePath sids path = [] ∨ ∃ r, normalizePath sids path = '/' :: r :=
      Or.inr (normalizePath_head sids hhead)
    rw [ParseURL_chars toASCII sids _ (asciiLower sch) (idnHost toASCII (asciiLower host))
      (keepPort (asciiLower sch) port) (normalizePath sids path) (normalizeQuery sids query)
      hs hhost1 hhostc1 hport1 hpath1 hhead1 (not_mem_normalizeQuery_hash hquery)
      (URL.string_toList _ _ _ _ _),
      idnHost_idem (fun host => (hidn host).2), keepPort_idem, normalizePath_idem sids hhead,
      normalizeQuery_idem]
  exact ⟨hmain, by rw [hmain]; rfl⟩

/-- C11 at the `QuerySID` input of `TestUrlParsing`: the input parses to
`http://a.com/page1.com?baz=niffler&foo=bar`, and that string parses to the same
URL. -/
theorem ParseURL_idempotent_witness :
    (∀ host, sampleToASCII host ≠ [] ∧ ∀ c ∈ sampleToASCII host, isHostChar c = true)
    ∧ ParseURL sampleToASCII testSidList
        "http://a.com/page1.com?foo=bar&jsessionID=436100313FAFBBB9B4DC8BA3C2EC267B&baz=niffler"
      = .ok querySidURL
    ∧ querySidURL.string = "http://a.com/page1.com?baz=niffler&foo=bar"
    ∧ ParseURL sampleToASCII testSidList querySidURL.string = .ok querySidURL
    ∧ (ParseURL sampleToASCII testSidList querySidURL.string).map URL.string
      = .ok querySidURL.string :=
  ⟨fun _ =>
      ⟨(by decide : "xn--idn".toList ≠ []),
        (by decide : ∀ c ∈ "xn--idn".toList, isHostChar c = true)⟩, by rfl, by decide,
    (ParseURL_idempotent sampleToASCII testSidList
      "http://a.com/page1.com?foo=bar&jsessionID=436100313FAFBBB9B4DC8BA3C2EC267B&baz=niffler"
      querySidURL (fun _ =>
      ⟨(by decide : "xn--idn".toList ≠ []),
        (by decide : ∀ c ∈ "xn--idn".toList, isHostChar c = true)⟩) (by rfl)).1,
    (ParseURL_idempotent sampleToASCII testSidList
      "http://a.com/page1.com?foo=bar&jsessionID=436100313FAFBBB9B4DC8BA3C2EC267B&baz=niffler"
      querySidURL (fun _ =>
      ⟨(by decide : "xn--idn".toList ≠ []),
        (by decide : ∀ c ∈ "xn--idn".toList, isHostChar c = true)⟩) (by rfl)).2⟩

/-! ## The fetcher: link filter and robots directives -/

theorem mem_processPage (cfg : FetchConfig) (page : Page) (call : FetcherCall) :
    call ∈ processPage cfg page ↔
      (∃ l ∈ (extractLinks cfg page).1, call = .storeParsedURL l page.link)
      ∨ call = .storeURLFetchResults page.link
      ∨ (((extractLinks cfg page).2.noindex && cfg.HonorMetaNoindex) = false
          ∧ call = .handleResponse page.link) := by
  unfold processPage
  simp only [List.mem_append, List.mem_map, List.mem_singleton]
  constructor
  · rintro ((⟨l, hl, rfl⟩ | h) | h)
    · exact Or.inl ⟨l, hl, rfl⟩
    · exact Or.inr (Or.inl h)
    · split_ifs at h with hc
      · simp at h
      · exact Or.inr (Or.inr ⟨by simpa using hc, List.mem_singleton.1 h⟩)
  · rintro (⟨l, hl, rfl⟩ | h | ⟨hc, h⟩)
    · exact Or.inl (Or.inl ⟨l, hl, rfl⟩)
    · exact Or.inl (Or.inr h)
    · right
      rw [hc]
      simpa using h

theorem metaDirectives_token (metas : List MetaTag) (token : List Char) :
    (((metas.filter fun m => asciiLower m.name.toList = "robots".toList).map
        fun m => robotsTokens m.content).flatten.contains token) = true ↔
      ∃ m ∈ metas, asciiLower m.name.toList = "robots".toList
        ∧ ∃ t ∈ splitChars ',' m.content.toList, asciiLower (trimBlanks t) = token := by
  simp only [List.contains, List.elem_iff, List.mem_flatten, List.mem_map, List.mem_filter,
    decide_eq_true_eq, robotsTokens]
  constructor
  · rintro ⟨l, ⟨m, ⟨hm, hname⟩, rfl⟩, hl⟩
    obtain ⟨t, ht, rfl⟩ := List.mem_map.1 hl
    exact ⟨m, hm, hname, t, ht, rfl⟩
  · rintro ⟨m, hm, hname, t, ht, rfl⟩
    exact ⟨_, ⟨m, ⟨hm, hname⟩, rfl⟩, List.mem_map.2 ⟨t, ht, rfl⟩⟩

theorem storeParsedURL_mem_processPage (cfg : FetchConfig) (page : Page) (u : URL) :
    FetcherCall.storeParsedURL u page.link ∈ processPage cfg page ↔
      ((metaDirectives page.metas).nofollow && cfg.HonorMetaNofollow) = false
        ∧ u ∈ page.links ∧ keepsLink cfg u = true := by
  rw [mem_processPage]
  simp only [reduceCtorEq, or_false, and_false, FetcherCall.storeParsedURL.injEq, and_true,
    exists_eq_right', extractLinks]
  by_cases hf : ((metaDirectives page.metas).nofollow && cfg.HonorMetaNofollow) = true
  · simp [hf]
  · simp only [hf, if_false, List.mem_filter]
    simp only [Bool.not_eq_true] at hf
    simp [hf]

/-- C12 as stated fails on `TestPathInclusion`. The link `/foo/bang/baz.keep`
matches the exclude pattern `\/foo\/bang` and the include pattern `\.keep$`, and
the test expects it to be stored; `/foo/bar.html` matches no include pattern
although one is configured, and the test expects it to be stored too. With the
precedence of §4.2 no link of the page would be stored and the test would fail. -/
theorem exclude_does_not_take_precedence :
    matchesAny pathInclusionConfig.ExcludeLinkPatterns "/foo/bang/baz.keep" = true
    ∧ matchesAny pathInclusionConfig.IncludeLinkPatterns "/foo/bang/baz.keep" = true
    ∧ "/foo/bang/baz.keep" ∈ expectedPaths
    ∧ "/foo/bang/baz.keep" ∈ storedPaths (processPage pathInclusionConfig pathInclusionPage)
    ∧ pathInclusionConfig.IncludeLinkPatterns ≠ []
    ∧ matchesAny pathInclusionConfig.IncludeLinkPatterns "/foo/bar.html" = false
    ∧ "/foo/bar.html" ∈ expectedPaths
    ∧ "/foo/bar.html" ∈ storedPaths (processPage pathInclusionConfig pathInclusionPage)
    ∧ pathInclusionPage.links.filter (specKeepsLink pathInclusionConfig) = []
    ∧ pathInclusionCheck
        ((pathInclusionPage.links.filter (specKeepsLink pathInclusionConfig)).map
          fun l => FetcherCall.storeParsedURL l pathInclusionPage.link) = false := by
  decide

/-- C12, amended. In link extraction include patterns take precedence over
exclude patterns: unless the page's `nofollow` is honored, a link of a page is
dropped if and only if its path matches some exclude pattern and no include
pattern. A link is not dropped for matching no include pattern. -/
theorem link_dropped_iff (cfg : FetchConfig) (page : Page) (u : URL)
    (hfollow : ((metaDirectives page.metas).nofollow && cfg.HonorMetaNofollow) = false)
    (hu : u ∈ page.links) :
    FetcherCall.storeParsedURL u page.link ∉ processPage cfg page ↔
      matchesAny cfg.ExcludeLinkPatterns u.path = true
        ∧ matchesAny cfg.IncludeLinkPatterns u.path = false := by
  rw [storeParsedURL_mem_processPage]
  simp only [hfollow, hu, true_and, keepsLink, Bool.or_eq_true, Bool.not_eq_true', not_or,
    Bool.not_eq_false, Bool.not_eq_true]

/-- C12 amended, on `TestPathInclusion`: `/foo/bar.mov` matches the exclude
pattern `\.mov$` and no include pattern, and is dropped. -/
theorem link_dropped_iff_witness :
    ((metaDirectives pathInclusionPage.metas).nofollow
        && pathInclusionConfig.HonorMetaNofollow) = false
    ∧ t1Link "/foo/bar.mov" ∈ pathInclusionPage.links
    ∧ matchesAny pathInclusionConfig.ExcludeLinkPatterns (t1Link "/foo/bar.mov").path = true
    ∧ matchesAny pathInclusionConfig.IncludeLinkPatterns (t1Link "/foo/bar.mov").path = false
    ∧ FetcherCall.storeParsedURL (t1Link "/foo/bar.mov") pathInclusionPage.link
        ∉ processPage pathInclusionConfig pathInclusionPage :=
  ⟨by decide, by decide, by decide, by decide,
    (link_dropped_iff pathInclusionConfig pathInclusionPage (t1Link "/foo/bar.mov")
      (by decide) (by decide)).2 ⟨by decide, by decide⟩⟩

/-- C13. A link of a fetched page is passed to `StoreParsedURL` if and only if the
page's `nofollow` is not honored and the path of the link matches no exclude
pattern or matches some include pattern. On `TestPathInclusion`:
`/foo/bang/baz.keep` matches both kinds and is stored, `/foo/bar.html` matches
neither and is stored, `/foo/bar.mov` and `/root` match only an exclude pattern and
are not stored; the stored paths are the expected ones and the test's check
passes. -/
theorem link_stored_iff :
    (∀ (cfg : FetchConfig) (page : Page) (u : URL),
      FetcherCall.storeParsedURL u page.link ∈ processPage cfg page ↔
        ((metaDirectives page.metas).nofollow && cfg.HonorMetaNofollow) = false
          ∧ u ∈ page.links
          ∧ (matchesAny cfg.ExcludeLinkPatterns u.path = false
              ∨ matchesAny cfg.IncludeLinkPatterns u.path = true))
    ∧ (matchesAny pathInclusionConfig.ExcludeLinkPatterns "/foo/bang/baz.keep" = true
        ∧ matchesAny pathInclusionConfig.IncludeLinkPatterns "/foo/bang/baz.keep" = true
        ∧ FetcherCall.storeParsedURL (t1Link "/foo/bang/baz.keep") pathInclusionPage.link
            ∈ processPage pathInclusionConfig pathInclusionPage)
    ∧ (matchesAny pathInclusionConfig.ExcludeLinkPatterns "/foo/bar.html" = false
        ∧ matchesAny pathInclusionConfig.IncludeLinkPatterns "/foo/bar.html" = false
        ∧ FetcherCall.storeParsedURL (t1Link "/foo/bar.html") pathInclusionPage.link
            ∈ processPage pathInclusionConfig pathInclusionPage)
    ∧ (matchesAny pathInclusionConfig.ExcludeLinkPatterns "/foo/bar.mov" = true
        ∧ matchesAny pathInclusionConfig.IncludeLinkPatterns "/foo/bar.mov" = false
        ∧ FetcherCall.storeParsedURL (t1Link "/foo/bar.mov") pathInclusionPage.link
            ∉ processPage pathInclusionConfig pathInclusionPage)
    ∧ (matchesAny pathInclusionConfig.ExcludeLinkPatterns "/root" = true
        ∧ matchesAny pathInclusionConfig.IncludeLinkPatterns "/root" = false
        ∧ FetcherCall.storeParsedURL (t1Link "/root") pathInclusionPage.link
            ∉ processPage pathInclusionConfig pathInclusionPage)
    ∧ storedPaths (processPage pathInclusionConfig pathInclusionPage) = expectedPaths
    ∧ pathInclusionCheck (processPage pathInclusionConfig pathInclusionPage) = true := by
  refine ⟨?_, by decide, by decide, by decide, by decide, by decide, by decide⟩
  intro cfg page u
  rw [storeParsedURL_mem_processPage]
  simp only [keepsLink, Bool.or_eq_true, Bool.not_eq_true']

theorem storedPaths_eq_nil {calls : List FetcherCall}
    (h : ∀ call ∈ calls, call.isStoreParsedURL = false) : storedPaths calls = [] := by
  induction calls with
  | nil => rfl
  | cons c cs ih =>
    have hc := h c (List.mem_cons_self _ _)
    have hcs := ih fun call hcall => h call (List.mem_cons_of_mem _ hcall)
    cases c with
    | storeParsedURL l src => simp [FetcherCall.isStoreParsedURL] at hc
    | storeURLFetchResults src => simpa [storedPaths] using hcs
    | handleResponse src => simpa [storedPaths] using hcs

/-- C14. When `HonorMetaNofollow` is set and a `<meta>` element of a fetched page
whose name is `robots` in any case has, among the comma-separated tokens of its
content, the token `nofollow` in any case, then no call that the fetcher makes
for the page is a `StoreParsedURL`, whatever links the page has. -/
theorem nofollow_stores_no_link (cfg : FetchConfig) (page : Page) (m : MetaTag)
    (t : List Char) (hcfg : cfg.HonorMetaNofollow = true) (hm : m ∈ page.metas)
    (hname : asciiLower m.name.toList = "robots".toList)
    (ht : t ∈ splitChars ',' m.content.toList)
    (htoken : asciiLower (trimBlanks t) = "nofollow".toList) :
    (∀ call ∈ processPage cfg page, call.isStoreParsedURL = false)
    ∧ (∀ u : URL, FetcherCall.storeParsedURL u page.link ∉ processPage cfg page)
    ∧ storedPaths (processPage cfg page) = [] := by
  have hnofollow : (metaDirectives page.metas).nofollow = true :=
    (metaDirectives_token page.metas "nofollow".toList).2 ⟨m, hm, hname, t, ht, htoken⟩
  have hnone : ∀ call ∈ processPage cfg page, call.isStoreParsedURL = false := by
    intro call hcall
    rcases (mem_processPage cfg page call).1 hcall with ⟨l, hl, _⟩ | h | ⟨_, h⟩
    · simp [extractLinks, hnofollow, hcfg] at hl
    · rw [h]
      rfl
    · rw [h]
      rfl
  exact ⟨hnone, fun u hu => by simpa [FetcherCall.isStoreParsedURL] using hnone _ hu,
    storedPaths_eq_nil hnone⟩

/-- C14 on `TestMetaNos`: the page `both.html` has `<meta name="ROBOTS"
content="noindeX, nofoLLow">` and six links, and none of them is stored; over the
three pages of the test its check passes. -/
theorem nofollow_stores_no_link_witness :
    metaNosConfig.HonorMetaNofollow = true
    ∧ (⟨"ROBOTS", "noindeX, nofoLLow"⟩ : MetaTag) ∈ bothPage.metas
    ∧ " nofoLLow".toList ∈ splitChars ',' "noindeX, nofoLLow".toList
    ∧ bothPage.links.length = 6
    ∧ storedPaths (processPage metaNosConfig bothPage) = []
    ∧ metaNosCheck
        (([nofollowPage, noindexPage, bothPage].map (processPage metaNosConfig)).flatten)
      = true :=
  ⟨rfl, by decide, by decide, rfl,
    (nofollow_stores_no_link metaNosConfig bothPage ⟨"ROBOTS", "noindeX, nofoLLow"⟩
      " nofoLLow".toList rfl (by decide) (by decide) (by decide) (by decide)).2.2,
    by decide⟩

/-- C15. With `HonorMetaNoindex` set, the handler is called for a fetched page if
and only if no `<meta>` element of the page whose name is `robots` in any case
has the token `noindex` in any case; `StoreURLFetchResults` is called for the page
exactly once either way. So a page with `noindex` is stored but not handled, and
a page with only `nofollow` is handled. -/
theorem noindex_skips_handler (cfg : FetchConfig) (page : Page)
    (hcfg : cfg.HonorMetaNoindex = true) :
    (FetcherCall.handleResponse page.link ∈ processPage cfg page ↔
      ¬ ∃ m ∈ page.metas, asciiLower m.name.toList = "robots".toList
          ∧ ∃ t ∈ splitChars ',' m.content.toList,
              asciiLower (trimBlanks t) = "noindex".toList)
    ∧ (processPage cfg page).count (.storeURLFetchResults page.link) = 1 := by
  constructor
  · rw [mem_processPage, ← metaDirectives_token]
    simp only [reduceCtorEq, and_false, exists_false, false_or, and_true, extractLinks, hcfg,
      Bool.and_true, Bool.not_eq_true]
    rfl
  · unfold processPage
    have h1 : ((extractLinks cfg page).1.map fun l =>
        FetcherCall.storeParsedURL l page.link).count (.storeURLFetchResults page.link) = 0 := by
      rw [List.count_eq_zero]
      intro hmem
      obtain ⟨l, _, hl⟩ := List.mem_map.1 hmem
      exact absurd hl (by simp)
    have h2 : [FetcherCall.storeURLFetchResults page.link].count
        (.storeURLFetchResults page.link) = 1 := by
      simp
    have h3 : (if ((extractLinks cfg page).2.noindex && cfg.HonorMetaNoindex) = true then []
        else [FetcherCall.handleResponse page.link]).count
          (.storeURLFetchResults page.link) = 0 := by
      split_ifs <;> simp
    rw [List.count_append, List.count_append, h1, h2, h3]

/-- C15 on `TestMetaNos`: for `noindex.html` the handler is not called and
`StoreURLFetchResults` is called once; for `nofollow.html`, which has only
`nofollow`, the handler is called. -/
theorem noindex_skips_handler_witness :
    metaNosConfig.HonorMetaNoindex = true
    ∧ FetcherCall.handleResponse noindexPage.link ∉ processPage metaNosConfig noindexPage
    ∧ (processPage metaNosConfig noindexPage).count (.storeURLFetchResults noindexPage.link)
        = 1
    ∧ FetcherCall.handleResponse nofollowPage.link ∈ processPage metaNosConfig nofollowPage :=
  ⟨rfl,
    fun h => (noindex_skips_handler metaNosConfig noindexPage rfl).1.1 h
      ⟨⟨"ROBOTS", "noindex"⟩, by decide, by decide, "noindex".toList, by decide, by decide⟩,
    (noindex_skips_handler metaNosConfig noindexPage rfl).2,
    by decide⟩

/-! ## The fetcher: crawl delay, redirects and fingerprint -/

/-- C16. The effective crawl delay of a host is the larger of the configured
default and the delay of robots.txt, capped by the configured maximum. With a
default of 0 s, a `Crawl-delay` of 120 s and a maximum of 100 ms it is 100 ms, and
the requests for three links of one host, made one after the other with that
delay between their starts, have all ended within one second, provided that the
time before the first of them and the requests themselves take at most 800 ms. -/
theorem max_crawl_delay_caps (d r m start t1 t2 t3 : Nat)
    (hfast : start + t1 + t2 + t3 ≤ 800 * millisecond) :
    effectiveCrawlDelay d r m = min (max d r) m
    ∧ effectiveCrawlDelay d r m ≤ m
    ∧ effectiveCrawlDelay 0 (120 * second) (100 * millisecond) = 100 * millisecond
    ∧ (fetchEnds (effectiveCrawlDelay 0 (120 * second) (100 * millisecond)) start
        [t1, t2, t3]).length = 3
    ∧ ∀ e ∈ fetchEnds (effectiveCrawlDelay 0 (120 * second) (100 * millisecond)) start
        [t1, t2, t3], e ≤ 1 * second := by
  have hd : effectiveCrawlDelay 0 (120 * second) (100 * millisecond) = 100000000 := by decide
  refine ⟨rfl, Nat.min_le_right _ _, by decide, rfl, ?_⟩
  rw [hd]
  simp only [millisecond] at hfast
  simp only [fetchEnds, second, millisecond, List.mem_cons, List.mem_singleton,
    List.not_mem_nil, or_false]
  rintro e (rfl | rfl | rfl) <;> omega

/-- C16 on `TestMaxCrawlDealy`: three requests of 10 ms each, the first starting
20 ms after the fetcher, end 30 ms, 130 ms and 230 ms after it started. -/
theorem max_crawl_delay_caps_witness :
    20 * millisecond + 10 * millisecond + 10 * millisecond + 10 * millisecond
      ≤ 800 * millisecond
    ∧ effectiveCrawlDelay 0 (120 * second) (100 * millisecond) = 100 * millisecond
    ∧ fetchEnds (effectiveCrawlDelay 0 (120 * second) (100 * millisecond))
        (20 * millisecond) [10 * millisecond, 10 * millisecond, 10 * millisecond]
      = [30 * millisecond, 130 * millisecond, 230 * millisecond]
    ∧ ∀ e ∈ fetchEnds (effectiveCrawlDelay 0 (120 * second) (100 * millisecond))
        (20 * millisecond) [10 * millisecond, 10 * millisecond, 10 * millisecond],
        e ≤ 1 * second :=
  ⟨by decide, by decide, by decide,
    (max_crawl_delay_caps 0 (120 * second) (100 * millisecond) (20 * millisecond)
      (10 * millisecond) (10 * millisecond) (10 * millisecond) (by decide)).2.2.2.2⟩

theorem followRedirects_chain (respond : String → Response) :
    ∀ (rest : List String) (limit : Nat) (current : String) (chain : List String),
      RedirectChain respond current rest → rest.length ≤ limit →
      ∃ status body, followRedirects respond limit current chain
          = some (chain ++ rest, status, body)
        ∧ respond ((current :: rest).getLast (List.cons_ne_nil _ _)) = .final status body := by
  intro rest
  induction rest with
  | nil =>
    intro limit current chain hchain _
    obtain ⟨status, body, hfinal⟩ := hchain
    refine ⟨status, body, ?_, hfinal⟩
    unfold followRedirects
    rw [hfinal, List.append_nil]
  | cons b rest ih =>
    intro limit current chain hchain hlimit
    obtain ⟨⟨status, hredirect⟩, hrest⟩ := hchain
    cases limit with
    | zero => simp at hlimit
    | succ n =>
      obtain ⟨st, body, hrun, hlast⟩ :=
        ih n b (chain ++ [b]) hrest (Nat.le_of_succ_le_succ hlimit)
      refine ⟨st, body, ?_, ?_⟩
      · unfold followRedirects
        rw [hredirect]
        simp only
        rw [hrun, List.append_assoc, List.singleton_append]
      · rw [List.getLast_cons (List.cons_ne_nil _ _)]
        exact hlast

/-- C17. When a link `a` is redirected through the URLs of `rest` in turn, the
last of them answers with something other than a redirect, and the redirects are
no more than the limit, the fetch has a result whose URL is `a`, whose
`RedirectedFrom` is `rest` in order, and whose status and body are those of the
last response. -/
theorem redirects_recorded (respond : String → Response) (limit : Nat) (a : String)
    (rest : List String) (hchain : RedirectChain respond a rest)
    (hlimit : rest.length ≤ limit) :
    ∃ r, fetchLink respond limit a = some r ∧ r.URL = a ∧ r.RedirectedFrom = rest
      ∧ respond ((a :: rest).getLast (List.cons_ne_nil _ _)) = .final r.Status r.Body := by
  obtain ⟨status, body, hrun, hlast⟩ := followRedirects_chain respond rest limit a [] hchain hlimit
  refine ⟨
    { URL := a
      RedirectedFrom := rest
      Status := status
      Body := body
      FnvFingerprint := int64 (fnv64 body) }, ?_, rfl, rfl, hlast⟩
  unfold fetchLink
  rw [hrun]
  rfl

/-- C17 on `TestRedirects`: page 1 is redirected by 307 to page 2, page 2 by 307
to page 3, which answers 200; the result has the URL of page 1 and
`RedirectedFrom` pages 2 and 3. -/
theorem redirects_recorded_witness :
    RedirectChain redirectsRespond (redirectsLink 1) [redirectsLink 2, redirectsLink 3]
    ∧ [redirectsLink 2, redirectsLink 3].length ≤ 10
    ∧ (fetchLink redirectsRespond 10 (redirectsLink 1)).map (fun r => (r.URL, r.RedirectedFrom))
      = some ("http://sub.dom.com/page1.html",
          ["http://sub.dom.com/page2.html", "http://sub.dom.com/page3.html"])
    ∧ ∃ r, fetchLink redirectsRespond 10 (redirectsLink 1) = some r
      ∧ r.URL = redirectsLink 1 ∧ r.RedirectedFrom = [redirectsLink 2, redirectsLink 3]
      ∧ redirectsRespond
          ((redirectsLink 1 :: [redirectsLink 2, redirectsLink 3]).getLast
            (List.cons_ne_nil _ _)) = .final r.Status r.Body :=
  ⟨⟨⟨307, by decide⟩, ⟨307, by decide⟩, 200, [], by decide⟩, by decide, by decide,
    redirects_recorded redirectsRespond 10 (redirectsLink 1)
      [redirectsLink 2, redirectsLink 3]
      ⟨⟨307, by decide⟩, ⟨307, by decide⟩, 200, [], by decide⟩ (by decide)⟩

theorem fnv64_lt (data : List Nat) : fnv64 data < 2 ^ 64 := by
  unfold fnv64
  have hstep : ∀ (l : List Nat) (hash : Nat), hash < 2 ^ 64 →
      l.foldl (fun hash b => ((hash * fnvPrime64) % 2 ^ 64) ^^^ (b % 256)) hash < 2 ^ 64 := by
    intro l
    induction l with
    | nil => exact fun _ h => h
    | cons b bs ih =>
      intro hash _
      apply ih
      apply Nat.xor_lt_two_pow
      · exact Nat.mod_lt _ (by decide)
      · exact Nat.lt_of_lt_of_le (Nat.mod_lt _ (by decide)) (by decide)
  exact hstep data fnvOffset64 (by decide)

theorem int64_spec (x : Nat) (hx : x < 2 ^ 64) :
    -(2 ^ 63 : Int) ≤ int64 x ∧ int64 x < 2 ^ 63 ∧ int64 x % 2 ^ 64 = (x : Int)
      ∧ (x < 2 ^ 63 → int64 x = x) ∧ (2 ^ 63 ≤ x → int64 x = (x : Int) - 2 ^ 64) := by
  have e63 : (2 : Nat) ^ 63 = 9223372036854775808 := by norm_num
  have e64 : (2 : Nat) ^ 64 = 18446744073709551616 := by norm_num
  have i63 : (2 : Int) ^ 63 = 9223372036854775808 := by norm_num
  have i64 : (2 : Int) ^ 64 = 18446744073709551616 := by norm_num
  unfold int64
  rw [Nat.mod_eq_of_lt hx]
  simp only [e63, e64, i63, i64] at hx ⊢
  split_ifs with h
  · exact ⟨by omega, by omega, by omega, fun _ => rfl, fun h2 => by omega⟩
  · exact ⟨by omega, by omega, by omega, fun h1 => by omega, fun _ => rfl⟩

/-- C18. When the fetch of a link ends with a response of body `body`, the result
has as `FnvFingerprint` the 64-bit FNV-1 hash of the body converted to `int64`: a
number from `-2^63` up to `2^63 - 1` that is congruent to the hash modulo `2^64`,
the hash itself when it is below `2^63` and the hash less `2^64` otherwise. -/
theorem fingerprint_is_signed_fnv (respond : String → Response) (limit : Nat) (link : String)
    (chain : List String) (status : Nat) (body : List Nat)
    (hfetch : followRedirects respond limit link [] = some (chain, status, body)) :
    ∃ r, fetchLink respond limit link = some r ∧ r.Body = body
      ∧ r.FnvFingerprint = int64 (fnv64 body)
      ∧ fnv64 body < 2 ^ 64
      ∧ -(2 ^ 63 : Int) ≤ r.FnvFingerprint ∧ r.FnvFingerprint < 2 ^ 63
      ∧ r.FnvFingerprint % 2 ^ 64 = (fnv64 body : Int)
      ∧ (fnv64 body < 2 ^ 63 → r.FnvFingerprint = fnv64 body)
      ∧ (2 ^ 63 ≤ fnv64 body → r.FnvFingerprint = (fnv64 body : Int) - 2 ^ 64) := by
  have hspec := int64_spec (fnv64 body) (fnv64_lt body)
  refine ⟨
    { URL := link
      RedirectedFrom := chain
      Status := status
      Body := body
      FnvFingerprint := int64 (fnv64 body) }, ?_, rfl, rfl, fnv64_lt body, hspec.1, hspec.2.1,
    hspec.2.2.1, hspec.2.2.2.1, hspec.2.2.2.2⟩
  unfold fetchLink
  rw [hfetch]
  rfl

set_option maxRecDepth 100000 in
/-- C18 on `TestFnvFingerprint`: the page of the test is fetched with success, and
the fingerprint of the result is the number that `int64(fnv.Sum64())` gives for its
221 bytes. -/
theorem fingerprint_is_signed_fnv_witness :
    followRedirects fnvRespond 10 "http://a.com/page1.html" []
      = some ([], 200, bytesOf fnvHtml)
    ∧ (bytesOf fnvHtml).length = 221
    ∧ fnv64 (bytesOf fnvHtml) = 13294936879045267186
    ∧ int64 (fnv64 (bytesOf fnvHtml)) = -5151807194664284430
    ∧ ∃ r, fetchLink fnvRespond 10 "http://a.com/page1.html" = some r
      ∧ r.Body = bytesOf fnvHtml
      ∧ r.FnvFingerprint = int64 (fnv64 (bytesOf fnvHtml))
      ∧ fnv64 (bytesOf fnvHtml) < 2 ^ 64
      ∧ -(2 ^ 63 : Int) ≤ r.FnvFingerprint ∧ r.FnvFingerprint < 2 ^ 63
      ∧ r.FnvFingerprint % 2 ^ 64 = (fnv64 (bytesOf fnvHtml) : Int)
      ∧ (fnv64 (bytesOf fnvHtml) < 2 ^ 63 → r.FnvFingerprint = fnv64 (bytesOf fnvHtml))
      ∧ (2 ^ 63 ≤ fnv64 (bytesOf fnvHtml) →
          r.FnvFingerprint = (fnv64 (bytesOf fnvHtml) : Int) - 2 ^ 64) :=
  ⟨by decide, by decide, by decide, by decide,
    fingerprint_is_signed_fnv fnvRespond 10 "http://a.com/page1.html" [] 200
      (bytesOf fnvHtml) (by decide)⟩

/-! ## What `readlink` prints -/

theorem written_writes (p : Printer) (lines : List String) :
    written p (lines.map (Event.write p)) = concatLines lines := by
  induction lines with
  | nil => rfl
  | cons l ls ih =>
    simp only [List.map_cons, written, concatLines, if_true, ih]

theorem written_writes_other {p q : Printer} (h : q ≠ p) (lines : List String) :
    written p (lines.map (Event.write q)) = "" := by
  induction lines with
  | nil => rfl
  | cons l ls ih =>
    simp only [List.map_cons, written, if_neg h, ih]

theorem readLinkCommand_run_fails (env : Env) (flags : Flags) (s : State) (err : String)
    (hfile : flags.config ≠ "")
    (hfail : (env.ReadConfigFile flags.config s.Config).1 = some err) :
    run (cmd.readLinkCommand env flags) s
      = (.panicked (.error err),
          { commander := withStreams s.commander
            Config := (env.ReadConfigFile flags.config s.Config).2
            trace := s.trace ++ [(.readConfigFile flags.config, s.Config)] }) := by
  unfold cmd.readLinkCommand
  rw [run_bind_ok _ _ _ _ _ (setUpCommanderStreams_eq s)]
  rw [run_bind_ok _ _ _ _ _ (getCommander_apply _)]
  dsimp only
  rw [run_bind_ok _ _ _ _ _ (getCommander_apply _)]
  dsimp only
  rw [run_bind_ok _ _ _ _ _ (getCommander_apply _)]
  dsimp only
  rw [run_bind_halt _ _ _ _ _
    (initCommand_fails env flags { s with commander := withStreams s.commander } err hfile
      hfail)]

theorem readLinkLookup_withStoredError (env : Env) (g : LinkInfo → String) (flags : Flags)
    (ds : Datastore) (p : Printer) (e : Option Printer) (x : Exiter) :
    readLinkLookup (withStoredError env g) flags ds p e x = readLinkLookup env flags ds p e x := by
  unfold readLinkLookup
  show (match env.ParseURL flags.readLinkLink with
    | .error err => _
    | .ok u => _) = _
  cases env.ParseURL flags.readLinkLink with
  | error err => rfl
  | ok u =>
    dsimp only
    congr 1
    show (match (withStoredError env g).FindLink ds u true with
      | .error err => _
      | .ok none => _
      | .ok (some linfo) => _) = _
    unfold withStoredError
    dsimp only
    cases env.FindLink ds u true with
    | error err => rfl
    | ok o =>
      cases o with
      | none => rfl
      | some linfo => rfl

theorem readLinkScript_withStoredError (env : Env) (g : LinkInfo → String) (flags : Flags)
    (c : Commander) :
    readLinkScript (withStoredError env g) flags c = readLinkScript env flags c := by
  unfold readLinkScript
  simp only [readLinkLookup_withStoredError]
  rfl

theorem run_readlink_withStoredError (env : Env) (g : LinkInfo → String) (flags : Flags)
    (s : State) :
    run (cmd.Execute (withStoredError env g) .readlink flags) s
      = run (cmd.Execute env .readlink flags) s := by
  show run (cmd.readLinkCommand (withStoredError env g) flags) s
    = run (cmd.readLinkCommand env flags) s
  by_cases hcfg : configLoads env flags s.Config = true
  · rw [readLinkCommand_run env flags s hcfg,
      readLinkCommand_run (withStoredError env g) flags s hcfg,
      readLinkScript_withStoredError]
    rfl
  · have hfile : flags.config ≠ "" := by
      intro h
      exact hcfg (by simp [configLoads, h])
    obtain ⟨err, herr⟩ : ∃ err, (env.ReadConfigFile flags.config s.Config).1 = some err := by
      cases h : (env.ReadConfigFile flags.config s.Config).1 with
      | none => exact absurd (by simp [configLoads, h]) hcfg
      | some err => exact ⟨err, rfl⟩
    rw [readLinkCommand_run_fails env flags s err hfile herr,
      readLinkCommand_run_fails (withStoredError env g) flags s err hfile herr]
    rfl

theorem readlink_record_in_sandbox (env : Env) (flags : Flags) (c : Commander)
    (cfg : Config) (ds : Datastore) (u : URL) (linfo : LinkInfo)
    (hurl : flags.readLinkLink ≠ "")
    (hflags : (flags.readLinkBodyOnly && flags.readLinkMetaOnly) = false)
    (hcfg : configLoads env flags cfg = true)
    (hds : (c.Datastore = some ds ∧ cmd.isFinder ds = true)
      ∨ (c.Datastore = none ∧ env.NewDatastore = none ∧ ds = .cassandra))
    (hparse : env.ParseURL flags.readLinkLink = .ok u)
    (hfind : env.FindLink ds u true = .ok (some linfo))
    (hcrawled : linfo.CrawlTime.Equal NotYetCrawled = false) :
    (cmd.executeInSandbox env .readlink flags (State.init c cfg)).1
      = .returned (concatLines (readLinkLines env flags linfo)) "" 0 := by
  have hboth : ¬(flags.readLinkBodyOnly && flags.readLinkMetaOnly) = true := by
    rw [hflags]
    decide
  have hout : ∀ pre : List Event, (∀ p, written p pre = "") →
      readLinkScript env flags (inSandbox (State.init c cfg).commander)
        = (pre ++ (readLinkLines env flags linfo).map (Event.write .sandboxStdout),
          .panicked (.exitCarrier 0)) →
      (cmd.executeInSandbox env .readlink flags (State.init c cfg)).1
        = .returned (concatLines (readLinkLines env flags linfo)) "" 0 := by
    intro pre hpre h
    rw [executeInSandbox_readlink env flags (State.init c cfg) hcfg _ 0 h, written_append,
      written_append, hpre, hpre, written_writes,
      written_writes_other (by decide : Printer.sandboxStdout ≠ Printer.sandboxStderr),
      String.empty_append]
    rfl
  rcases hds with ⟨hd, hfinder⟩ | ⟨hd, hnd, rfl⟩
  · refine hout [.findLink ds u true] (fun _ => rfl) ?_
    simp [readLinkScript, readLinkLookup, following, exitOutcome, inSandbox,
      State.init, streamsExit, streamsPrintf, hurl, hboth, hd, hfinder, hparse, hfind, hcrawled]
  · refine hout [.newDatastore, .findLink .cassandra u true] (fun _ => rfl) ?_
    simp [readLinkScript, readLinkLookup, following, exitOutcome, inSandbox,
      State.init, streamsExit, streamsPrintf, hurl, hboth, hd, hnd, hparse, hfind, hcrawled]

theorem readlink_run_events (env : Env) (flags : Flags) (s : State)
    (hcfg : configLoads env flags s.Config = true) :
    (run (cmd.Execute env .readlink flags) s).1 = (readLinkScript env flags s.commander).2
    ∧ (run (cmd.Execute env .readlink flags) s).2.events
      = s.events ++ initEvents env flags ++ (readLinkScript env flags s.commander).1 := by
  have hrun : run (cmd.Execute env .readlink flags) s
      = ((readLinkScript env flags s.commander).2,
          (afterInit env flags { s with commander := withStreams s.commander }).record
            (readLinkScript env flags s.commander).1) := readLinkCommand_run env flags s hcfg
  rw [hrun]
  refine ⟨rfl, ?_⟩
  show (State.record _ _).events = _
  rw [State.record_events, afterInit_events]
  rfl

set_option maxRecDepth 100000 in
/-- C21 fails when the streams are not installed before the command runs, as from
`main`: `readlink -u http://test.com/page1.com` on the record `goodLinfo` of
`TestReadlinkCommand` exits with status 0, but `cmd.setUpCommanderStreams` has
made `printf` the writer to `os.Stderr`, so every line of the record goes to
stderr and stdout gets nothing. In the sandbox of the test, where the streams are
installed, the same run writes the expected text to stdout. -/
theorem readlink_record_without_streams :
    (run (cmd.Execute goodLinfoEnv .readlink readlinkFlags)
        (State.init mockCommander defaultConfig)).1 = .exited 0
    ∧ written .osStdout
        (run (cmd.Execute goodLinfoEnv .readlink readlinkFlags)
          (State.init mockCommander defaultConfig)).2.events = ""
    ∧ written .osStderr
        (run (cmd.Execute goodLinfoEnv .readlink readlinkFlags)
          (State.init mockCommander defaultConfig)).2.events = standardStdout
    ∧ (cmd.executeInSandbox goodLinfoEnv .readlink readlinkFlags
        (State.init mockCommander defaultConfig)).1 = .returned standardStdout "" 0 := by
  have h := readlink_run_events goodLinfoEnv readlinkFlags
    (State.init mockCommander defaultConfig) rfl
  have hbox := readlink_record_in_sandbox goodLinfoEnv readlinkFlags mockCommander defaultConfig
    (.preset 2 true) goodUrl goodLinfo (by decide) rfl rfl (Or.inl ⟨rfl, rfl⟩) rfl rfl rfl
  rw [h.1, h.2, hbox]
  decide

set_option maxRecDepth 100000 in
/-- C22 fails when the streams are not installed before the command runs, as from
`main`: with `--body-only` the body and its newline, and with `--meta-only` the
lines of the record without its body, go to stderr, and stdout gets nothing; both
runs exit with status 0. In the sandbox of the tests the same runs write these
texts to stdout. -/
theorem readlink_body_or_meta_only_without_streams :
    (run (cmd.Execute goodLinfoEnv .readlink bodyOnlyFlags)
        (State.init mockCommander defaultConfig)).1 = .exited 0
    ∧ written .osStdout
        (run (cmd.Execute goodLinfoEnv .readlink bodyOnlyFlags)
          (State.init mockCommander defaultConfig)).2.events = ""
    ∧ written .osStderr
        (run (cmd.Execute goodLinfoEnv .readlink bodyOnlyFlags)
          (State.init mockCommander defaultConfig)).2.events = testBody ++ "\n"
    ∧ (run (cmd.Execute goodLinfoEnv .readlink metaOnlyFlags)
        (State.init mockCommander defaultConfig)).1 = .exited 0
    ∧ written .osStdout
        (run (cmd.Execute goodLinfoEnv .readlink metaOnlyFlags)
          (State.init mockCommander defaultConfig)).2.events = ""
    ∧ written .osStderr
        (run (cmd.Execute goodLinfoEnv .readlink metaOnlyFlags)
          (State.init mockCommander defaultConfig)).2.events = standardMetaStdout
    ∧ (cmd.executeInSandbox goodLinfoEnv .readlink bodyOnlyFlags
        (State.init mockCommander defaultConfig)).1 = .returned (testBody ++ "\n") "" 0
    ∧ (cmd.executeInSandbox goodLinfoEnv .readlink metaOnlyFlags
        (State.init mockCommander defaultConfig)).1 = .returned standardMetaStdout "" 0 := by
  have hb := readlink_run_events goodLinfoEnv bodyOnlyFlags
    (State.init mockCommander defaultConfig) rfl
  have hm := readlink_run_events goodLinfoEnv metaOnlyFlags
    (State.init mockCommander defaultConfig) rfl
  have hbbox := readlink_record_in_sandbox goodLinfoEnv bodyOnlyFlags mockCommander
    defaultConfig (.preset 2 true) goodUrl goodLinfo (by decide) rfl rfl (Or.inl ⟨rfl, rfl⟩) rfl
    rfl rfl
  have hmbox := readlink_record_in_sandbox goodLinfoEnv metaOnlyFlags mockCommander
    defaultConfig (.preset 2 true) goodUrl goodLinfo (by decide) rfl rfl (Or.inl ⟨rfl, rfl⟩) rfl
    rfl rfl
  rw [hb.1, hb.2, hm.1, hm.2, hbbox, hmbox]
  decide

/-- C27. What `readlink` does, from any state and with any flags, does not depend
on the `Error` field of the record that the datastore returns: replacing the
stored errors changes neither the outcome nor the events, alone or in the sandbox
of the tests. For a crawled record printed in the sandbox without `--body-only`,
the fourth line of stdout is `Error:` padded with ten blanks and followed by a
newline, whatever the stored error. -/
theorem readlink_ignores_stored_error (env : Env) (flags : Flags) (s : State)
    (g : LinkInfo → String) :
    run (cmd.Execute (withStoredError env g) .readlink flags) s
      = run (cmd.Execute env .readlink flags) s
    ∧ cmd.executeInSandbox (withStoredError env g) .readlink flags s
      = cmd.executeInSandbox env .readlink flags s
    ∧ (∀ (c : Commander) (cfg : Config) (ds : Datastore) (u : URL) (linfo : LinkInfo),
        flags.readLinkLink ≠ "" → flags.readLinkBodyOnly = false →
        configLoads env flags cfg = true →
        (c.Datastore = some ds ∧ cmd.isFinder ds = true)
          ∨ (c.Datastore = none ∧ env.NewDatastore = none ∧ ds = .cassandra) →
        env.ParseURL flags.readLinkLink = .ok u →
        env.FindLink ds u true = .ok (some linfo) →
        linfo.CrawlTime.Equal NotYetCrawled = false →
        ∃ rest,
          (cmd.executeInSandbox env .readlink flags (State.init c cfg)).1
            = .returned
                (("Url:            " ++ fmtURL linfo.URL ++ "\n")
                  ++ (("HttpStatus:     " ++ fmtInt linfo.Status ++ "\n")
                  ++ (("CrawlTime:      " ++ env.timeString linfo.CrawlTime ++ "\n")
                  ++ ("Error:          \n" ++ rest)))) "" 0) := by
  have hrun := run_readlink_withStoredError env g flags
  refine ⟨hrun s, ?_, ?_⟩
  · unfold cmd.executeInSandbox
    simp only [hrun]
  · intro c cfg ds u linfo hurl hbody hcfg hds hparse hfind hcrawled
    have hflags : (flags.readLinkBodyOnly && flags.readLinkMetaOnly) = false := by
      rw [hbody]
      rfl
    rw [readlink_record_in_sandbox env flags c cfg ds u linfo hurl hflags hcfg hds hparse hfind
      hcrawled]
    refine ⟨concatLines ((readLinkLines env flags linfo).drop 4), ?_⟩
    simp only [readLinkLines, hbody, readLinkMetaLines, Bool.false_eq_true, if_false,
      List.cons_append, concatLines, List.drop_succ_cons, List.drop_zero]
    rfl

set_option maxRecDepth 100000 in
/-- C27 on `TestReadlinkCommand`: the record `goodLinfo` has an error of four
lines, and the run in the sandbox prints the same text as for the same record
with an empty error, the fourth line being `Error:` with its blanks and a
newline. -/
theorem readlink_ignores_stored_error_witness :
    goodLinfo.Error = "A nice long\nError\nwith plenty of \nnewlines and such\n"
    ∧ cmd.executeInSandbox (withStoredError goodLinfoEnv fun _ => "") .readlink readlinkFlags
        (State.init mockCommander defaultConfig)
      = cmd.executeInSandbox goodLinfoEnv .readlink readlinkFlags
        (State.init mockCommander defaultConfig)
    ∧ (cmd.executeInSandbox goodLinfoEnv .readlink readlinkFlags
        (State.init mockCommander defaultConfig)).1 = .returned standardStdout "" 0
    ∧ ∃ rest,
        (cmd.executeInSandbox goodLinfoEnv .readlink readlinkFlags
          (State.init mockCommander defaultConfig)).1
          = .returned
              (("Url:            " ++ fmtURL goodLinfo.URL ++ "\n")
                ++ (("HttpStatus:     " ++ fmtInt goodLinfo.Status ++ "\n")
                ++ (("CrawlTime:      " ++ goodLinfoEnv.timeString goodLinfo.CrawlTime ++ "\n")
                ++ ("Error:          \n" ++ rest)))) "" 0 :=
  ⟨rfl,
    (readlink_ignores_stored_error goodLinfoEnv readlinkFlags
      (State.init mockCommander defaultConfig) fun _ => "").2.1,
    (readlink_record_in_sandbox goodLinfoEnv readlinkFlags mockCommander defaultConfig
      (.preset 2 true) goodUrl goodLinfo (by decide) rfl rfl (Or.inl ⟨rfl, rfl⟩) rfl rfl
      rfl).trans (by decide),
    (readlink_ignores_stored_error goodLinfoEnv readlinkFlags
      (State.init mockCommander defaultConfig) fun _ => "").2.2 mockCommander defaultConfig
      (.preset 2 true) goodUrl goodLinfo (by decide) rfl rfl (Or.inl ⟨rfl, rfl⟩) rfl rfl rfl⟩

/-- C28 fails: `setUpCommanderStreams` never assigns `errorf`. Started with all
three streams unset, as from `main`, it leaves `errorf` unset and makes `printf`
the writer to standard error; started with `printf` set and `errorf` unset, it
replaces the `printf` that was set. Only `exit` and, when `errorf` is set,
`printf` end as the claim says. -/
theorem setUpCommanderStreams_leaves_errorf_unset :
    (cmd.setUpCommanderStreams (State.init bareCommander defaultConfig)).state.commander.errorf
      = none
    ∧ (cmd.setUpCommanderStreams (State.init bareCommander defaultConfig)).state.commander.printf
      = some .osStderr
    ∧ (cmd.setUpCommanderStreams (State.init bareCommander defaultConfig)).state.commander.exit
      = some .osExit
    ∧ (cmd.setUpCommanderStreams
        (State.init { bareCommander with printf := some .sandboxStdout }
          defaultConfig)).state.commander.printf = some .osStderr
    ∧ (cmd.setUpCommanderStreams
        (State.init { bareCommander with printf := some .sandboxStdout }
          defaultConfig)).state.commander.errorf = none
    ∧ (cmd.setUpCommanderStreams
        (State.init { bareCommander with errorf := some .sandboxStderr }
          defaultConfig)).state.commander.printf = some .osStdout
    ∧ (∀ s : State,
        (cmd.setUpCommanderStreams s).state.commander.errorf = s.commander.errorf) := by
  refine ⟨rfl, rfl, rfl, rfl, rfl, rfl, ?_⟩
  intro s
  rw [setUpCommanderStreams_eq]
  rfl

/-! ## The status `executeInSandbox` returns -/

theorem exitsZeroOrOne_pure {α : Type} (a : α) : ExitsZeroOrOne (pure a : M α) := by
  intro s o s1 h
  rw [M.pure_apply] at h
  exact absurd h (by simp)

theorem exitsZeroOrOne_halt {α : Type} (o : Outcome)
    (ho : ∀ n : Int, o = .panicked (.exitCarrier n) → n = 0 ∨ n = 1) :
    ExitsZeroOrOne (halt o : M α) := by
  intro s o1 s1 h
  rw [halt_apply] at h
  injection h with h1 _
  rw [← h1]
  exact ho

theorem exitsZeroOrOne_panic {α : Type} (v : PanicValue)
    (hv : ∀ n : Int, v = .exitCarrier n → n = 0 ∨ n = 1) :
    ExitsZeroOrOne (panic v : M α) :=
  exitsZeroOrOne_halt _ fun n h => hv n (by injection h)

theorem exitsZeroOrOne_of_ok {α : Type} {m : M α} (h : ∀ s, ∃ a s1, m s = .ok a s1) :
    ExitsZeroOrOne m := by
  intro s o s1 hs
  obtain ⟨a, s2, h2⟩ := h s
  rw [h2] at hs
  exact absurd hs (by simp)

theorem exitsZeroOrOne_emit (e : Event) : ExitsZeroOrOne (emit e) :=
  exitsZeroOrOne_of_ok fun _ => ⟨_, _, rfl⟩

theorem exitsZeroOrOne_getCommander : ExitsZeroOrOne getCommander :=
  exitsZeroOrOne_of_ok fun _ => ⟨_, _, rfl⟩

theorem exitsZeroOrOne_getConfig : ExitsZeroOrOne getConfig :=
  exitsZeroOrOne_of_ok fun _ => ⟨_, _, rfl⟩

theorem exitsZeroOrOne_setConfig (c : Config) : ExitsZeroOrOne (setConfig c) :=
  exitsZeroOrOne_of_ok fun _ => ⟨_, _, rfl⟩

theorem exitsZeroOrOne_modifyCommander (f : Commander → Commander) :
    ExitsZeroOrOne (modifyCommander f) :=
  exitsZeroOrOne_of_ok fun _ => ⟨_, _, rfl⟩

theorem exitsZeroOrOne_bind {α β : Type} {m : M α} {f : α → M β} (hm : ExitsZeroOrOne m)
    (hf : ∀ a, ExitsZeroOrOne (f a)) : ExitsZeroOrOne (m >>= f) := by
  intro s o s1 h
  rw [M.bind_apply] at h
  cases hms : m s with
  | ok a s2 =>
    rw [hms] at h
    exact hf a s2 o s1 h
  | halt o2 s2 =>
    rw [hms] at h
    injection h with h1 h2
    rw [← h1]
    exact hm s o2 s2 hms

theorem exitsZeroOrOne_ite {α : Type} (c : Prop) [Decidable c] {a b : M α}
    (ha : ExitsZeroOrOne a) (hb : ExitsZeroOrOne b) :
    ExitsZeroOrOne (if c then a else b) := by
  split_ifs
  · exact ha
  · exact hb

theorem exitsZeroOrOne_awaitSigint (env : Env) : ExitsZeroOrOne (awaitSigint env) := by
  unfold awaitSigint
  refine exitsZeroOrOne_bind (exitsZeroOrOne_emit _) (fun _ => ?_)
  split_ifs
  · exact exitsZeroOrOne_emit _
  · exact exitsZeroOrOne_halt _ (fun n h => by injection h)

theorem exitsZeroOrOne_goroutinePanic (env : Env) (d : Option Dispatcher) (done : Nat) :
    ExitsZeroOrOne (goroutinePanic env d done) := by
  unfold goroutinePanic
  split
  · exact exitsZeroOrOne_pure _
  · split
    · split_ifs
      · exact exitsZeroOrOne_panic _ (fun n h => by injection h)
      · exact exitsZeroOrOne_pure _
    · exact exitsZeroOrOne_pure _

theorem exitsZeroOrOne_receiveSigint (env : Env) (d : Option Dispatcher) :
    ExitsZeroOrOne (receiveSigint env d) := by
  unfold receiveSigint
  split_ifs
  · exact exitsZeroOrOne_emit _
  · split
    · exact exitsZeroOrOne_halt _ (fun n h => by injection h)
    · split
      · exact exitsZeroOrOne_panic _ (fun n h => by injection h)
      · exact exitsZeroOrOne_halt _ (fun n h => by injection h)

theorem exitsZeroOrOne_withDefer {α : Type} {d : M Unit} {b : M α} (hd : ExitsZeroOrOne d)
    (hb : ExitsZeroOrOne b) : ExitsZeroOrOne (withDefer d b) := by
  intro s o s1 h
  unfold walker.withDefer at h
  cases hbs : b s with
  | ok a s2 =>
    rw [hbs] at h
    dsimp only at h
    cases hds : d s2 with
    | ok u s3 =>
      rw [hds] at h
      exact absurd h (by simp)
    | halt o3 s3 =>
      rw [hds] at h
      injection h with h1 _
      rw [← h1]
      exact hd s2 o3 s3 hds
  | halt o2 s2 =>
    rw [hbs] at h
    have hb2 := hb s o2 s2 hbs
    cases o2 with
    | panicked v =>
      dsimp only at h
      cases hds : d s2 with
      | ok u s3 =>
        rw [hds] at h
        injection h with h1 _
        rw [← h1]
        exact hb2
      | halt o3 s3 =>
        rw [hds] at h
        injection h with h1 _
        rw [← h1]
        exact hd s2 o3 s3 hds
    | returned =>
      injection h with h1 _
      rw [← h1]
      exact hb2
    | exited n =>
      injection h with h1 _
      rw [← h1]
      exact hb2
    | blocked =>
      injection h with h1 _
      rw [← h1]
      exact hb2

theorem exitsZeroOrOne_fatalf {α : Type} (msg : String) :
    ExitsZeroOrOne (cmd.fatalf msg : M α) := by
  unfold cmd.fatalf
  exact exitsZeroOrOne_bind (exitsZeroOrOne_emit _) fun _ =>
    exitsZeroOrOne_bind (exitsZeroOrOne_emit _) fun _ =>
      exitsZeroOrOne_halt _ (fun n h => by injection h)

theorem exitsZeroOrOne_initCommand (env : Env) (flags : Flags) :
    ExitsZeroOrOne (cmd.initCommand env flags) := by
  intro s o s1 h
  rw [initCommand_apply] at h
  intro n hn
  subst hn
  split_ifs at h <;> (try split at h) <;> simp at h

theorem exitsZeroOrOne_callPrinter (f : Option Printer) (text : String) :
    ExitsZeroOrOne (cmd.callPrinter f text) := by
  unfold cmd.callPrinter
  cases f with
  | none => exact exitsZeroOrOne_panic _ (fun n h => by injection h)
  | some p => exact exitsZeroOrOne_emit _

theorem exitsZeroOrOne_callExiter {α : Type} (f : Option Exiter) (status : Int)
    (h : status = 0 ∨ status = 1) : ExitsZeroOrOne (cmd.callExiter f status : M α) := by
  unfold cmd.callExiter
  cases f with
  | none => exact exitsZeroOrOne_panic _ (fun n h => by injection h)
  | some x =>
    cases x with
    | osExit => exact exitsZeroOrOne_halt _ (fun n h => by injection h)
    | sandboxExit =>
      refine exitsZeroOrOne_panic _ (fun n hn => ?_)
      injection hn with hn
      rw [← hn]
      exact h

theorem exitsZeroOrOne_forEach {α : Type} (xs : List α) {f : α → M Unit}
    (hf : ∀ x, ExitsZeroOrOne (f x)) : ExitsZeroOrOne (forEach xs f) := by
  induction xs with
  | nil => exact exitsZeroOrOne_pure ()
  | cons x xs ih => exact exitsZeroOrOne_bind (hf x) (fun _ => ih)

theorem exitsZeroOrOne_setUpCommanderStreams : ExitsZeroOrOne cmd.setUpCommanderStreams :=
  exitsZeroOrOne_of_ok fun s => ⟨_, _, setUpCommanderStreams_eq s⟩

theorem exitsZeroOrOne_execute (env : Env) (command : cmd.Command) (flags : Flags) :
    ExitsZeroOrOne (cmd.Execute env command flags) := by
  cases command <;> simp only [cmd.Execute] <;>
    first
      | unfold cmd.crawlCommand
      | unfold cmd.fetchCommand
      | unfold cmd.dispatchCommand
      | unfold cmd.seedCommand
      | unfold cmd.schemaCommand
      | unfold cmd.consoleCommand
      | unfold cmd.readLinkCommand
  all_goals
    repeat' first
      | with_reducible exact exitsZeroOrOne_pure _
      | with_reducible exact exitsZeroOrOne_emit _
      | with_reducible exact exitsZeroOrOne_getCommander
      | with_reducible exact exitsZeroOrOne_getConfig
      | with_reducible exact exitsZeroOrOne_setConfig _
      | with_reducible exact exitsZeroOrOne_modifyCommander _
      | with_reducible exact exitsZeroOrOne_awaitSigint _
      | with_reducible exact exitsZeroOrOne_goroutinePanic _ _ _
      | with_reducible exact exitsZeroOrOne_receiveSigint _ _
      | with_reducible exact exitsZeroOrOne_fatalf _
      | with_reducible exact exitsZeroOrOne_initCommand _ _
      | with_reducible exact exitsZeroOrOne_setUpCommanderStreams
      | with_reducible exact exitsZeroOrOne_callPrinter _ _
      | with_reducible exact exitsZeroOrOne_callExiter _ 0 (Or.inl rfl)
      | with_reducible exact exitsZeroOrOne_callExiter _ 1 (Or.inr rfl)
      | with_reducible exact exitsZeroOrOne_panic _ (fun n h => by injection h)
      | with_reducible exact exitsZeroOrOne_halt _ (fun n h => by injection h)
      | with_reducible refine exitsZeroOrOne_forEach _ (fun _ => ?_)
      | with_reducible refine exitsZeroOrOne_withDefer ?_ ?_
      | with_reducible refine exitsZeroOrOne_bind ?_ (fun _ => ?_)
      | with_reducible refine exitsZeroOrOne_ite _ ?_ ?_
      | dsimp only
      | split

theorem run_exit_status {m : M Unit} (hm : ExitsZeroOrOne m) (s : State) (n : Int)
    (h : (run m s).1 = .panicked (.exitCarrier n)) : n = 0 ∨ n = 1 := by
  unfold run at h
  cases hms : m s with
  | ok a s1 =>
    rw [hms] at h
    exact absurd h (by simp)
  | halt o s1 =>
    rw [hms] at h
    exact hm s o s1 hms n h

/-- C26. `executeInSandbox` returns exactly when the command, run with the streams
of the sandbox, returns or calls the exit function, at which call it stops. Its
status is then -1 if and only if the command returned, and otherwise the status
given to the exit function, which is 0 or 1 for every command; `out` and `err`
are what the command wrote, in order, through `printf` and through `errorf`
since the call; and `printf`, `errorf` and `exit` of the commander are again what
they were before the call. -/
theorem executeInSandbox_returns (env : Env) (command : cmd.Command) (flags : Flags)
    (s : State) :
    (∀ out err status,
      (cmd.executeInSandbox env command flags s).1 = .returned out err status ↔
        out = written .sandboxStdout
            (((run (cmd.Execute env command flags)
              { s with commander := inSandbox s.commander }).2.trace.drop s.trace.length).map
              Prod.fst)
          ∧ err = written .sandboxStderr
            (((run (cmd.Execute env command flags)
              { s with commander := inSandbox s.commander }).2.trace.drop s.trace.length).map
              Prod.fst)
          ∧ (((run (cmd.Execute env command flags)
                { s with commander := inSandbox s.commander }).1 = .returned ∧ status = -1)
            ∨ (run (cmd.Execute env command flags)
                { s with commander := inSandbox s.commander }).1
              = .panicked (.exitCarrier status)))
    ∧ (∀ out err status,
        (cmd.executeInSandbox env command flags s).1 = .returned out err status →
          (status = -1 ↔
            (run (cmd.Execute env command flags)
              { s with commander := inSandbox s.commander }).1 = .returned)
          ∧ (cmd.executeInSandbox env command flags s).2.commander.printf = s.commander.printf
          ∧ (cmd.executeInSandbox env command flags s).2.commander.errorf = s.commander.errorf
          ∧ (cmd.executeInSandbox env command flags s).2.commander.exit = s.commander.exit) := by
  have hexit := run_exit_status (exitsZeroOrOne_execute env command flags)
    { s with commander := inSandbox s.commander }
  have hunfold : cmd.executeInSandbox env command flags s
      = (match (run (cmd.Execute env command flags)
            { s with commander := inSandbox s.commander }).1 with
        | .returned =>
          (.returned
            (written .sandboxStdout
              (((run (cmd.Execute env command flags)
                { s with commander := inSandbox s.commander }).2.trace.drop
                  s.trace.length).map Prod.fst))
            (written .sandboxStderr
              (((run (cmd.Execute env command flags)
                { s with commander := inSandbox s.commander }).2.trace.drop
                  s.trace.length).map Prod.fst)) (-1),
            { (run (cmd.Execute env command flags)
                { s with commander := inSandbox s.commander }).2 with
              commander :=
                { (run (cmd.Execute env command flags)
                    { s with commander := inSandbox s.commander }).2.commander with
                  printf := s.commander.printf
                  errorf := s.commander.errorf
                  exit := s.commander.exit } })
        | .panicked (.exitCarrier stat) =>
          (.returned
            (written .sandboxStdout
              (((run (cmd.Execute env command flags)
                { s with commander := inSandbox s.commander }).2.trace.drop
                  s.trace.length).map Prod.fst))
            (written .sandboxStderr
              (((run (cmd.Execute env command flags)
                { s with commander := inSandbox s.commander }).2.trace.drop
                  s.trace.length).map Prod.fst)) stat,
            { (run (cmd.Execute env command flags)
                { s with commander := inSandbox s.commander }).2 with
              commander :=
                { (run (cmd.Execute env command flags)
                    { s with commander := inSandbox s.commander }).2.commander with
                  printf := s.commander.printf
                  errorf := s.commander.errorf
                  exit := s.commander.exit } })
        | .panicked v =>
          (.aborted (.panicked (.error
            ("Unexpected exception in executeInSandbox:\n" ++ cmd.fmtPanic v))),
            (run (cmd.Execute env command flags)
              { s with commander := inSandbox s.commander }).2)
        | .exited n =>
          (.aborted (.exited n),
            (run (cmd.Execute env command flags)
              { s with commander := inSandbox s.commander }).2)
        | .blocked =>
          (.aborted .blocked,
            (run (cmd.Execute env command flags)
              { s with commander := inSandbox s.commander }).2)) := rfl
  rw [hunfold]
  generalize run (cmd.Execute env command flags) { s with commander := inSandbox s.commander }
    = r at hexit ⊢
  obtain ⟨o, s1⟩ := r
  cases o with
  | returned =>
    refine ⟨fun out err status => ?_, fun out err status h => ?_⟩
    · simp only [cmd.SandboxResult.returned.injEq, reduceCtorEq, or_false, true_and]
      constructor
      · rintro ⟨h1, h2, h3⟩
        exact ⟨h1.symm, h2.symm, h3.symm⟩
      · rintro ⟨h1, h2, h3⟩
        exact ⟨h1.symm, h2.symm, h3.symm⟩
    · simp only [cmd.SandboxResult.returned.injEq] at h
      exact ⟨⟨fun _ => rfl, fun _ => h.2.2.symm⟩, rfl, rfl, rfl⟩
  | exited n =>
    refine ⟨fun out err status => ?_, fun out err status h => ?_⟩
    · simp
    · simp at h
  | blocked =>
    refine ⟨fun out err status => ?_, fun out err status h => ?_⟩
    · simp
    · simp at h
  | panicked v =>
    cases v with
    | error msg =>
      refine ⟨fun out err status => ?_, fun out err status h => ?_⟩
      · simp
      · simp at h
    | nilDereference =>
      refine ⟨fun out err status => ?_, fun out err status h => ?_⟩
      · simp
      · simp at h
    | exitCarrier stat =>
      have hstat := hexit stat rfl
      refine ⟨fun out err status => ?_, fun out err status h => ?_⟩
      · simp only [cmd.SandboxResult.returned.injEq, reduceCtorEq, false_and, false_or,
          Outcome.panicked.injEq, PanicValue.exitCarrier.injEq]
        constructor
        · rintro ⟨h1, h2, h3⟩
          exact ⟨h1.symm, h2.symm, h3⟩
        · rintro ⟨h1, h2, h3⟩
          exact ⟨h1.symm, h2.symm, h3⟩
      · simp only [cmd.SandboxResult.returned.injEq] at h
        refine ⟨⟨fun h1 => ?_, fun h1 => absurd h1 (by simp)⟩, rfl, rfl, rfl⟩
        rw [← h.2.2] at h1
        rcases hstat with h0 | h0 <;> rw [h0] at h1 <;> exact absurd h1 (by decide)

/-- C26 on `TestReadlinkCommand` and `TestSeedCommand`: `readlink` on a link that
the datastore does not have writes its message through `errorf` and calls the exit
function with 1, which is the status returned; `seed --url=http://test.com`
returns without a call of it, and the status is -1. Both leave the streams of the
commander unset as they were. -/
theorem executeInSandbox_returns_witness :
    (cmd.executeInSandbox quietEnv .readlink readlinkFlags
        (State.init mockCommander defaultConfig)).1
      = .returned "" "Failed to find link http://test.com/page1.com in datastore\n" 1
    ∧ (cmd.executeInSandbox quietEnv .seed seedFlags
        (State.init mockCommander defaultConfig)).1 = .returned "" "" (-1)
    ∧ ((1 : Int) = -1 ↔
        (run (cmd.Execute quietEnv .readlink readlinkFlags)
          { State.init mockCommander defaultConfig with
            commander := inSandbox (State.init mockCommander defaultConfig).commander }).1
          = .returned)
    ∧ (cmd.executeInSandbox quietEnv .readlink readlinkFlags
        (State.init mockCommander defaultConfig)).2.commander.printf = none
    ∧ ((-1 : Int) = -1 ↔
        (run (cmd.Execute quietEnv .seed seedFlags)
          { State.init mockCommander defaultConfig with
            commander := inSandbox (State.init mockCommander defaultConfig).commander }).1
          = .returned) :=
  ⟨by decide, by decide,
    ((executeInSandbox_returns quietEnv .readlink readlinkFlags
      (State.init mockCommander defaultConfig)).2 ""
      "Failed to find link http://test.com/page1.com in datastore\n" 1 (by decide)).1,
    ((executeInSandbox_returns quietEnv .readlink readlinkFlags
      (State.init mockCommander defaultConfig)).2 ""
      "Failed to find link http://test.com/page1.com in datastore\n" 1 (by decide)).2.1,
    ((executeInSandbox_returns quietEnv .seed seedFlags
      (State.init mockCommander defaultConfig)).2 "" "" (-1) (by decide)).1⟩

/-! ## What `compareLongString` returns -/

theorem drop_eq_getD_cons {l : List String} {i : Nat} (h : i < l.length) :
    l.drop i = l.getD i "" :: l.drop (i + 1) := by
  rw [List.drop_eq_getElem_cons h, List.getD_eq_getElem l "" h]

theorem compareLongStringLoop_eq (left right : List String) :
    ∀ (fuel i : Nat), 0 < fuel → max left.length right.length < fuel + i →
      compareLongStringLoop left right fuel i
        = some (comparisonOf (firstDifference (left.drop i) (right.drop i))) := by
  intro fuel
  induction fuel with
  | zero =>
    intro i h0
    exact absurd h0 (Nat.lt_irrefl 0)
  | succ n ih =>
    intro i _ h
    unfold compareLongStringLoop
    by_cases hl : left.length ≤ i
    · by_cases hr : right.length ≤ i
      · rw [if_pos ⟨hl, hr⟩, List.drop_eq_nil_of_le hl, List.drop_eq_nil_of_le hr]
        rfl
      · rw [if_neg (fun hh => hr hh.2), if_pos hl, List.drop_eq_nil_of_le hl,
          drop_eq_getD_cons (Nat.lt_of_not_le hr)]
        rfl
    · by_cases hr : right.length ≤ i
      · rw [if_neg (fun hh => hl hh.1), if_neg hl, if_pos hr, List.drop_eq_nil_of_le hr,
          drop_eq_getD_cons (Nat.lt_of_not_le hl)]
        rfl
      · rw [if_neg (fun hh => hl hh.1), if_neg hl, if_neg hr,
          drop_eq_getD_cons (Nat.lt_of_not_le hl), drop_eq_getD_cons (Nat.lt_of_not_le hr)]
        by_cases ht : stringsTrimSpace (left.getD i "") = stringsTrimSpace (right.getD i "")
        · rw [if_neg (fun hh => hh ht), ih (i + 1) (by omega) (by omega)]
          simp only [firstDifference, if_pos ht]
        · rw [if_pos ht]
          simp only [firstDifference, if_neg ht]
          rfl

theorem compareLongStringLoop_mono (left right : List String) :
    ∀ (fuel i : Nat) (res : Bool × String × String),
      compareLongStringLoop left right fuel i = some res →
      ∀ more, compareLongStringLoop left right (fuel + more) i = some res := by
  intro fuel
  induction fuel with
  | zero =>
    intro i res h
    simp [compareLongStringLoop] at h
  | succ n ih =>
    intro i res h more
    rw [Nat.add_right_comm]
    unfold compareLongStringLoop at h ⊢
    split_ifs at h ⊢ with h1 h2 h3 h4
    · exact h
    · exact h
    · exact h
    · exact h
    · exact ih (i + 1) res h more

theorem firstDifference_eq_none_iff :
    ∀ (l r : List String),
      firstDifference l r = none ↔ l.map stringsTrimSpace = r.map stringsTrimSpace
  | [], [] => by simp [firstDifference]
  | [], r :: rs => by simp [firstDifference]
  | l :: ls, [] => by simp [firstDifference]
  | l :: ls, r :: rs => by
    by_cases ht : stringsTrimSpace l = stringsTrimSpace r
    · simp [firstDifference, ht, firstDifference_eq_none_iff ls rs]
    · simp [firstDifference, ht]

theorem map_eq_map_iff_lines (f : String → String) (l r : List String) :
    l.map f = r.map f
      ↔ l.length = r.length ∧ ∀ j, j < l.length → f (l.getD j "") = f (r.getD j "") := by
  constructor
  · intro h
    have hlen : l.length = r.length := by
      have := congrArg List.length h
      simpa using this
    refine ⟨hlen, fun j hj => ?_⟩
    have hj2 : j < r.length := hlen ▸ hj
    have h1 := congrArg (fun x => x[j]?) h
    simp only [List.getElem?_map, List.getElem?_eq_getElem hj, List.getElem?_eq_getElem hj2,
      Option.map_some', Option.some.injEq] at h1
    rw [List.getD_eq_getElem l "" hj, List.getD_eq_getElem r "" hj2]
    exact h1
  · rintro ⟨hlen, h⟩
    apply List.ext_getElem
    · simp [hlen]
    · intro j h1 h2
      have hj : j < l.length := by simpa using h1
      have hj2 : j < r.length := by simpa using h2
      have := h j hj
      rw [List.getD_eq_getElem l "" hj, List.getD_eq_getElem r "" hj2] at this
      simpa using this

theorem firstDifference_eq_some :
    ∀ (l r : List String) (a b : String), firstDifference l r = some (a, b) →
      ∃ i, (∀ j, j < i → j < l.length ∧ j < r.length
              ∧ stringsTrimSpace (l.getD j "") = stringsTrimSpace (r.getD j ""))
        ∧ ((l.length ≤ i ∧ i < r.length ∧ a = "<<<no data>>>" ∧ b = r.getD i "")
          ∨ (i < l.length ∧ r.length ≤ i ∧ a = l.getD i "" ∧ b = "<<<no data>>>")
          ∨ (i < l.length ∧ i < r.length
              ∧ stringsTrimSpace (l.getD i "") ≠ stringsTrimSpace (r.getD i "")
              ∧ a = l.getD i "" ∧ b = r.getD i ""))
  | [], [], a, b, h => by simp [firstDifference] at h
  | [], r :: rs, a, b, h => by
    simp only [firstDifference, Option.some.injEq, Prod.mk.injEq] at h
    exact ⟨0, fun j hj => absurd hj (Nat.not_lt_zero j),
      Or.inl ⟨Nat.le_refl 0, Nat.succ_pos _, h.1.symm, h.2.symm⟩⟩
  | l :: ls, [], a, b, h => by
    simp only [firstDifference, Option.some.injEq, Prod.mk.injEq] at h
    exact ⟨0, fun j hj => absurd hj (Nat.not_lt_zero j),
      Or.inr (Or.inl ⟨Nat.succ_pos _, Nat.le_refl 0, h.1.symm, h.2.symm⟩)⟩
  | l :: ls, r :: rs, a, b, h => by
    by_cases ht : stringsTrimSpace l = stringsTrimSpace r
    · simp only [firstDifference, if_pos ht] at h
      obtain ⟨i, hbefore, hat⟩ := firstDifference_eq_some ls rs a b h
      refine ⟨i + 1, fun j hj => ?_, ?_⟩
      · cases j with
        | zero => exact ⟨Nat.succ_pos _, Nat.succ_pos _, ht⟩
        | succ k =>
          have := hbefore k (Nat.lt_of_succ_lt_succ hj)
          simpa using this
      · simpa using hat
    · simp only [firstDifference, if_neg ht, Option.some.injEq, Prod.mk.injEq] at h
      exact ⟨0, fun j hj => absurd hj (Nat.not_lt_zero j),
        Or.inr (Or.inr ⟨Nat.succ_pos _, Nat.succ_pos _, ht, h.1.symm, h.2.symm⟩)⟩

theorem comparisonOf_fst_iff (d : Option (String × String)) :
    (comparisonOf d).1 = true ↔ d = none := by
  cases d with
  | none => simp [comparisonOf]
  | some p => simp [comparisonOf]

theorem compareLongString_eq (leftStr rightStr : String) (fuel : Nat)
    (h : max (stringsSplit leftStr '\n').length (stringsSplit rightStr '\n').length < fuel) :
    compareLongString fuel leftStr rightStr
      = some (comparisonOf
          (firstDifference (stringsSplit leftStr '\n') (stringsSplit rightStr '\n'))) := by
  have h0 : 0 < fuel := by omega
  have := compareLongStringLoop_eq (stringsSplit leftStr '\n') (stringsSplit rightStr '\n')
    fuel 0 h0 (by omega)
  simpa [compareLongString] using this

/-- C30. `compareLongString` terminates: there is one result `res = (match,
leftLine, rightLine)` that every run with more iterations than the longer input has
lines returns, and no run returns another. `match` is true if and only if the two
strings split on newline into the same number of lines and corresponding lines are
equal after trimming. When `match` is false there is a first index `i` at which
the lines differ (all lines before it exist on both sides and agree after
trimming), and `leftLine`, `rightLine` are the untrimmed lines at `i`, with
`"<<<no data>>>"` for a side that has no line `i`. A string matches itself, and
`match` is the same with the arguments exchanged. -/
theorem compareLongString_terminates_and_compares (leftStr rightStr : String) :
    ∃ res : Bool × String × String,
      (∀ fuel,
        max (stringsSplit leftStr '\n').length (stringsSplit rightStr '\n').length < fuel →
          compareLongString fuel leftStr rightStr = some res)
      ∧ (∀ fuel other, compareLongString fuel leftStr rightStr = some other → other = res)
      ∧ (res.1 = true ↔
          (stringsSplit leftStr '\n').length = (stringsSplit rightStr '\n').length
          ∧ ∀ j, j < (stringsSplit leftStr '\n').length →
              stringsTrimSpace ((stringsSplit leftStr '\n').getD j "")
                = stringsTrimSpace ((stringsSplit rightStr '\n').getD j ""))
      ∧ (res.1 = false →
          ∃ i,
            (∀ j, j < i →
              j < (stringsSplit leftStr '\n').length ∧ j < (stringsSplit rightStr '\n').length
              ∧ stringsTrimSpace ((stringsSplit leftStr '\n').getD j "")
                  = stringsTrimSpace ((stringsSplit rightStr '\n').getD j ""))
            ∧ (((stringsSplit leftStr '\n').length ≤ i ∧ i < (stringsSplit rightStr '\n').length
                ∧ res.2.1 = "<<<no data>>>"
                ∧ res.2.2 = (stringsSplit rightStr '\n').getD i "")
              ∨ (i < (stringsSplit leftStr '\n').length
                ∧ (stringsSplit rightStr '\n').length ≤ i
                ∧ res.2.1 = (stringsSplit leftStr '\n').getD i ""
                ∧ res.2.2 = "<<<no data>>>")
              ∨ (i < (stringsSplit leftStr '\n').length
                ∧ i < (stringsSplit rightStr '\n').length
                ∧ stringsTrimSpace ((stringsSplit leftStr '\n').getD i "")
                    ≠ stringsTrimSpace ((stringsSplit rightStr '\n').getD i "")
                ∧ res.2.1 = (stringsSplit leftStr '\n').getD i ""
                ∧ res.2.2 = (stringsSplit rightStr '\n').getD i "")))
      ∧ (∀ fuel, (stringsSplit leftStr '\n').length < fuel →
          compareLongString fuel leftStr leftStr = some (true, "", ""))
      ∧ (∀ fuel,
          max (stringsSplit leftStr '\n').length (stringsSplit rightStr '\n').length < fuel →
          (compareLongString fuel rightStr leftStr).map Prod.fst = some res.1) := by
  refine ⟨comparisonOf
    (firstDifference (stringsSplit leftStr '\n') (stringsSplit rightStr '\n')),
    fun fuel h => compareLongString_eq leftStr rightStr fuel h, ?_, ?_, ?_, ?_, ?_⟩
  · intro fuel other h
    have h1 := compareLongStringLoop_mono _ _ fuel 0 other h
      (max (stringsSplit leftStr '\n').length (stringsSplit rightStr '\n').length + 1)
    have h2 := compareLongString_eq leftStr rightStr
      (fuel + (max (stringsSplit leftStr '\n').length (stringsSplit rightStr '\n').length + 1))
      (by omega)
    unfold compareLongString at h2
    rw [h1] at h2
    exact Option.some.inj h2
  · rw [comparisonOf_fst_iff, firstDifference_eq_none_iff, map_eq_map_iff_lines]
  · intro h
    cases hd : firstDifference (stringsSplit leftStr '\n') (stringsSplit rightStr '\n') with
    | none =>
      rw [hd] at h
      exact absurd h (by simp [comparisonOf])
    | some p =>
      obtain ⟨a, b⟩ := p
      exact firstDifference_eq_some _ _ a b hd
  · intro fuel h
    rw [compareLongString_eq leftStr leftStr fuel (by simpa using h),
      (firstDifference_eq_none_iff _ _).2 rfl]
    rfl
  · intro fuel h
    rw [compareLongString_eq rightStr leftStr fuel (by rwa [Nat.max_comm]), Option.map_some']
    congr 1
    rw [Bool.eq_iff_iff, comparisonOf_fst_iff, comparisonOf_fst_iff,
      firstDifference_eq_none_iff, firstDifference_eq_none_iff]
    exact eq_comm

/-- C30 on samples: the expected text of a test and an output that has other white
space around its lines match; an output that lacks the last line gives that line
and `"<<<no data>>>"`. Forty iterations return what three return. -/
theorem compareLongString_terminates_and_compares_witness :
    compareLongString 40 "Url: x\n  Status: 200  " "Url: x  \nStatus: 200"
        = some (true, "", "")
    ∧ compareLongString 40 "Url: x\nStatus: 200\nBody" "Url: x\n Status: 200"
        = some (false, "Body", "<<<no data>>>") := by
  obtain ⟨res, h1, h2, -⟩ := compareLongString_terminates_and_compares
    "Url: x\n  Status: 200  " "Url: x  \nStatus: 200"
  obtain ⟨res2, h3, h4, -⟩ := compareLongString_terminates_and_compares
    "Url: x\nStatus: 200\nBody" "Url: x\n Status: 200"
  refine ⟨?_, ?_⟩
  · rw [h1 40 (by decide)]
    exact congrArg some (h2 3 (true, "", "") (by decide)).symm
  · rw [h3 40 (by decide)]
    exact congrArg some (h4 4 (false, "Body", "<<<no data>>>") (by decide)).symm

/-! ## What `doRender` renders -/

theorem getElem?_even_shift {α : Type} (a b : α) (rest : List α) (m : Nat) :
    (a :: b :: rest)[2 * (m + 1)]? = rest[2 * m]? := by
  rw [show 2 * (m + 1) = 2 * m + 1 + 1 from by omega]
  simp only [List.getElem?_cons_succ]

theorem getElem?_odd_shift {α : Type} (a b : α) (rest : List α) (m : Nat) :
    (a :: b :: rest)[2 * (m + 1) + 1]? = rest[2 * m + 1]? := by
  rw [show 2 * (m + 1) + 1 = 2 * m + 1 + 1 + 1 from by omega]
  simp only [List.getElem?_cons_succ]

theorem doRenderLoop_nonString :
    ∀ (keyValues : List console.Value) (mp : console.GoMap), keyValues.length % 2 = 0 →
      (∃ m, 2 * m < keyValues.length ∧ ∀ s, keyValues[2 * m]? ≠ some (.str s)) →
      console.doRenderLoop keyValues mp
        = .error "INTERNAL ERROR: poorly used doRender: found a non-string in keyValues"
  | [], mp, _, ⟨m, hm, _⟩ => absurd hm (Nat.not_lt_zero _)
  | [a], mp, hlen, _ => by simp at hlen
  | .other t :: b :: rest, mp, _, _ => by simp [console.doRenderLoop]
  | .str key :: b :: rest, mp, hlen, ⟨m, hm, hns⟩ => by
    simp only [console.doRenderLoop]
    refine doRenderLoop_nonString rest _ (by simp only [List.length_cons] at hlen; omega) ?_
    cases m with
    | zero => exact absurd rfl (hns key)
    | succ n =>
      refine ⟨n, ?_, fun s => ?_⟩
      · simp only [List.length_cons] at hm
        omega
      · have := hns s
        rwa [getElem?_even_shift] at this

theorem doRenderLoop_ok :
    ∀ (keyValues : List console.Value) (mp : console.GoMap), keyValues.length % 2 = 0 →
      (∀ m, 2 * m < keyValues.length → ∃ s, keyValues[2 * m]? = some (.str s)) →
      ∃ res, console.doRenderLoop keyValues mp = .ok res
        ∧ ∀ k v, res k = some v ↔
          (∃ m, keyValues[2 * m]? = some (.str k) ∧ keyValues[2 * m + 1]? = some v
            ∧ ∀ n, m < n → keyValues[2 * n]? ≠ some (.str k))
          ∨ ((∀ n, keyValues[2 * n]? ≠ some (.str k)) ∧ mp k = some v)
  | [], mp, _, _ => by
    refine ⟨mp, rfl, fun k v => ?_⟩
    simp
  | [a], mp, hlen, _ => by simp at hlen
  | .other t :: b :: rest, mp, _, hstr => by
    obtain ⟨s, hs⟩ := hstr 0 (by simp)
    simp at hs
  | .str key :: b :: rest, mp, hlen, hstr => by
    obtain ⟨res, hres, hiff⟩ := doRenderLoop_ok rest (mp.set key b)
      (by simp only [List.length_cons] at hlen; omega)
      (fun m hm => by
        have := hstr (m + 1) (by simp only [List.length_cons]; omega)
        rwa [getElem?_even_shift] at this)
    refine ⟨res, by simp only [console.doRenderLoop]; exact hres, fun k v => ?_⟩
    rw [hiff k v]
    constructor
    · rintro (⟨m, h1, h2, h3⟩ | ⟨hnone, hset⟩)
      · refine Or.inl ⟨m + 1, ?_, ?_, fun n hn => ?_⟩
        · rwa [getElem?_even_shift]
        · rwa [getElem?_odd_shift]
        · cases n with
          | zero => exact absurd hn (Nat.not_lt_zero _)
          | succ n1 =>
            rw [getElem?_even_shift]
            exact h3 n1 (Nat.lt_of_succ_lt_succ hn)
      · by_cases hk : k = key
        · subst hk
          simp only [console.GoMap.set, if_true] at hset
          refine Or.inl ⟨0, rfl, ?_, fun n hn => ?_⟩
          · simpa using hset
          · cases n with
            | zero => exact absurd hn (Nat.lt_irrefl 0)
            | succ n1 =>
              rw [getElem?_even_shift]
              exact hnone n1
        · simp only [console.GoMap.set, if_neg hk] at hset
          refine Or.inr ⟨fun n => ?_, hset⟩
          cases n with
          | zero =>
            intro h
            simp only [Nat.mul_zero, List.getElem?_cons_zero, Option.some.injEq,
              console.Value.str.injEq] at h
            exact hk h.symm
          | succ n1 =>
            rw [getElem?_even_shift]
            exact hnone n1
    · rintro (⟨m, h1, h2, h3⟩ | ⟨hnone, hmp⟩)
      · cases m with
        | zero =>
          simp only [Nat.mul_zero, List.getElem?_cons_zero, Option.some.injEq,
            console.Value.str.injEq] at h1
          have h2b : b = v := by simpa using h2
          refine Or.inr ⟨fun n => ?_, ?_⟩
          · have := h3 (n + 1) (Nat.succ_pos n)
            rwa [getElem?_even_shift] at this
          · simp [console.GoMap.set, h1, h2b]
        | succ m1 =>
          rw [getElem?_even_shift] at h1
          rw [getElem?_odd_shift] at h2
          refine Or.inl ⟨m1, h1, h2, fun n hn => ?_⟩
          have := h3 (n + 1) (Nat.succ_lt_succ hn)
          rwa [getElem?_even_shift] at this
      · have hk : k ≠ key := by
          intro h
          exact hnone 0 (by simp [h])
        refine Or.inr ⟨fun n => ?_, ?_⟩
        · have := hnone (n + 1)
          rwa [getElem?_even_shift] at this
        · simp only [console.GoMap.set, if_neg hk]
          exact hmp

theorem doRenderLoop_panics_only_nonString :
    ∀ (keyValues : List console.Value) (mp : console.GoMap) (err : String), keyValues.length % 2 = 0 →
      console.doRenderLoop keyValues mp = .error err →
      ∃ m, 2 * m < keyValues.length ∧ ∀ s, keyValues[2 * m]? ≠ some (.str s) := by
  intro keyValues mp err hlen herr
  by_contra hno
  have hall : ∀ m, 2 * m < keyValues.length → ∃ s, keyValues[2 * m]? = some (.str s) := by
    intro m hm
    by_contra hs
    exact hno ⟨m, hm, fun s h => hs ⟨s, h⟩⟩
  obtain ⟨res, hres, -⟩ := doRenderLoop_ok keyValues mp hlen hall
  rw [hres] at herr
  cases herr

theorem doRenderLoop_none :
    ∀ (keyValues : List console.Value) (mp res : console.GoMap), console.doRenderLoop keyValues mp = .ok res →
      ∀ k, res k = none ↔ (∀ n, keyValues[2 * n]? ≠ some (.str k)) ∧ mp k = none
  | [], mp, res, h => by
    simp only [console.doRenderLoop, Except.ok.injEq] at h
    subst h
    simp
  | [.str key], mp, res, h => by simp [console.doRenderLoop] at h
  | .other t :: rest, mp, res, h => by simp [console.doRenderLoop] at h
  | .str key :: b :: rest, mp, res, h => by
    simp only [console.doRenderLoop] at h
    intro k
    rw [doRenderLoop_none rest _ res h k]
    constructor
    · rintro ⟨hnone, hset⟩
      have hk : k ≠ key := by
        intro hk
        simp [console.GoMap.set, hk] at hset
      simp only [console.GoMap.set, if_neg hk] at hset
      refine ⟨fun n => ?_, hset⟩
      cases n with
      | zero =>
        intro h0
        simp only [Nat.mul_zero, List.getElem?_cons_zero, Option.some.injEq,
          console.Value.str.injEq] at h0
        exact hk h0.symm
      | succ n1 =>
        rw [getElem?_even_shift]
        exact hnone n1
    · rintro ⟨hnone, hmp⟩
      have hk : k ≠ key := by
        intro hk
        exact hnone 0 (by simp [hk])
      refine ⟨fun n => ?_, ?_⟩
      · have := hnone (n + 1)
        rwa [getElem?_even_shift] at this
      · simp only [console.GoMap.set, if_neg hk]
        exact hmp

/-- C29. `doRender` panics if and only if `keyValues` has an odd number of
elements or an element at an even position (`2 * m`, counted from 0) is not a
string; an odd number gives the first error, a non-string key in a list of even
length the second. Otherwise it makes one call `renderer.HTML` with the status 200,
the template and a map `mp` in which a key `k` is bound to `v` if and only if `v`
follows the last occurrence of `k` at an even position, and in which `k` is not
bound if and only if it is at no even position. -/
theorem doRender_panics_iff (template : String) (keyValues : List console.Value) :
    ((∃ err, console.doRender template keyValues = .panicked err) ↔
        keyValues.length % 2 = 1
        ∨ ∃ m, 2 * m < keyValues.length ∧ ∀ s, keyValues[2 * m]? ≠ some (.str s))
    ∧ (keyValues.length % 2 = 1 →
        console.doRender template keyValues = .panicked
          "INTERNAL ERROR: poorly used doRender: keyValues does not have even number of elements")
    ∧ (keyValues.length % 2 = 0 →
        (∃ m, 2 * m < keyValues.length ∧ ∀ s, keyValues[2 * m]? ≠ some (.str s)) →
        console.doRender template keyValues = .panicked
          "INTERNAL ERROR: poorly used doRender: found a non-string in keyValues")
    ∧ (keyValues.length % 2 = 0 →
        (∀ m, 2 * m < keyValues.length → ∃ s, keyValues[2 * m]? = some (.str s)) →
        ∃ mp, console.doRender template keyValues = .rendered 200 template mp
          ∧ (∀ k v, mp k = some v ↔
              ∃ m, keyValues[2 * m]? = some (.str k) ∧ keyValues[2 * m + 1]? = some v
                ∧ ∀ n, m < n → keyValues[2 * n]? ≠ some (.str k))
          ∧ (∀ k, mp k = none ↔ ∀ n, keyValues[2 * n]? ≠ some (.str k))) := by
  have hodd : keyValues.length % 2 = 1 →
      console.doRender template keyValues = .panicked
        "INTERNAL ERROR: poorly used doRender: keyValues does not have even number of elements" := by
    intro h
    unfold console.doRender
    rw [if_pos (by omega)]
  have hnon : keyValues.length % 2 = 0 →
      (∃ m, 2 * m < keyValues.length ∧ ∀ s, keyValues[2 * m]? ≠ some (.str s)) →
      console.doRender template keyValues = .panicked
        "INTERNAL ERROR: poorly used doRender: found a non-string in keyValues" := by
    intro h hns
    unfold console.doRender
    rw [if_neg (by omega), doRenderLoop_nonString keyValues _ h hns]
  refine ⟨⟨?_, ?_⟩, hodd, hnon, ?_⟩
  · rintro ⟨err, herr⟩
    by_cases hlen : keyValues.length % 2 = 1
    · exact Or.inl hlen
    · right
      have hlen0 : keyValues.length % 2 = 0 := by omega
      unfold console.doRender at herr
      rw [if_neg (by omega)] at herr
      cases hloop : console.doRenderLoop keyValues console.GoMap.empty with
      | error e => exact doRenderLoop_panics_only_nonString keyValues _ e hlen0 hloop
      | ok mp =>
        rw [hloop] at herr
        cases herr
  · rintro (hlen | hns)
    · exact ⟨_, hodd hlen⟩
    · by_cases hlen : keyValues.length % 2 = 1
      · exact ⟨_, hodd hlen⟩
      · exact ⟨_, hnon (by omega) hns⟩
  · intro hlen hstr
    obtain ⟨res, hres, hiff⟩ := doRenderLoop_ok keyValues console.GoMap.empty hlen hstr
    refine ⟨res, ?_, fun k v => ?_, fun k => ?_⟩
    · unfold console.doRender
      rw [if_neg (by omega), hres]
    · rw [hiff k v]
      simp [console.GoMap.empty]
    · rw [doRenderLoop_none keyValues _ res hres k]
      simp [console.GoMap.empty]

/-- C29 on the call `doRender(w, "listDomains", "Domains", dinfos)` of
`listDomainsHandler`, where `dinfos` is not a string: the template is rendered with
a map that binds `Domains` to `dinfos` and nothing else. The call with `dinfos`
alone, and the one with `dinfos` where a key belongs, panic. -/
theorem doRender_panics_iff_witness :
    (∃ mp, console.doRender "listDomains" [.str "Domains", .other 0]
          = .rendered 200 "listDomains" mp
        ∧ mp "Domains" = some (.other 0) ∧ mp "Seeds" = none)
    ∧ console.doRender "listDomains" [.other 0] = .panicked
        "INTERNAL ERROR: poorly used doRender: keyValues does not have even number of elements"
    ∧ console.doRender "listDomains" [.other 0, .str "Domains"] = .panicked
        "INTERNAL ERROR: poorly used doRender: found a non-string in keyValues" := by
  refine ⟨?_, ?_, ?_⟩
  · obtain ⟨mp, hmp, hsome, hnone⟩ :=
      (doRender_panics_iff "listDomains" [.str "Domains", .other 0]).2.2.2 rfl
        (fun m hm => by
          have hm0 : m = 0 := by
            simp only [List.length_cons, List.length_nil] at hm
            omega
          subst hm0
          exact ⟨"Domains", rfl⟩)
    refine ⟨mp, hmp, (hsome "Domains" (.other 0)).2 ⟨0, rfl, rfl, fun n hn => ?_⟩,
      (hnone "Seeds").2 (fun n => ?_)⟩
    · cases n with
      | zero => exact absurd hn (Nat.lt_irrefl 0)
      | succ n1 =>
        rw [getElem?_even_shift]
        simp
    · cases n with
      | zero => decide
      | succ n1 =>
        rw [getElem?_even_shift]
        simp
  · exact (doRender_panics_iff "listDomains" [.other 0]).2.1 rfl
  · exact (doRender_panics_iff "listDomains" [.other 0, .str "Domains"]).2.2.1 rfl
      ⟨0, by decide, fun s h => by simp at h⟩

/-! ## The channel of `LinksForHost` -/

theorem sendAll_fits {α : Type} :
    ∀ (us : List α) (capacity : Nat) (buffer : List α),
      buffer.length + us.length ≤ capacity →
      test.sendAll us { capacity := capacity, buffer := buffer, closed := false }
        = .done { capacity := capacity, buffer := buffer ++ us, closed := false }
  | [], capacity, buffer, _ => by simp [test.sendAll]
  | u :: rest, capacity, buffer, hfit => by
    have hroom : buffer.length < capacity := by
      simp only [List.length_cons] at hfit
      omega
    simp only [test.sendAll, test.Chan.send, Bool.false_eq_true, if_false, if_pos hroom]
    rw [sendAll_fits rest capacity (buffer ++ [u]) (by
      simp only [List.length_append, List.length_cons, List.length_nil] at hfit ⊢
      omega)]
    simp

theorem rangeOver_short {α : Type} :
    ∀ (buffer : List α) (fuel capacity : Nat) (items : List α), fuel ≤ buffer.length →
      test.rangeOver fuel { capacity := capacity, buffer := buffer, closed := true } items
        = none
  | _, 0, capacity, items, _ => by simp [test.rangeOver]
  | [], n + 1, capacity, items, h => by simp at h
  | x :: rest, n + 1, capacity, items, h => by
    simp only [test.rangeOver, test.Chan.receive]
    exact rangeOver_short rest n capacity (items ++ [x]) (by
      simp only [List.length_cons] at h
      omega)

theorem rangeOver_closed {α : Type} :
    ∀ (buffer : List α) (fuel capacity : Nat) (items : List α), buffer.length < fuel →
      test.rangeOver fuel { capacity := capacity, buffer := buffer, closed := true } items
        = some (.finished (items ++ buffer))
  | [], fuel, capacity, items, h => by
    obtain ⟨n, rfl⟩ : ∃ n, fuel = n + 1 := ⟨fuel - 1, by omega⟩
    simp [test.rangeOver, test.Chan.receive]
  | x :: rest, fuel, capacity, items, h => by
    obtain ⟨n, rfl⟩ : ∃ n, fuel = n + 1 := ⟨fuel - 1, by omega⟩
    simp only [test.rangeOver, test.Chan.receive]
    rw [rangeOver_closed rest n capacity (items ++ [x]) (by
      simp only [List.length_cons] at h
      omega)]
    simp

/-- C23. For every list `urls` configured for a domain, `LinksForHost` returns a
channel: no send blocks or panics, because the capacity is the length of the
list. The channel returned holds exactly `urls`, in list order, and is closed; a
consumer that receives until the channel is closed, given more receives than the
list has elements, ends its loop having received exactly `urls`, which are
`len(urls)` items. -/
theorem linksForHost_delivers_urls (urls : List URL) :
    test.sendAll urls (test.Chan.make urls.length)
        = .done { capacity := urls.length, buffer := urls, closed := false }
    ∧ test.MockDatastore.LinksForHost urls
        = .done { capacity := urls.length, buffer := urls, closed := true }
    ∧ (∀ fuel, urls.length < fuel →
        test.rangeOver fuel { capacity := urls.length, buffer := urls, closed := true } []
          = some (.finished urls))
    ∧ (∀ fuel items,
        test.rangeOver fuel { capacity := urls.length, buffer := urls, closed := true } []
          = some items → items = .finished urls ∧ urls.length < fuel) := by
  have hsend : test.sendAll urls (test.Chan.make urls.length)
      = .done { capacity := urls.length, buffer := urls, closed := false } := by
    exact sendAll_fits urls urls.length [] (by simp)
  have hrange : ∀ fuel, urls.length < fuel →
      test.rangeOver fuel { capacity := urls.length, buffer := urls, closed := true } []
        = some (.finished urls) := by
    intro fuel h
    rw [rangeOver_closed urls fuel urls.length [] h]
    simp
  refine ⟨hsend, ?_, hrange, ?_⟩
  · unfold test.MockDatastore.LinksForHost
    rw [hsend]
    rfl
  · intro fuel items h
    by_cases hf : urls.length < fuel
    · rw [hrange fuel hf] at h
      exact ⟨(Option.some.inj h).symm, hf⟩
    · rw [rangeOver_short urls fuel urls.length [] (by omega)] at h
      cases h

/-- C23 on two links of `test.com`: the channel returned holds both, in order, and
is closed, and a consumer with three receives gets the two and sees the end. -/
theorem linksForHost_delivers_urls_witness :
    test.MockDatastore.LinksForHost [goodUrl, { goodUrl with path := "/page2.com" }]
        = .done { capacity := 2
                  buffer := [goodUrl, { goodUrl with path := "/page2.com" }]
                  closed := true }
    ∧ test.rangeOver 3
        { capacity := 2
          buffer := [goodUrl, { goodUrl with path := "/page2.com" }]
          closed := true } []
        = some (.finished [goodUrl, { goodUrl with path := "/page2.com" }]) :=
  ⟨(linksForHost_delivers_urls [goodUrl, { goodUrl with path := "/page2.com" }]).2.1,
    (linksForHost_delivers_urls [goodUrl, { goodUrl with path := "/page2.com" }]).2.2.1 3
      (by decide)⟩

/-! ## What `dispatch` and `crawl` start and stop -/

theorem initCommand_loads (env : Env) (flags : Flags) (s : State)
    (h : configLoads env flags s.Config = true) :
    ∃ s1, cmd.initCommand env flags s = .ok () s1 ∧ s1.commander = s.commander
      ∧ s1.events = s.events ++ initEvents env flags := by
  rw [initCommand_apply]
  unfold configLoads at h
  unfold initEvents readConfigEvents State.events
  by_cases h1 : flags.config = "" <;> by_cases h2 : env.WALKER_PPROF = "1" <;>
    cases h3 : (env.ReadConfigFile flags.config s.Config).1 <;>
    simp [h1, h2, h3] at h ⊢

theorem readConfig_loads (env : Env) (flags : Flags) (s : State)
    (h : configLoads env flags s.Config = true) :
    ∃ s1, walker.Cmd.readConfig env flags s = .ok () s1 ∧ s1.commander = s.commander
      ∧ s1.events = s.events ++ readConfigEvents flags := by
  rw [readConfig_apply]
  unfold configLoads at h
  unfold readConfigEvents State.events
  by_cases h1 : flags.config = "" <;>
    cases h3 : (env.ReadConfigFile flags.config s.Config).1 <;>
    simp [h1, h3] at h ⊢

theorem config_fails_of_not_loads (env : Env) (flags : Flags) (cfg : Config)
    (h : ¬ configLoads env flags cfg = true) :
    flags.config ≠ "" ∧ ∃ err, (env.ReadConfigFile flags.config cfg).1 = some err := by
  unfold configLoads at h
  by_cases h1 : flags.config = ""
  · simp [h1] at h
  · refine ⟨h1, ?_⟩
    cases h3 : (env.ReadConfigFile flags.config cfg).1 with
    | none => simp [h1, h3] at h
    | some err => exact ⟨err, rfl⟩

theorem runs_steps_bind {α : Type} {c : Commander} {m : M α} {f : α → M Unit}
    {e : List Event} {a : α} {r : List Event × Outcome} (h1 : Steps c m e a)
    (h2 : Runs c (f a) r) : Runs c (m >>= f) (prefixed e r) := fun s hs => by
  rw [run_bind_ok _ _ _ _ _ (h1 s hs), h2 (s.record e) hs, State.record_record]
  rfl

theorem runs_goroutinePanic_bind {c : Commander} {env : Env} {d : Dispatcher} {n : Nat}
    {f : Unit → M Unit} {r : List Event × Outcome} (h : Runs c (f ()) r) :
    Runs c (goroutinePanic env (some d) n >>= f)
      (match env.StartDispatcher d with
        | some (err, k) => if k = n then ([], .panicked (.error err)) else r
        | none => r) := fun s hs => by
  cases hsd : env.StartDispatcher d with
  | none =>
    have h0 : goroutinePanic env (some d) n s = .ok () s := by
      simp only [goroutinePanic, hsd]
      rfl
    rw [run_bind_ok _ _ _ _ _ h0]
    exact h s hs
  | some ek =>
    obtain ⟨err, k⟩ := ek
    by_cases hk : k = n
    · have h0 : goroutinePanic env (some d) n s = .halt (.panicked (.error err)) s := by
        simp only [goroutinePanic, hsd, hk, if_true]
        rfl
      rw [run_bind_halt _ _ _ _ _ h0]
      simp only [hk, if_true, State.record_nil]
    · have h0 : goroutinePanic env (some d) n s = .ok () s := by
        simp only [goroutinePanic, hsd, hk, if_false]
        rfl
      rw [run_bind_ok _ _ _ _ _ h0]
      simp only [hk, if_false]
      exact h s hs

theorem runs_goroutinePanic_last (c : Commander) (env : Env) (d : Dispatcher) (n : Nat) :
    Runs c (goroutinePanic env (some d) n)
      (match env.StartDispatcher d with
        | some (err, k) => if k = n then ([], .panicked (.error err)) else ([], .returned)
        | none => ([], .returned)) := fun s _ => by
  cases hsd : env.StartDispatcher d with
  | none =>
    simp only [run, goroutinePanic, hsd, State.record_nil]
  | some ek =>
    obtain ⟨err, k⟩ := ek
    by_cases hk : k = n
    · simp only [run, goroutinePanic, hsd, hk, if_true, State.record_nil]
      rfl
    · simp only [run, goroutinePanic, hsd, hk, if_false, State.record_nil]

theorem steps_goroutinePanic_none (c : Commander) (env : Env) (n : Nat) :
    Steps c (goroutinePanic env none n) [] () := fun s _ => by
  rw [State.record_nil]
  rfl

theorem runs_pure (c : Commander) : Runs c (pure ()) ([], .returned) := fun s _ => by
  rw [State.record_nil]
  rfl

theorem steps_receiveSigint (c : Commander) (env : Env) (d : Option Dispatcher)
    (hsg : env.sigintArrives = true) : Steps c (receiveSigint env d) [.sigint] () :=
  fun s _ => by
    simp only [receiveSigint, hsg, if_true]
    rfl

theorem runs_receiveSigint_bind {c : Commander} {env : Env} {d : Option Dispatcher}
    {f : Unit → M Unit} (hsg : env.sigintArrives = false) :
    Runs c (receiveSigint env d >>= f)
      ([], match d.bind env.StartDispatcher with
        | some (err, _) => .panicked (.error err)
        | none => .blocked) := fun s _ => by
  rw [State.record_nil]
  rcases d with _ | d
  · have h0 : receiveSigint env none s = .halt .blocked s := by
      simp only [receiveSigint, hsg, Bool.false_eq_true, if_false]
      rfl
    rw [run_bind_halt _ _ _ _ _ h0]
    rfl
  · cases hsd : env.StartDispatcher d with
    | none =>
      have h0 : receiveSigint env (some d) s = .halt .blocked s := by
        simp only [receiveSigint, hsg, Bool.false_eq_true, if_false, hsd]
        rfl
      rw [run_bind_halt _ _ _ _ _ h0]
      simp only [Option.bind, hsd]
    | some ek =>
      obtain ⟨err, k⟩ := ek
      have h0 : receiveSigint env (some d) s = .halt (.panicked (.error err)) s := by
        simp only [receiveSigint, hsg, Bool.false_eq_true, if_false, hsd]
        rfl
      rw [run_bind_halt _ _ _ _ _ h0]
      simp only [Option.bind, hsd]

theorem steps_consoleStart (c : Commander) (noConsole : Bool) :
    Steps c (if (!noConsole) = true then emit .consoleStart else pure ())
      (if noConsole then [] else [.consoleStart]) () := fun s _ => by
  cases noConsole
  · rfl
  · simp only [Bool.not_true, Bool.false_eq_true, if_false, if_true, State.record_nil]
    rfl

theorem runs_goroutinePanic_none_last (c : Commander) (env : Env) (n : Nat) :
    Runs c (goroutinePanic env none n) ([], .returned) := fun s _ => by
  rw [State.record_nil]
  rfl

theorem run_of_runs {m : M Unit} {r : List Event × Outcome} {s : State}
    {evs : List Event} {o : Outcome} (h : Runs s.commander m r)
    (hev : s.events ++ r.1 = evs) (ho : r.2 = o) :
    (run m s).2.events = evs ∧ (run m s).1 = o := by
  rw [h s rfl]
  exact ⟨by rw [← hev]; exact State.record_events s r.1, ho⟩

theorem dispatchCommand_run (env : Env) (flags : Flags) (s : State) (d : Dispatcher)
    (hcfg : configLoads env flags s.Config = true)
    (hd : s.commander.Dispatcher.getD .cassandra = d) :
    (run (cmd.dispatchCommand env flags) s).2.events
        = s.events ++ initEvents env flags ++ [.goStartDispatcher d]
          ++ untilGoroutinePanic env (some d)
              ([[.signalNotify]]
                ++ (if env.sigintArrives then [[.sigint], [.stopDispatcher d]] else []))
    ∧ (run (cmd.dispatchCommand env flags) s).1 = outcomeAfterGo env (some d) 3 := by
  obtain ⟨s1, h1, hc, hev⟩ := initCommand_loads env flags s hcfg
  unfold cmd.dispatchCommand
  rw [run_bind_ok _ _ _ _ _ h1, ← hev]
  rw [← hc] at hd
  clear h1 hc hev hcfg
  obtain ⟨⟨h0, d0, p, pf, ef, ex⟩, cfg1, tr⟩ := s1
  rw [run_bind_ok _ _ _ _ _ (getCommander_apply _)]
  dsimp only
  rcases p with _ | dv <;> simp only [Option.getD] at hd <;> subst hd
  · rw [if_pos rfl, run_bind_ok _ _ _ _ _ (modifyCommander_apply _ _)]
    cases hsg : env.sigintArrives <;> apply run_of_runs <;>
      first
        | (repeat' first
            | with_reducible exact runs_goroutinePanic_last _ _ _ _
            | with_reducible exact runs_receiveSigint_bind hsg
            | with_reducible apply runs_goroutinePanic_bind
            | with_reducible apply runs_steps_bind (steps_getCommander _)
            | with_reducible apply runs_steps_bind (steps_emit _ _)
            | with_reducible apply runs_steps_bind (steps_receiveSigint _ _ _ hsg)
            | dsimp only
           done)
        | (simp only [untilGoroutinePanic, outcomeAfterGo, Option.bind]
           generalize env.StartDispatcher _ = r0
           rcases r0 with _ | ⟨err, _ | _ | _ | _ | k⟩ <;>
             simp [prefixed, State.events, hsg])
  · rw [if_neg (Option.some_ne_none _), run_bind_ok _ _ _ _ _ (M.pure_apply _ _)]
    cases hsg : env.sigintArrives <;> apply run_of_runs <;>
      first
        | (repeat' first
            | with_reducible exact runs_goroutinePanic_last _ _ _ _
            | with_reducible exact runs_receiveSigint_bind hsg
            | with_reducible apply runs_goroutinePanic_bind
            | with_reducible apply runs_steps_bind (steps_getCommander _)
            | with_reducible apply runs_steps_bind (steps_emit _ _)
            | with_reducible apply runs_steps_bind (steps_receiveSigint _ _ _ hsg)
            | dsimp only
           done)
        | (simp only [untilGoroutinePanic, outcomeAfterGo, Option.bind]
           generalize env.StartDispatcher _ = r0
           rcases r0 with _ | ⟨err, _ | _ | _ | _ | k⟩ <;>
             simp [prefixed, State.events, hsg])

theorem dispatchCommand_run_walker (env : Env) (flags : Flags) (s : State) (d : Dispatcher)
    (hcfg : configLoads env flags s.Config = true)
    (hd : s.commander.Dispatcher.getD .cassandra = d) :
    (run (walker.Cmd.dispatchCommand env flags) s).2.events
        = s.events ++ readConfigEvents flags ++ [.goStartDispatcher d]
          ++ untilGoroutinePanic env (some d)
              ([[.signalNotify]]
                ++ (if env.sigintArrives then [[.sigint], [.stopDispatcher d]] else []))
    ∧ (run (walker.Cmd.dispatchCommand env flags) s).1 = outcomeAfterGo env (some d) 3 := by
  obtain ⟨s1, h1, hc, hev⟩ := readConfig_loads env flags s hcfg
  unfold walker.Cmd.dispatchCommand
  rw [run_bind_ok _ _ _ _ _ h1, ← hev]
  rw [← hc] at hd
  clear h1 hc hev hcfg
  obtain ⟨⟨h0, d0, p, pf, ef, ex⟩, cfg1, tr⟩ := s1
  rw [run_bind_ok _ _ _ _ _ (getCommander_apply _)]
  dsimp only
  rcases p with _ | dv <;> simp only [Option.getD] at hd <;> subst hd
  · rw [if_pos rfl, run_bind_ok _ _ _ _ _ (modifyCommander_apply _ _)]
    cases hsg : env.sigintArrives <;> apply run_of_runs <;>
      first
        | (repeat' first
            | with_reducible exact runs_goroutinePanic_last _ _ _ _
            | with_reducible exact runs_receiveSigint_bind hsg
            | with_reducible apply runs_goroutinePanic_bind
            | with_reducible apply runs_steps_bind (steps_getCommander _)
            | with_reducible apply runs_steps_bind (steps_emit _ _)
            | with_reducible apply runs_steps_bind (steps_receiveSigint _ _ _ hsg)
            | dsimp only
           done)
        | (simp only [untilGoroutinePanic, outcomeAfterGo, Option.bind]
           generalize env.StartDispatcher _ = r0
           rcases r0 with _ | ⟨err, _ | _ | _ | _ | k⟩ <;>
             simp [prefixed, State.events, hsg])
  · rw [if_neg (Option.some_ne_none _), run_bind_ok _ _ _ _ _ (M.pure_apply _ _)]
    cases hsg : env.sigintArrives <;> apply run_of_runs <;>
      first
        | (repeat' first
            | with_reducible exact runs_goroutinePanic_last _ _ _ _
            | with_reducible exact runs_receiveSigint_bind hsg
            | with_reducible apply runs_goroutinePanic_bind
            | with_reducible apply runs_steps_bind (steps_getCommander _)
            | with_reducible apply runs_steps_bind (steps_emit _ _)
            | with_reducible apply runs_steps_bind (steps_receiveSigint _ _ _ hsg)
            | dsimp only
           done)
        | (simp only [untilGoroutinePanic, outcomeAfterGo, Option.bind]
           generalize env.StartDispatcher _ = r0
           rcases r0 with _ | ⟨err, _ | _ | _ | _ | k⟩ <;>
             simp [prefixed, State.events, hsg])

theorem crawlCommand_run (env : Env) (flags : Flags) (s : State) (ds : Datastore)
    (hcfg : configLoads env flags s.Config = true)
    (hds : s.commander.Datastore = some ds) :
    (run (cmd.crawlCommand env flags) s).2.events
        = s.events ++ initEvents env flags
          ++ [.newFetchManager ⟨some ds, some (s.commander.Handler.getD .simplehandler)⟩,
              .goManagerStart ⟨some ds, some (s.commander.Handler.getD .simplehandler)⟩]
          ++ whenSet s.commander.Dispatcher .goStartDispatcher
          ++ untilGoroutinePanic env s.commander.Dispatcher
              ([if flags.noConsole then [] else [.consoleStart], [.signalNotify]]
                ++ (if env.sigintArrives then
                      [[.sigint], whenSet s.commander.Dispatcher .stopDispatcher,
                        [.managerStop
                          ⟨some ds, some (s.commander.Handler.getD .simplehandler)⟩]]
                    else []))
    ∧ (run (cmd.crawlCommand env flags) s).1
        = outcomeAfterGo env s.commander.Dispatcher 5 := by
  obtain ⟨s1, h1, hc, hev⟩ := initCommand_loads env flags s hcfg
  unfold cmd.crawlCommand
  rw [run_bind_ok _ _ _ _ _ h1, ← hev, ← hc]
  rw [← hc] at hds
  clear h1 hc hev hcfg
  obtain ⟨⟨h0, d0, p, pf, ef, ex⟩, cfg1, tr⟩ := s1
  simp only at hds
  subst hds
  rw [run_bind_ok _ _ _ _ _ (getCommander_apply _)]
  dsimp only
  rw [if_neg (Option.some_ne_none _), run_bind_ok _ _ _ _ _ (M.pure_apply _ _),
    run_bind_ok _ _ _ _ _ (getCommander_apply _)]
  dsimp only
  rcases h0 with _ | hv
  · rw [if_pos rfl, run_bind_ok _ _ _ _ _ (modifyCommander_apply _ _)]
    rcases p with _ | d
    · cases hsg : env.sigintArrives <;> apply run_of_runs <;>
        first
          | (repeat' first
              | with_reducible exact runs_goroutinePanic_last _ _ _ _
              | with_reducible exact runs_goroutinePanic_none_last _ _ _
              | with_reducible exact runs_receiveSigint_bind hsg
              | with_reducible apply runs_goroutinePanic_bind
              | with_reducible apply runs_steps_bind (steps_goroutinePanic_none _ _ _)
              | with_reducible apply runs_steps_bind (steps_getCommander _)
              | with_reducible apply runs_steps_bind (steps_emit _ _)
              | with_reducible apply runs_steps_bind (steps_pure _ _)
              | with_reducible apply runs_steps_bind (steps_consoleStart _ _)
              | with_reducible apply runs_steps_bind (steps_receiveSigint _ _ _ hsg)
              | dsimp only
             done)
          | simp [untilGoroutinePanic, outcomeAfterGo, whenSet, prefixed, State.events, hsg]
    · cases hsg : env.sigintArrives <;> apply run_of_runs <;>
        first
          | (repeat' first
              | with_reducible exact runs_goroutinePanic_last _ _ _ _
              | with_reducible exact runs_goroutinePanic_none_last _ _ _
              | with_reducible exact runs_receiveSigint_bind hsg
              | with_reducible apply runs_goroutinePanic_bind
              | with_reducible apply runs_steps_bind (steps_goroutinePanic_none _ _ _)
              | with_reducible apply runs_steps_bind (steps_getCommander _)
              | with_reducible apply runs_steps_bind (steps_emit _ _)
              | with_reducible apply runs_steps_bind (steps_pure _ _)
              | with_reducible apply runs_steps_bind (steps_consoleStart _ _)
              | with_reducible apply runs_steps_bind (steps_receiveSigint _ _ _ hsg)
              | dsimp only
             done)
          | (simp only [untilGoroutinePanic, outcomeAfterGo, Option.bind, whenSet, Option.getD]
             generalize env.StartDispatcher _ = r0
             rcases r0 with _ | ⟨err, _ | _ | _ | _ | _ | _ | k⟩ <;>
               simp [prefixed, State.events, hsg])
  · rw [if_neg (Option.some_ne_none _), run_bind_ok _ _ _ _ _ (M.pure_apply _ _)]
    rcases p with _ | d
    · cases hsg : env.sigintArrives <;> apply run_of_runs <;>
        first
          | (repeat' first
              | with_reducible exact runs_goroutinePanic_last _ _ _ _
              | with_reducible exact runs_goroutinePanic_none_last _ _ _
              | with_reducible exact runs_receiveSigint_bind hsg
              | with_reducible apply runs_goroutinePanic_bind
              | with_reducible apply runs_steps_bind (steps_goroutinePanic_none _ _ _)
              | with_reducible apply runs_steps_bind (steps_getCommander _)
              | with_reducible apply runs_steps_bind (steps_emit _ _)
              | with_reducible apply runs_steps_bind (steps_pure _ _)
              | with_reducible apply runs_steps_bind (steps_consoleStart _ _)
              | with_reducible apply runs_steps_bind (steps_receiveSigint _ _ _ hsg)
              | dsimp only
             done)
          | simp [untilGoroutinePanic, outcomeAfterGo, whenSet, prefixed, State.events, hsg]
    · cases hsg : env.sigintArrives <;> apply run_of_runs <;>
        first
          | (repeat' first
              | with_reducible exact runs_goroutinePanic_last _ _ _ _
              | with_reducible exact runs_goroutinePanic_none_last _ _ _
              | with_reducible exact runs_receiveSigint_bind hsg
              | with_reducible apply runs_goroutinePanic_bind
              | with_reducible apply runs_steps_bind (steps_goroutinePanic_none _ _ _)
              | with_reducible apply runs_steps_bind (steps_getCommander _)
              | with_reducible apply runs_steps_bind (steps_emit _ _)
              | with_reducible apply runs_steps_bind (steps_pure _ _)
              | with_reducible apply runs_steps_bind (steps_consoleStart _ _)
              | with_reducible apply runs_steps_bind (steps_receiveSigint _ _ _ hsg)
              | dsimp only
             done)
          | (simp only [untilGoroutinePanic, outcomeAfterGo, Option.bind, whenSet, Option.getD]
             generalize env.StartDispatcher _ = r0
             rcases r0 with _ | ⟨err, _ | _ | _ | _ | _ | _ | k⟩ <;>
               simp [prefixed, State.events, hsg])

theorem crawlCommand_run_walker (env : Env) (flags : Flags) (s : State) (ds : Datastore)
    (hcfg : configLoads env flags s.Config = true)
    (hds : s.commander.Datastore = some ds) :
    (run (walker.Cmd.crawlCommand env flags) s).2.events
        = s.events ++ readConfigEvents flags
          ++ [.newFetchManager ⟨some ds, some (s.commander.Handler.getD .simplehandler)⟩,
              .goManagerStart ⟨some ds, some (s.commander.Handler.getD .simplehandler)⟩]
          ++ whenSet s.commander.Dispatcher .goStartDispatcher
          ++ untilGoroutinePanic env s.commander.Dispatcher
              ([if flags.noConsole then [] else [.consoleStart], [.signalNotify]]
                ++ (if env.sigintArrives then
                      [[.sigint], whenSet s.commander.Dispatcher .stopDispatcher,
                        [.managerStop
                          ⟨some ds, some (s.commander.Handler.getD .simplehandler)⟩]]
                    else []))
    ∧ (run (walker.Cmd.crawlCommand env flags) s).1
        = outcomeAfterGo env s.commander.Dispatcher 5 := by
  obtain ⟨s1, h1, hc, hev⟩ := readConfig_loads env flags s hcfg
  unfold walker.Cmd.crawlCommand
  rw [run_bind_ok _ _ _ _ _ h1, ← hev, ← hc]
  rw [← hc] at hds
  clear h1 hc hev hcfg
  obtain ⟨⟨h0, d0, p, pf, ef, ex⟩, cfg1, tr⟩ := s1
  simp only at hds
  subst hds
  rw [run_bind_ok _ _ _ _ _ (getCommander_apply _)]
  dsimp only
  rw [if_neg (Option.some_ne_none _), run_bind_ok _ _ _ _ _ (M.pure_apply _ _),
    run_bind_ok _ _ _ _ _ (getCommander_apply _)]
  dsimp only
  rcases h0 with _ | hv
  · rw [if_pos rfl, run_bind_ok _ _ _ _ _ (modifyCommander_apply _ _)]
    rcases p with _ | d
    · cases hsg : env.sigintArrives <;> apply run_of_runs <;>
        first
          | (repeat' first
              | with_reducible exact runs_goroutinePanic_last _ _ _ _
              | with_reducible exact runs_goroutinePanic_none_last _ _ _
              | with_reducible exact runs_receiveSigint_bind hsg
              | with_reducible apply runs_goroutinePanic_bind
              | with_reducible apply runs_steps_bind (steps_goroutinePanic_none _ _ _)
              | with_reducible apply runs_steps_bind (steps_getCommander _)
              | with_reducible apply runs_steps_bind (steps_emit _ _)
              | with_reducible apply runs_steps_bind (steps_pure _ _)
              | with_reducible apply runs_steps_bind (steps_consoleStart _ _)
              | with_reducible apply runs_steps_bind (steps_receiveSigint _ _ _ hsg)
              | dsimp only
             done)
          | simp [untilGoroutinePanic, outcomeAfterGo, whenSet, prefixed, State.events, hsg]
    · cases hsg : env.sigintArrives <;> apply run_of_runs <;>
        first
          | (repeat' first
              | with_reducible exact runs_goroutinePanic_last _ _ _ _
              | with_reducible exact runs_goroutinePanic_none_last _ _ _
              | with_reducible exact runs_receiveSigint_bind hsg
              | with_reducible apply runs_goroutinePanic_bind
              | with_reducible apply runs_steps_bind (steps_goroutinePanic_none _ _ _)
              | with_reducible apply runs_steps_bind (steps_getCommander _)
              | with_reducible apply runs_steps_bind (steps_emit _ _)
              | with_reducible apply runs_steps_bind (steps_pure _ _)
              | with_reducible apply runs_steps_bind (steps_consoleStart _ _)
              | with_reducible apply runs_steps_bind (steps_receiveSigint _ _ _ hsg)
              | dsimp only
             done)
          | (simp only [untilGoroutinePanic, outcomeAfterGo, Option.bind, whenSet, Option.getD]
             generalize env.StartDispatcher _ = r0
             rcases r0 with _ | ⟨err, _ | _ | _ | _ | _ | _ | k⟩ <;>
               simp [prefixed, State.events, hsg])
  · rw [if_neg (Option.some_ne_none _), run_bind_ok _ _ _ _ _ (M.pure_apply _ _)]
    rcases p with _ | d
    · cases hsg : env.sigintArrives <;> apply run_of_runs <;>
        first
          | (repeat' first
              | with_reducible exact runs_goroutinePanic_last _ _ _ _
              | with_reducible exact runs_goroutinePanic_none_last _ _ _
              | with_reducible exact runs_receiveSigint_bind hsg
              | with_reducible apply runs_goroutinePanic_bind
              | with_reducible apply runs_steps_bind (steps_goroutinePanic_none _ _ _)
              | with_reducible apply runs_steps_bind (steps_getCommander _)
              | with_reducible apply runs_steps_bind (steps_emit _ _)
              | with_reducible apply runs_steps_bind (steps_pure _ _)
              | with_reducible apply runs_steps_bind (steps_consoleStart _ _)
              | with_reducible apply runs_steps_bind (steps_receiveSigint _ _ _ hsg)
              | dsimp only
             done)
          | simp [untilGoroutinePanic, outcomeAfterGo, whenSet, prefixed, State.events, hsg]
    · cases hsg : env.sigintArrives <;> apply run_of_runs <;>
        first
          | (repeat' first
              | with_reducible exact runs_goroutinePanic_last _ _ _ _
              | with_reducible exact runs_goroutinePanic_none_last _ _ _
              | with_reducible exact runs_receiveSigint_bind hsg
              | with_reducible apply runs_goroutinePanic_bind
              | with_reducible apply runs_steps_bind (steps_goroutinePanic_none _ _ _)
              | with_reducible apply runs_steps_bind (steps_getCommander _)
              | with_reducible apply runs_steps_bind (steps_emit _ _)
              | with_reducible apply runs_steps_bind (steps_pure _ _)
              | with_reducible apply runs_steps_bind (steps_consoleStart _ _)
              | with_reducible apply runs_steps_bind (steps_receiveSigint _ _ _ hsg)
              | dsimp only
             done)
          | (simp only [untilGoroutinePanic, outcomeAfterGo, Option.bind, whenSet, Option.getD]
             generalize env.StartDispatcher _ = r0
             rcases r0 with _ | ⟨err, _ | _ | _ | _ | _ | _ | k⟩ <;>
               simp [prefixed, State.events, hsg])

theorem untilGoroutinePanic_initial_part (env : Env) (d : Option Dispatcher)
    (steps more : List (List Event)) :
    List.IsPrefix (untilGoroutinePanic env d steps) (steps ++ more).flatten := by
  unfold untilGoroutinePanic
  cases d.bind env.StartDispatcher with
  | none => exact ⟨more.flatten, by simp⟩
  | some ek =>
    obtain ⟨err, k⟩ := ek
    refine ⟨(steps.drop k).flatten ++ more.flatten, ?_⟩
    show (List.take k steps).flatten ++ ((List.drop k steps).flatten ++ more.flatten) = _
    rw [← List.append_assoc, ← List.flatten_append, List.take_append_drop, List.flatten_append]

theorem untilGoroutinePanic_of_not_fails (env : Env) (d : Option Dispatcher)
    (steps : List (List Event)) (h : ∀ x, d = some x → env.StartDispatcher x = none) :
    untilGoroutinePanic env d steps = steps.flatten := by
  unfold untilGoroutinePanic
  rcases d with _ | x
  · rfl
  · simp only [Option.bind, h x rfl]

theorem outcomeAfterGo_of_not_fails (env : Env) (d : Option Dispatcher) (n : Nat)
    (h : ∀ x, d = some x → env.StartDispatcher x = none) :
    outcomeAfterGo env d n = if env.sigintArrives then .returned else .blocked := by
  unfold outcomeAfterGo
  rcases d with _ | x
  · rfl
  · simp only [Option.bind, h x rfl]

theorem dispatch_events_cmd (env : Env) (flags : Flags) (c : Commander) (cfg : Config) :
    (run (cmd.dispatchCommand env flags) (State.init c cfg)).2.events =
      if configLoads env flags cfg then
        initEvents env flags ++ [.goStartDispatcher (c.Dispatcher.getD .cassandra)]
          ++ untilGoroutinePanic env (some (c.Dispatcher.getD .cassandra))
              ([[.signalNotify]]
                ++ (if env.sigintArrives then
                      [[.sigint], [.stopDispatcher (c.Dispatcher.getD .cassandra)]]
                    else []))
      else [.readConfigFile flags.config] := by
  by_cases hcfg : configLoads env flags cfg = true
  · rw [if_pos hcfg]
    exact (dispatchCommand_run env flags (State.init c cfg) _ hcfg rfl).1
  · rw [if_neg hcfg]
    obtain ⟨hfile, err, hfail⟩ := config_fails_of_not_loads env flags cfg hcfg
    unfold cmd.dispatchCommand
    rw [run_bind_halt _ _ _ _ _ (initCommand_fails env flags _ err hfile hfail)]
    rfl

theorem dispatch_events_walker (env : Env) (flags : Flags) (c : Commander) (cfg : Config) :
    (run (walker.Cmd.dispatchCommand env flags) (State.init c cfg)).2.events =
      if configLoads env flags cfg then
        readConfigEvents flags ++ [.goStartDispatcher (c.Dispatcher.getD .cassandra)]
          ++ untilGoroutinePanic env (some (c.Dispatcher.getD .cassandra))
              ([[.signalNotify]]
                ++ (if env.sigintArrives then
                      [[.sigint], [.stopDispatcher (c.Dispatcher.getD .cassandra)]]
                    else []))
      else [.readConfigFile flags.config] := by
  by_cases hcfg : configLoads env flags cfg = true
  · rw [if_pos hcfg]
    exact (dispatchCommand_run_walker env flags (State.init c cfg) _ hcfg rfl).1
  · rw [if_neg hcfg]
    obtain ⟨hfile, err, hfail⟩ := config_fails_of_not_loads env flags cfg hcfg
    unfold walker.Cmd.dispatchCommand
    rw [run_bind_halt _ _ _ _ _ (readConfig_fails env flags _ err hfile hfail)]
    rfl

theorem dispatch_initial_part (env : Env) (d : Dispatcher) :
    List.IsPrefix
      (untilGoroutinePanic env (some d)
        ([[.signalNotify]]
          ++ (if env.sigintArrives then [[.sigint], [.stopDispatcher d]] else [])))
      [.signalNotify, .sigint, .stopDispatcher d] := by
  cases env.sigintArrives
  · exact untilGoroutinePanic_initial_part env (some d) [[.signalNotify]]
      [[.sigint], [.stopDispatcher d]]
  · exact untilGoroutinePanic_initial_part env (some d)
      [[.signalNotify], [.sigint], [.stopDispatcher d]] []

theorem not_component_of_dispatch (pre : List Event) (d : Dispatcher) (tail : List Event)
    (hpre : ∀ e ∈ pre,
      e.isDatastoreCall = false ∧ e.isManagerCall = false ∧ e ≠ .newDatastore)
    (htail : List.IsPrefix tail [.signalNotify, .sigint, .stopDispatcher d]) :
    ∀ e ∈ pre ++ [Event.goStartDispatcher d] ++ tail,
      e.isDatastoreCall = false ∧ e.isManagerCall = false ∧ e ≠ .newDatastore := by
  intro e he
  simp only [List.mem_append, List.mem_singleton] at he
  rcases he with (he | he) | he
  · exact hpre e he
  · subst he
    exact ⟨rfl, rfl, by simp⟩
  · have := htail.subset he
    simp only [List.mem_cons, List.mem_singleton, List.not_mem_nil, or_false] at this
    rcases this with h | h | h <;> subst h <;> exact ⟨rfl, rfl, by simp⟩

theorem initEvents_not_component (env : Env) (flags : Flags) :
    ∀ e ∈ initEvents env flags,
      e.isDatastoreCall = false ∧ e.isManagerCall = false ∧ e ≠ .newDatastore
        ∧ e.isDispatcherCall = false := by
  unfold initEvents readConfigEvents
  split_ifs <;> simp [Event.isDatastoreCall, Event.isManagerCall, Event.isDispatcherCall]

theorem readConfigEvents_not_component (flags : Flags) :
    ∀ e ∈ readConfigEvents flags,
      e.isDatastoreCall = false ∧ e.isManagerCall = false ∧ e ≠ .newDatastore
        ∧ e.isDispatcherCall = false := by
  unfold readConfigEvents
  split_ifs <;> simp [Event.isDatastoreCall, Event.isManagerCall, Event.isDispatcherCall]

/-- C4. Whatever handler and datastore are preset, and however the goroutine of
the dispatcher fares, the run of the dispatch command is: the configuration step,
the launch of `StartDispatcher` on the dispatcher `d` (the preset one, else the
default) and then the statements `signal.Notify`, the receive of the SIGINT and
`StopDispatcher` on `d`, cut short where the goroutine panics because
`StartDispatcher` returned an error; nothing at all after a config file that
fails to load. So every run is an initial part of configuration, launch,
`signal.Notify`, SIGINT, one `StopDispatcher`, and no event of any run is a
datastore call, the creation of a datastore, or the construction or a call of a
`FetchManager` (through which alone a handler is reached). When the config loads
the command ends as `outcomeAfterGo` says, with the panic of the goroutine if
`StartDispatcher` returns an error in time. When it returns none, the config loads
and the SIGINT arrives, the run is exactly the launch of `StartDispatcher` and,
after the SIGINT, one `StopDispatcher`, and the command returns. Both
revisions. -/
theorem dispatch_starts_only_dispatcher (env : Env) (flags : Flags) (c : Commander)
    (cfg : Config) :
    ((run (cmd.dispatchCommand env flags) (State.init c cfg)).2.events =
      if configLoads env flags cfg then
        initEvents env flags ++ [.goStartDispatcher (c.Dispatcher.getD .cassandra)]
          ++ untilGoroutinePanic env (some (c.Dispatcher.getD .cassandra))
              ([[.signalNotify]]
                ++ (if env.sigintArrives then
                      [[.sigint], [.stopDispatcher (c.Dispatcher.getD .cassandra)]]
                    else []))
      else [.readConfigFile flags.config])
    ∧ ((run (walker.Cmd.dispatchCommand env flags) (State.init c cfg)).2.events =
      if configLoads env flags cfg then
        readConfigEvents flags ++ [.goStartDispatcher (c.Dispatcher.getD .cassandra)]
          ++ untilGoroutinePanic env (some (c.Dispatcher.getD .cassandra))
              ([[.signalNotify]]
                ++ (if env.sigintArrives then
                      [[.sigint], [.stopDispatcher (c.Dispatcher.getD .cassandra)]]
                    else []))
      else [.readConfigFile flags.config])
    ∧ (configLoads env flags cfg = true →
        (run (cmd.dispatchCommand env flags) (State.init c cfg)).1
          = outcomeAfterGo env (some (c.Dispatcher.getD .cassandra)) 3
        ∧ (run (walker.Cmd.dispatchCommand env flags) (State.init c cfg)).1
          = outcomeAfterGo env (some (c.Dispatcher.getD .cassandra)) 3)
    ∧ (configLoads env flags cfg = true →
        List.IsPrefix (run (cmd.dispatchCommand env flags) (State.init c cfg)).2.events
          (initEvents env flags
            ++ [.goStartDispatcher (c.Dispatcher.getD .cassandra), .signalNotify, .sigint,
                .stopDispatcher (c.Dispatcher.getD .cassandra)])
        ∧ List.IsPrefix
          (run (walker.Cmd.dispatchCommand env flags) (State.init c cfg)).2.events
          (readConfigEvents flags
            ++ [.goStartDispatcher (c.Dispatcher.getD .cassandra), .signalNotify, .sigint,
                .stopDispatcher (c.Dispatcher.getD .cassandra)]))
    ∧ (∀ e ∈ (run (cmd.dispatchCommand env flags) (State.init c cfg)).2.events,
        e.isDatastoreCall = false ∧ e.isManagerCall = false ∧ e ≠ .newDatastore)
    ∧ (∀ e ∈ (run (walker.Cmd.dispatchCommand env flags) (State.init c cfg)).2.events,
        e.isDatastoreCall = false ∧ e.isManagerCall = false ∧ e ≠ .newDatastore)
    ∧ (env.StartDispatcher (c.Dispatcher.getD .cassandra) = none →
        configLoads env flags cfg = true → env.sigintArrives = true →
        (run (cmd.dispatchCommand env flags) (State.init c cfg)).2.events
          = initEvents env flags
            ++ [.goStartDispatcher (c.Dispatcher.getD .cassandra), .signalNotify, .sigint,
                .stopDispatcher (c.Dispatcher.getD .cassandra)]
        ∧ (run (walker.Cmd.dispatchCommand env flags) (State.init c cfg)).2.events
          = readConfigEvents flags
            ++ [.goStartDispatcher (c.Dispatcher.getD .cassandra), .signalNotify, .sigint,
                .stopDispatcher (c.Dispatcher.getD .cassandra)]
        ∧ (run (cmd.dispatchCommand env flags) (State.init c cfg)).1 = .returned
        ∧ (run (walker.Cmd.dispatchCommand env flags) (State.init c cfg)).1 = .returned) := by
  have k1 := dispatch_events_cmd env flags c cfg
  have k2 := dispatch_events_walker env flags c cfg
  have o1 : configLoads env flags cfg = true →
      (run (cmd.dispatchCommand env flags) (State.init c cfg)).1
        = outcomeAfterGo env (some (c.Dispatcher.getD .cassandra)) 3 :=
    fun hcfg => (dispatchCommand_run env flags (State.init c cfg) _ hcfg rfl).2
  have o2 : configLoads env flags cfg = true →
      (run (walker.Cmd.dispatchCommand env flags) (State.init c cfg)).1
        = outcomeAfterGo env (some (c.Dispatcher.getD .cassandra)) 3 :=
    fun hcfg => (dispatchCommand_run_walker env flags (State.init c cfg) _ hcfg rfl).2
  refine ⟨k1, k2, fun hcfg => ⟨o1 hcfg, o2 hcfg⟩, fun hcfg => ⟨?_, ?_⟩, ?_, ?_,
    fun hsd hcfg hsg => ⟨?_, ?_, ?_, ?_⟩⟩
  · rw [k1, if_pos hcfg, List.append_assoc]
    exact (List.prefix_append_right_inj _).2
      ((List.prefix_append_right_inj _).2 (dispatch_initial_part env _))
  · rw [k2, if_pos hcfg, List.append_assoc]
    exact (List.prefix_append_right_inj _).2
      ((List.prefix_append_right_inj _).2 (dispatch_initial_part env _))
  · rw [k1]
    by_cases hcfg : configLoads env flags cfg = true
    · rw [if_pos hcfg]
      exact not_component_of_dispatch _ _ _
        (fun e he => ⟨(initEvents_not_component env flags e he).1,
          (initEvents_not_component env flags e he).2.1,
          (initEvents_not_component env flags e he).2.2.1⟩) (dispatch_initial_part env _)
    · rw [if_neg hcfg]
      simp [Event.isDatastoreCall, Event.isManagerCall]
  · rw [k2]
    by_cases hcfg : configLoads env flags cfg = true
    · rw [if_pos hcfg]
      exact not_component_of_dispatch _ _ _
        (fun e he => ⟨(readConfigEvents_not_component flags e he).1,
          (readConfigEvents_not_component flags e he).2.1,
          (readConfigEvents_not_component flags e he).2.2.1⟩) (dispatch_initial_part env _)
    · rw [if_neg hcfg]
      simp [Event.isDatastoreCall, Event.isManagerCall]
  · rw [k1, if_pos hcfg, untilGoroutinePanic_of_not_fails env _ _
      (fun x hx => by rw [← Option.some.inj hx]; exact hsd), hsg]
    simp
  · rw [k2, if_pos hcfg, untilGoroutinePanic_of_not_fails env _ _
      (fun x hx => by rw [← Option.some.inj hx]; exact hsd), hsg]
    simp
  · rw [o1 hcfg, outcomeAfterGo_of_not_fails env _ _
      (fun x hx => by rw [← Option.some.inj hx]; exact hsd), hsg]
    rfl
  · rw [o2 hcfg, outcomeAfterGo_of_not_fails env _ _
      (fun x hx => by rw [← Option.some.inj hx]; exact hsd), hsg]
    rfl

/-- C4 at two inputs. `dispatch` with the three mocks preset, a `StartDispatcher`
that returns no error and a SIGINT: the mock dispatcher is started and, after the
SIGINT, stopped once. The same with a `StartDispatcher` that returns an error at
once: the goroutine panics while the command waits for the signal, the process
ends with status 2 and `StopDispatcher` is not called. -/
theorem dispatch_starts_only_dispatcher_witness :
    (run (cmd.dispatchCommand quietEnv noFlags)
        (State.init mockCommander defaultConfig)).2.events
      = [.goStartDispatcher (.preset 3), .signalNotify, .sigint, .stopDispatcher (.preset 3)]
    ∧ (run (cmd.dispatchCommand quietEnv noFlags)
        (State.init mockCommander defaultConfig)).1 = .returned
    ∧ (run (cmd.dispatchCommand failingDispatcherEnv noFlags)
        (State.init mockCommander defaultConfig)).2.events
      = [.goStartDispatcher (.preset 3), .signalNotify]
    ∧ (run (cmd.dispatchCommand failingDispatcherEnv noFlags)
        (State.init mockCommander defaultConfig)).1
      = .panicked (.error "dispatcher: no cassandra host")
    ∧ (run (cmd.dispatchCommand failingDispatcherEnv noFlags)
        (State.init mockCommander defaultConfig)).1.status = some 2 :=
  ⟨((dispatch_starts_only_dispatcher quietEnv noFlags mockCommander defaultConfig).2.2.2.2.2.2
      rfl rfl rfl).1,
    ((dispatch_starts_only_dispatcher quietEnv noFlags mockCommander defaultConfig).2.2.2.2.2.2
      rfl rfl rfl).2.2.1,
    (dispatch_starts_only_dispatcher failingDispatcherEnv noFlags mockCommander
      defaultConfig).1.trans (by decide),
    ((dispatch_starts_only_dispatcher failingDispatcherEnv noFlags mockCommander
      defaultConfig).2.2.1 rfl).1.trans (by decide),
    by rw [((dispatch_starts_only_dispatcher failingDispatcherEnv noFlags mockCommander
      defaultConfig).2.2.1 rfl).1]; decide⟩

theorem crawl_events_cmd (env : Env) (flags : Flags) (c : Commander) (cfg : Config)
    (ds : Datastore) (hds : c.Datastore = some ds) :
    (run (cmd.crawlCommand env flags) (State.init c cfg)).2.events =
      if configLoads env flags cfg then
        initEvents env flags
          ++ [.newFetchManager ⟨some ds, some (c.Handler.getD .simplehandler)⟩,
              .goManagerStart ⟨some ds, some (c.Handler.getD .simplehandler)⟩]
          ++ whenSet c.Dispatcher .goStartDispatcher
          ++ untilGoroutinePanic env c.Dispatcher
              ([if flags.noConsole then [] else [.consoleStart], [.signalNotify]]
                ++ (if env.sigintArrives then
                      [[.sigint], whenSet c.Dispatcher .stopDispatcher,
                        [.managerStop ⟨some ds, some (c.Handler.getD .simplehandler)⟩]]
                    else []))
      else [.readConfigFile flags.config] := by
  by_cases hcfg : configLoads env flags cfg = true
  · rw [if_pos hcfg]
    exact (crawlCommand_run env flags (State.init c cfg) ds hcfg hds).1
  · rw [if_neg hcfg]
    obtain ⟨hfile, err, hfail⟩ := config_fails_of_not_loads env flags cfg hcfg
    unfold cmd.crawlCommand
    rw [run_bind_halt _ _ _ _ _ (initCommand_fails env flags _ err hfile hfail)]
    rfl

theorem crawl_events_walker (env : Env) (flags : Flags) (c : Commander) (cfg : Config)
    (ds : Datastore) (hds : c.Datastore = some ds) :
    (run (walker.Cmd.crawlCommand env flags) (State.init c cfg)).2.events =
      if configLoads env flags cfg then
        readConfigEvents flags
          ++ [.newFetchManager ⟨some ds, some (c.Handler.getD .simplehandler)⟩,
              .goManagerStart ⟨some ds, some (c.Handler.getD .simplehandler)⟩]
          ++ whenSet c.Dispatcher .goStartDispatcher
          ++ untilGoroutinePanic env c.Dispatcher
              ([if flags.noConsole then [] else [.consoleStart], [.signalNotify]]
                ++ (if env.sigintArrives then
                      [[.sigint], whenSet c.Dispatcher .stopDispatcher,
                        [.managerStop ⟨some ds, some (c.Handler.getD .simplehandler)⟩]]
                    else []))
      else [.readConfigFile flags.config] := by
  by_cases hcfg : configLoads env flags cfg = true
  · rw [if_pos hcfg]
    exact (crawlCommand_run_walker env flags (State.init c cfg) ds hcfg hds).1
  · rw [if_neg hcfg]
    obtain ⟨hfile, err, hfail⟩ := config_fails_of_not_loads env flags cfg hcfg
    unfold walker.Cmd.crawlCommand
    rw [run_bind_halt _ _ _ _ _ (readConfig_fails env flags _ err hfile hfail)]
    rfl

theorem crawl_initial_part (env : Env) (d : Option Dispatcher) (console : List Event)
    (m : FetchManager) :
    List.IsPrefix
      (untilGoroutinePanic env d
        ([console, [.signalNotify]]
          ++ (if env.sigintArrives then
                [[.sigint], whenSet d .stopDispatcher, [.managerStop m]]
              else [])))
      (console ++ [.signalNotify, .sigint] ++ whenSet d .stopDispatcher ++ [.managerStop m]) := by
  have hfull : console ++ [.signalNotify, .sigint] ++ whenSet d .stopDispatcher
      ++ [.managerStop m]
      = ([console, [.signalNotify]]
          ++ [[.sigint], whenSet d .stopDispatcher, [.managerStop m]]).flatten := by
    simp
  rw [hfull]
  cases env.sigintArrives
  · exact untilGoroutinePanic_initial_part env d [console, [.signalNotify]]
      [[.sigint], whenSet d .stopDispatcher, [.managerStop m]]
  · have := untilGoroutinePanic_initial_part env d
      ([console, [.signalNotify]]
        ++ [[.sigint], whenSet d .stopDispatcher, [.managerStop m]]) []
    simpa using this

/-- C5. With a preset datastore, and however the goroutine of the dispatcher fares,
the run of the crawl command is: the configuration step; the construction of a
`FetchManager` over the preset datastore and the handler (the preset one, else the
default) and the launch of its `Start`; the launch of `StartDispatcher` when a
dispatcher is set; and then the statements that start the console unless
`--no-console`, `signal.Notify`, the receive of the SIGINT, `StopDispatcher` when
a dispatcher is set, and the manager's `Stop`, cut short where the goroutine
panics because `StartDispatcher` returned an error; nothing at all after a config
file that fails to load. So every run is an initial part of the sequence in which
`StopDispatcher` comes after the SIGINT and before the manager's `Stop`. Without a
dispatcher there is neither a `StartDispatcher` nor a `StopDispatcher` in any run.
When `StartDispatcher` returns no error, the config loads and the SIGINT arrives,
the run is the whole sequence and the command returns. Both revisions. -/
theorem crawl_starts_manager_and_dispatcher (env : Env) (flags : Flags) (c : Commander)
    (cfg : Config) (ds : Datastore) (hds : c.Datastore = some ds) :
    ((run (cmd.crawlCommand env flags) (State.init c cfg)).2.events =
      if configLoads env flags cfg then
        initEvents env flags
          ++ [.newFetchManager ⟨some ds, some (c.Handler.getD .simplehandler)⟩,
              .goManagerStart ⟨some ds, some (c.Handler.getD .simplehandler)⟩]
          ++ whenSet c.Dispatcher .goStartDispatcher
          ++ untilGoroutinePanic env c.Dispatcher
              ([if flags.noConsole then [] else [.consoleStart], [.signalNotify]]
                ++ (if env.sigintArrives then
                      [[.sigint], whenSet c.Dispatcher .stopDispatcher,
                        [.managerStop ⟨some ds, some (c.Handler.getD .simplehandler)⟩]]
                    else []))
      else [.readConfigFile flags.config])
    ∧ ((run (walker.Cmd.crawlCommand env flags) (State.init c cfg)).2.events =
      if configLoads env flags cfg then
        readConfigEvents flags
          ++ [.newFetchManager ⟨some ds, some (c.Handler.getD .simplehandler)⟩,
              .goManagerStart ⟨some ds, some (c.Handler.getD .simplehandler)⟩]
          ++ whenSet c.Dispatcher .goStartDispatcher
          ++ untilGoroutinePanic env c.Dispatcher
              ([if flags.noConsole then [] else [.consoleStart], [.signalNotify]]
                ++ (if env.sigintArrives then
                      [[.sigint], whenSet c.Dispatcher .stopDispatcher,
                        [.managerStop ⟨some ds, some (c.Handler.getD .simplehandler)⟩]]
                    else []))
      else [.readConfigFile flags.config])
    ∧ (configLoads env flags cfg = true →
        (run (cmd.crawlCommand env flags) (State.init c cfg)).1
          = outcomeAfterGo env c.Dispatcher 5
        ∧ (run (walker.Cmd.crawlCommand env flags) (State.init c cfg)).1
          = outcomeAfterGo env c.Dispatcher 5)
    ∧ (configLoads env flags cfg = true →
        List.IsPrefix (run (cmd.crawlCommand env flags) (State.init c cfg)).2.events
          (initEvents env flags
            ++ [.newFetchManager ⟨some ds, some (c.Handler.getD .simplehandler)⟩,
                .goManagerStart ⟨some ds, some (c.Handler.getD .simplehandler)⟩]
            ++ whenSet c.Dispatcher .goStartDispatcher
            ++ ((if flags.noConsole then [] else [.consoleStart])
              ++ [.signalNotify, .sigint] ++ whenSet c.Dispatcher .stopDispatcher
              ++ [.managerStop ⟨some ds, some (c.Handler.getD .simplehandler)⟩]))
        ∧ List.IsPrefix (run (walker.Cmd.crawlCommand env flags) (State.init c cfg)).2.events
          (readConfigEvents flags
            ++ [.newFetchManager ⟨some ds, some (c.Handler.getD .simplehandler)⟩,
                .goManagerStart ⟨some ds, some (c.Handler.getD .simplehandler)⟩]
            ++ whenSet c.Dispatcher .goStartDispatcher
            ++ ((if flags.noConsole then [] else [.consoleStart])
              ++ [.signalNotify, .sigint] ++ whenSet c.Dispatcher .stopDispatcher
              ++ [.managerStop ⟨some ds, some (c.Handler.getD .simplehandler)⟩])))
    ∧ (c.Dispatcher = none →
        (∀ e ∈ (run (cmd.crawlCommand env flags) (State.init c cfg)).2.events,
          e.isDispatcherCall = false)
        ∧ ∀ e ∈ (run (walker.Cmd.crawlCommand env flags) (State.init c cfg)).2.events,
          e.isDispatcherCall = false)
    ∧ ((∀ d, c.Dispatcher = some d → env.StartDispatcher d = none) →
        configLoads env flags cfg = true → env.sigintArrives = true →
        (run (cmd.crawlCommand env flags) (State.init c cfg)).2.events
          = initEvents env flags
            ++ [.newFetchManager ⟨some ds, some (c.Handler.getD .simplehandler)⟩,
                .goManagerStart ⟨some ds, some (c.Handler.getD .simplehandler)⟩]
            ++ whenSet c.Dispatcher .goStartDispatcher
            ++ (if flags.noConsole then [] else [.consoleStart])
            ++ [.signalNotify, .sigint] ++ whenSet c.Dispatcher .stopDispatcher
            ++ [.managerStop ⟨some ds, some (c.Handler.getD .simplehandler)⟩]
        ∧ (run (walker.Cmd.crawlCommand env flags) (State.init c cfg)).2.events
          = readConfigEvents flags
            ++ [.newFetchManager ⟨some ds, some (c.Handler.getD .simplehandler)⟩,
                .goManagerStart ⟨some ds, some (c.Handler.getD .simplehandler)⟩]
            ++ whenSet c.Dispatcher .goStartDispatcher
            ++ (if flags.noConsole then [] else [.consoleStart])
            ++ [.signalNotify, .sigint] ++ whenSet c.Dispatcher .stopDispatcher
            ++ [.managerStop ⟨some ds, some (c.Handler.getD .simplehandler)⟩]
        ∧ (run (cmd.crawlCommand env flags) (State.init c cfg)).1 = .returned
        ∧ (run (walker.Cmd.crawlCommand env flags) (State.init c cfg)).1 = .returned) := by
  have k1 := crawl_events_cmd env flags c cfg ds hds
  have k2 := crawl_events_walker env flags c cfg ds hds
  have o1 : configLoads env flags cfg = true →
      (run (cmd.crawlCommand env flags) (State.init c cfg)).1
        = outcomeAfterGo env c.Dispatcher 5 :=
    fun hcfg => (crawlCommand_run env flags (State.init c cfg) ds hcfg hds).2
  have o2 : configLoads env flags cfg = true →
      (run (walker.Cmd.crawlCommand env flags) (State.init c cfg)).1
        = outcomeAfterGo env c.Dispatcher 5 :=
    fun hcfg => (crawlCommand_run_walker env flags (State.init c cfg) ds hcfg hds).2
  refine ⟨k1, k2, fun hcfg => ⟨o1 hcfg, o2 hcfg⟩, fun hcfg => ⟨?_, ?_⟩, fun hp => ⟨?_, ?_⟩,
    fun hsd hcfg hsg => ⟨?_, ?_, ?_, ?_⟩⟩
  · rw [k1, if_pos hcfg]
    exact (List.prefix_append_right_inj _).2 (crawl_initial_part env _ _ _)
  · rw [k2, if_pos hcfg]
    exact (List.prefix_append_right_inj _).2 (crawl_initial_part env _ _ _)
  · rw [k1, hp]
    by_cases hcfg : configLoads env flags cfg = true
    · rw [if_pos hcfg]
      intro e he
      simp only [List.mem_append] at he
      rcases he with (he | he) | he
      · simp only [List.mem_append, List.mem_cons, List.mem_singleton, List.not_mem_nil,
          or_false] at he
        rcases he with he | he | he
        · exact (initEvents_not_component env flags e he).2.2.2
        · subst he
          rfl
        · subst he
          rfl
      · simp [whenSet] at he
      · have hmem := (crawl_initial_part env none _ _).subset he
        simp only [whenSet, List.append_nil, List.mem_append, List.mem_cons,
          List.mem_singleton, List.not_mem_nil, or_false] at hmem
        rcases hmem with (hmem | hmem | hmem) | hmem
        · split_ifs at hmem
          · simp at hmem
          · simp only [List.mem_singleton] at hmem
            subst hmem
            rfl
        · subst hmem
          rfl
        · subst hmem
          rfl
        · subst hmem
          rfl
    · rw [if_neg hcfg]
      simp [Event.isDispatcherCall]
  · rw [k2, hp]
    by_cases hcfg : configLoads env flags cfg = true
    · rw [if_pos hcfg]
      intro e he
      simp only [List.mem_append] at he
      rcases he with (he | he) | he
      · simp only [List.mem_append, List.mem_cons, List.mem_singleton, List.not_mem_nil,
          or_false] at he
        rcases he with he | he | he
        · exact (readConfigEvents_not_component flags e he).2.2.2
        · subst he
          rfl
        · subst he
          rfl
      · simp [whenSet] at he
      · have hmem := (crawl_initial_part env none _ _).subset he
        simp only [whenSet, List.append_nil, List.mem_append, List.mem_cons,
          List.mem_singleton, List.not_mem_nil, or_false] at hmem
        rcases hmem with (hmem | hmem | hmem) | hmem
        · split_ifs at hmem
          · simp at hmem
          · simp only [List.mem_singleton] at hmem
            subst hmem
            rfl
        · subst hmem
          rfl
        · subst hmem
          rfl
        · subst hmem
          rfl
    · rw [if_neg hcfg]
      simp [Event.isDispatcherCall]
  · rw [k1, if_pos hcfg, untilGoroutinePanic_of_not_fails env _ _ hsd, hsg]
    simp
  · rw [k2, if_pos hcfg, untilGoroutinePanic_of_not_fails env _ _ hsd, hsg]
    simp
  · rw [o1 hcfg, outcomeAfterGo_of_not_fails env _ _ hsd, hsg]
    rfl
  · rw [o2 hcfg, outcomeAfterGo_of_not_fails env _ _ hsd, hsg]
    rfl

/-- C5 at two inputs. `crawl --no-console` with the three mocks preset, as in
`TestCrawlCommand`, a `StartDispatcher` that returns no error and a SIGINT: the
dispatcher is stopped before the manager. The same with a `StartDispatcher` that
returns an error at once: the goroutine panics while the command waits for the
signal, and neither `StopDispatcher` nor the manager's `Stop` is called. -/
theorem crawl_starts_manager_and_dispatcher_witness :
    mockCommander.Datastore = some (.preset 2 true)
    ∧ (run (cmd.crawlCommand quietEnv { noFlags with noConsole := true })
        (State.init mockCommander defaultConfig)).2.events
        = [.newFetchManager ⟨some (.preset 2 true), some (.preset 1)⟩,
           .goManagerStart ⟨some (.preset 2 true), some (.preset 1)⟩,
           .goStartDispatcher (.preset 3),
           .signalNotify, .sigint,
           .stopDispatcher (.preset 3),
           .managerStop ⟨some (.preset 2 true), some (.preset 1)⟩]
    ∧ (run (cmd.crawlCommand failingDispatcherEnv { noFlags with noConsole := true })
        (State.init mockCommander defaultConfig)).2.events
        = [.newFetchManager ⟨some (.preset 2 true), some (.preset 1)⟩,
           .goManagerStart ⟨some (.preset 2 true), some (.preset 1)⟩,
           .goStartDispatcher (.preset 3)]
    ∧ (run (cmd.crawlCommand failingDispatcherEnv { noFlags with noConsole := true })
        (State.init mockCommander defaultConfig)).1
        = .panicked (.error "dispatcher: no cassandra host") :=
  ⟨rfl,
    ((crawl_starts_manager_and_dispatcher quietEnv { noFlags with noConsole := true }
      mockCommander defaultConfig (.preset 2 true) rfl).2.2.2.2.2 (fun _ _ => rfl) rfl rfl).1,
    (crawl_starts_manager_and_dispatcher failingDispatcherEnv { noFlags with noConsole := true }
      mockCommander defaultConfig (.preset 2 true) rfl).1.trans (by decide),
    ((crawl_starts_manager_and_dispatcher failingDispatcherEnv
      { noFlags with noConsole := true } mockCommander defaultConfig (.preset 2 true)
      rfl).2.2.1 rfl).1.trans (by decide)⟩

/-! ## The mock HTTP handler -/

theorem newMockHTTPHandler_methods (method : String) :
    (test.NewMockHTTPHandler.returns method).isSome = true ↔ method ∈ test.methods := by
  unfold test.NewMockHTTPHandler test.methods
  by_cases h : method = "DELETE" ∨ method = "GET" ∨ method = "HEAD" ∨ method = "OPTIONS"
      ∨ method = "POST" ∨ method = "PUT" ∨ method = "TRACE"
  · simp only [if_pos h, Option.isSome_some, true_iff]
    simpa using h
  · simp only [if_neg h, Option.isSome_none, Bool.false_eq_true, false_iff]
    simpa using h

theorem withSchemeAndHost_idem (r : test.Request) :
    r.withSchemeAndHost.withSchemeAndHost = r.withSchemeAndHost := rfl

theorem setResponse_of_present (w : test.World) (link : String) (r : Nat)
    (m : String → Option Nat)
    (hm : w.handler.returns (if (w.heap r).Method = "" then "GET" else (w.heap r).Method)
      = some m) :
    (test.MockHTTPHandler.SetResponse w link r).1 = .returned
    ∧ (test.MockHTTPHandler.SetResponse w link r).2.heap r
        = { w.heap r with
            Method := if (w.heap r).Method = "" then "GET" else (w.heap r).Method }
    ∧ (∀ a, a ≠ r → (test.MockHTTPHandler.SetResponse w link r).2.heap a = w.heap a)
    ∧ (test.MockHTTPHandler.SetResponse w link r).2.handler.entry
        (if (w.heap r).Method = "" then "GET" else (w.heap r).Method) link = some r
    ∧ (∀ method l,
        (method ≠ (if (w.heap r).Method = "" then "GET" else (w.heap r).Method) ∨ l ≠ link) →
        (test.MockHTTPHandler.SetResponse w link r).2.handler.entry method l
          = w.handler.entry method l)
    ∧ (∀ method, (w.handler.returns method).isSome = true →
        ((test.MockHTTPHandler.SetResponse w link r).2.handler.returns method).isSome
          = true) := by
  by_cases he : (w.heap r).Method = ""
  · simp only [he, if_true] at hm ⊢
    have h1 : (w.heap.store r { w.heap r with Method := "GET" } r).Method = "GET" := by
      simp [test.Heap.store]
    simp only [test.MockHTTPHandler.SetResponse, he, if_true, h1, hm]
    refine ⟨by first | rfl | trivial, ?_, ?_, ?_, ?_, ?_⟩
    · simp [test.Heap.store, he]
    · intro a ha
      simp [test.Heap.store, ha]
    · simp [test.MockHTTPHandler.entry]
    · intro method l hne
      simp only [test.MockHTTPHandler.entry]
      by_cases hmeth : method = "GET"
      · subst hmeth
        have hl : l ≠ link := by
          rcases hne with h | h
          · exact absurd rfl h
          · exact h
        simp [hm, hl]
      · simp [hmeth]
    · intro method hs
      by_cases hmeth : method = "GET"
      · simp [hmeth]
      · simpa [hmeth] using hs
  · simp only [he, if_false] at hm ⊢
    simp only [test.MockHTTPHandler.SetResponse, he, if_false, hm]
    refine ⟨by first | rfl | trivial, by first | rfl | trivial,
      fun a _ => by first | rfl | trivial, ?_, ?_, ?_⟩
    · simp [test.MockHTTPHandler.entry]
    · intro method l hne
      simp only [test.MockHTTPHandler.entry]
      by_cases hmeth : method = (w.heap r).Method
      · subst hmeth
        have hl : l ≠ link := by
          rcases hne with h | h
          · exact absurd rfl h
          · exact h
        simp [hm, hl]
      · simp [hmeth]
    · intro method hs
      by_cases hmeth : method = (w.heap r).Method
      · simp [hmeth]
      · simpa [hmeth] using hs

theorem serveHTTP_of_entry (urlString : test.RequestURL → String) (w : test.World)
    (req : test.Request) (writeErr : Option String)
    (p : Nat) (h : w.handler.entry req.Method (req.key urlString) = some p) :
    (test.MockHTTPHandler.ServeHTTP urlString w req writeErr).1.calls
      = [.headerSet "Content-Type"
          (if (w.heap p).ContentType = "" then "text/html" else (w.heap p).ContentType),
        .responseWrite
          { RequestMethod := if (w.heap p).Method = "" then "GET" else (w.heap p).Method
            StatusCode := if (w.heap p).Status = 0 then 200 else (w.heap p).Status
            ProtoMajor := 1
            ProtoMinor := 1
            Body := (w.heap p).Body
            ContentLength := (w.heap p).Body.utf8ByteSize }]
    ∧ (test.MockHTTPHandler.ServeHTTP urlString w req writeErr).1.ending
      = (match writeErr with
        | none => .returned
        | some err =>
          .panicked ("Failed to write response for page "
            ++ req.key urlString ++ ", err: " ++ err))
    ∧ (test.MockHTTPHandler.ServeHTTP urlString w req writeErr).2.1.handler = w.handler
    ∧ (test.MockHTTPHandler.ServeHTTP urlString w req writeErr).2.1.heap
      = w.heap.store p
          { Status := if (w.heap p).Status = 0 then 200 else (w.heap p).Status
            Method := if (w.heap p).Method = "" then "GET" else (w.heap p).Method
            Body := (w.heap p).Body
            ContentType :=
              if (w.heap p).ContentType = "" then "text/html" else (w.heap p).ContentType }
    ∧ (test.MockHTTPHandler.ServeHTTP urlString w req writeErr).2.2 = req.withSchemeAndHost := by
  have hmeth : req.withSchemeAndHost.Method = req.Method := rfl
  unfold test.MockHTTPHandler.entry test.Request.key at h
  unfold test.MockHTTPHandler.ServeHTTP test.Request.key
  simp only [hmeth]
  cases hr : w.handler.returns req.Method with
  | none =>
    rw [hr] at h
    cases h
  | some m =>
    rw [hr] at h
    simp only at h
    simp only [h]
    refine ⟨?_, ?_, ?_, ?_, ?_⟩ <;> first | rfl | trivial

/-- C24 as stated fails for a method the table has no map for: `SetResponse` with a
response whose `Method` is `PATCH` panics on a new handler (the assignment goes to
a nil map), and the table has no entry for `PATCH` and the link afterwards. -/
theorem setResponse_panics_on_other_method :
    (test.MockHTTPHandler.SetResponse patchWorld "http://test.com/page1.com" 0).1
      = .panicked "assignment to entry in nil map"
    ∧ (test.MockHTTPHandler.SetResponse patchWorld "http://test.com/page1.com" 0).2.handler.entry
        "PATCH" "http://test.com/page1.com" = none := by
  constructor <;> rfl

/-- C24, amended. On a handler whose table has the maps of `NewMockHTTPHandler`,
for every link and every response `r` whose `Method` is empty or one of the seven
methods of the table: `SetResponse(link, r)` returns; it leaves `r` with the
method `meth` (its `Method`, or `GET` when that was empty) and other objects as they
were; the table maps `meth` and `link` to `r` and every other entry is unchanged; a
later request with that method and whose URL, as `String()` gives it, is the link
is answered from the fields of `r`, whatever the method `String()` does; and a
second `SetResponse` for the same method and link replaces the pointer and leaves
every other entry unchanged. -/
theorem setResponse_registers (w w1 : test.World) (link meth : String) (r : Nat)
    (htable : ∀ method, method ∈ test.methods → (w.handler.returns method).isSome = true)
    (hr : (w.heap r).Method = "" ∨ (w.heap r).Method ∈ test.methods)
    (hmeth : meth = if (w.heap r).Method = "" then "GET" else (w.heap r).Method)
    (hw1 : w1 = (test.MockHTTPHandler.SetResponse w link r).2) :
    (test.MockHTTPHandler.SetResponse w link r).1 = .returned
    ∧ w1.heap r = { w.heap r with Method := meth }
    ∧ (∀ a, a ≠ r → w1.heap a = w.heap a)
    ∧ w1.handler.entry meth link = some r
    ∧ (∀ method l, (method ≠ meth ∨ l ≠ link) →
        w1.handler.entry method l = w.handler.entry method l)
    ∧ (∀ method, method ∈ test.methods → (w1.handler.returns method).isSome = true)
    ∧ (∀ urlString req writeErr, req.Method = meth → req.key urlString = link →
        (test.MockHTTPHandler.ServeHTTP urlString w1 req writeErr).1.calls
          = [.headerSet "Content-Type"
              (if (w.heap r).ContentType = "" then "text/html" else (w.heap r).ContentType),
            .responseWrite
              { RequestMethod := meth
                StatusCode := if (w.heap r).Status = 0 then 200 else (w.heap r).Status
                ProtoMajor := 1
                ProtoMinor := 1
                Body := (w.heap r).Body
                ContentLength := (w.heap r).Body.utf8ByteSize }])
    ∧ (∀ r2, (if (w1.heap r2).Method = "" then "GET" else (w1.heap r2).Method) = meth →
        (test.MockHTTPHandler.SetResponse w1 link r2).1 = .returned
        ∧ (test.MockHTTPHandler.SetResponse w1 link r2).2.handler.entry meth link = some r2
        ∧ ∀ method l, (method ≠ meth ∨ l ≠ link) →
            (test.MockHTTPHandler.SetResponse w1 link r2).2.handler.entry method l
              = w1.handler.entry method l) := by
  have hin : meth ∈ test.methods := by
    rw [hmeth]
    by_cases he : (w.heap r).Method = ""
    · rw [if_pos he]
      decide
    · rw [if_neg he]
      exact hr.resolve_left he
  have hne : meth ≠ "" := by
    intro h
    rw [h] at hin
    exact absurd hin (by decide)
  obtain ⟨m, hm⟩ := Option.isSome_iff_exists.1 (htable meth hin)
  rw [hmeth] at hm
  obtain ⟨h1, h2, h3, h4, h5, h6⟩ := setResponse_of_present w link r m hm
  rw [← hw1] at h2 h3 h4 h5 h6
  rw [← hmeth] at h2 h4 h5
  have htable1 : ∀ method, method ∈ test.methods → (w1.handler.returns method).isSome = true :=
    fun method hmem => h6 method (htable method hmem)
  refine ⟨h1, h2, h3, h4, h5, htable1, ?_, ?_⟩
  · intro urlString req writeErr hreqm hurl
    have hentry : w1.handler.entry req.Method (req.key urlString) = some r := by
      rw [hreqm, hurl]
      exact h4
    rw [(serveHTTP_of_entry urlString w1 req writeErr r hentry).1, h2]
    simp only [if_neg hne]
  · intro r2 hr2
    obtain ⟨m1, hm1⟩ := Option.isSome_iff_exists.1 (htable1 meth hin)
    rw [← hr2] at hm1
    obtain ⟨k1, -, -, k4, k5, -⟩ := setResponse_of_present w1 link r2 m1 hm1
    rw [hr2] at k4 k5
    exact ⟨k1, k4, k5⟩

/-- C24 on a new handler and a response that sets only its body: it is filed under
`GET`, the request `GET http://test.com/page1.com` is answered from it, and the
entry for `HEAD` stays empty. -/
theorem setResponse_registers_witness :
    (test.MockHTTPHandler.SetResponse newWorld "http://test.com/page1.com" 0).1 = .returned
    ∧ (test.MockHTTPHandler.SetResponse newWorld "http://test.com/page1.com" 0).2.handler.entry
        "GET" "http://test.com/page1.com" = some 0
    ∧ (test.MockHTTPHandler.SetResponse newWorld "http://test.com/page1.com" 0).2.handler.entry
        "HEAD" "http://test.com/page1.com" = none
    ∧ (test.MockHTTPHandler.ServeHTTP sampleURLString
        (test.MockHTTPHandler.SetResponse newWorld "http://test.com/page1.com" 0).2
        (page1Request "GET") none).1.calls
      = [.headerSet "Content-Type" "text/html",
        .responseWrite
          { RequestMethod := "GET"
            StatusCode := 200
            ProtoMajor := 1
            ProtoMinor := 1
            Body := "<html/>"
            ContentLength := 7 }] := by
  have h := setResponse_registers newWorld _ "http://test.com/page1.com" "GET" 0
    (fun method hmem => (newMockHTTPHandler_methods method).2 hmem) (Or.inl rfl) rfl rfl
  refine ⟨h.1, h.2.2.2.1, ?_, ?_⟩
  · rw [h.2.2.2.2.1 "HEAD" "http://test.com/page1.com" (Or.inl (by decide))]
    rfl
  · exact h.2.2.2.2.2.2.1 sampleURLString (page1Request "GET") none rfl (by decide)

theorem served_ext (a b : test.Served) (hc : a.calls = b.calls) (he : a.ending = b.ending) :
    a = b := by
  cases a
  cases b
  simp only at hc he
  rw [hc, he]

theorem serveHTTP_again (urlString : test.RequestURL → String) (w : test.World)
    (req req2 : test.Request) (writeErr : Option String)
    (p : Nat) (h : w.handler.entry req.Method (req.key urlString) = some p)
    (hmeth : req2.Method = req.Method)
    (hurl : req2.key urlString = req.key urlString) :
    (test.MockHTTPHandler.ServeHTTP urlString
        (test.MockHTTPHandler.ServeHTTP urlString w req writeErr).2.1 req2 writeErr).1
      = (test.MockHTTPHandler.ServeHTTP urlString w req writeErr).1 := by
  obtain ⟨hc, he, hh, hheap, -⟩ := serveHTTP_of_entry urlString w req writeErr p h
  have h2 : (test.MockHTTPHandler.ServeHTTP urlString w req writeErr).2.1.handler.entry
      req2.Method (req2.key urlString) = some p := by
    rw [hh, hmeth, hurl]
    exact h
  obtain ⟨hc2, he2, -, -, -⟩ := serveHTTP_of_entry urlString _ req2 writeErr p h2
  apply served_ext
  · rw [hc2, hc, hheap]
    simp only [test.Heap.store, if_true]
    by_cases h1 : (w.heap p).ContentType = "" <;> by_cases h3 : (w.heap p).Method = ""
      <;> by_cases h4 : (w.heap p).Status = 0 <;> simp [h1, h3, h4]
  · rw [he2, he, hurl]

/-- C25 as stated fails in two ways. On a new handler, where no response is
registered for any link, the request `PATCH http://test.com/page1.com` is not given
an empty 200 OK: its method has no map in the table and `ServeHTTP` panics before
any call on the response writer. And a response registered with the status 404 is
not answered with the status 404: `ServeHTTP` passes the text of a whole response,
status line included, to the response writer as the body of a reply whose status
is 200. -/
theorem serveHTTP_panics_on_other_method :
    (∀ method, newWorld.handler.entry method "http://test.com/page1.com" = none)
    ∧ (page1Request "PATCH").key sampleURLString = "http://test.com/page1.com"
    ∧ (test.MockHTTPHandler.ServeHTTP sampleURLString newWorld (page1Request "PATCH") none).1
      = { calls := []
          ending := .panicked "Got an http method we didn't expect: PATCH" }
    ∧ ((test.MockHTTPHandler.SetResponse notFoundWorld "http://test.com/page1.com" 0).2.heap
        0).Status = 404
    ∧ (test.MockHTTPHandler.ServeHTTP sampleURLString
        (test.MockHTTPHandler.SetResponse notFoundWorld "http://test.com/page1.com" 0).2
        (page1Request "GET") none).1.ending = .returned
    ∧ ((test.MockHTTPHandler.ServeHTTP sampleURLString
        (test.MockHTTPHandler.SetResponse notFoundWorld "http://test.com/page1.com" 0).2
        (page1Request "GET") none).1.reply sampleWire)
      = { StatusCode := 200
          Header := [("Content-Type", "text/html")]
          Body := "HTTP/1.1 404 Not Found\r\nContent-Length: 7\r\n\r\n<html/>" } := by
  refine ⟨fun method => ?_, by decide, by decide, by decide, by decide, by decide⟩
  unfold test.MockHTTPHandler.entry
  cases h : newWorld.handler.returns method with
  | none => rfl
  | some m =>
    simp only [newWorld, test.NewMockHTTPHandler] at h
    split at h
    · cases h
      rfl
    · cases h

/-- C25, amended. For a request whose method and URL have a registered response
`p`, `ServeHTTP` sets the header `Content-Type` to the `ContentType` of `p`, or to
`text/html` when that is empty, and passes one response to the response writer,
built from the fields of `p` with their defaults; it returns unless the write
fails; it stores the defaults in `p`; the reply carries that content type; and
serving the request again, as it was or as the first call left it, does the same
calls, ends the same way and gives the same reply. For a request with one of the
methods of the table and a URL with no registered response it returns without a
call on the response writer, which is an empty 200 OK, also when served again.
For a request with a method that the table has no map for it panics. All this
whatever the methods `String()` of `url.URL` and `Write` of `http.Response` do. -/
theorem serveHTTP_defaults (urlString : test.RequestURL → String)
    (wire : test.HTTPResponse → String) (w : test.World) (req : test.Request)
    (writeErr : Option String) :
    (∀ p, w.handler.entry req.Method (req.key urlString) = some p →
      (test.MockHTTPHandler.ServeHTTP urlString w req writeErr).1.calls
        = [.headerSet "Content-Type"
            (if (w.heap p).ContentType = "" then "text/html" else (w.heap p).ContentType),
          .responseWrite
            { RequestMethod := if (w.heap p).Method = "" then "GET" else (w.heap p).Method
              StatusCode := if (w.heap p).Status = 0 then 200 else (w.heap p).Status
              ProtoMajor := 1
              ProtoMinor := 1
              Body := (w.heap p).Body
              ContentLength := (w.heap p).Body.utf8ByteSize }]
      ∧ (writeErr = none →
          (test.MockHTTPHandler.ServeHTTP urlString w req writeErr).1.ending = .returned)
      ∧ (test.MockHTTPHandler.ServeHTTP urlString w req writeErr).2.1.handler = w.handler
      ∧ (test.MockHTTPHandler.ServeHTTP urlString w req writeErr).2.1.heap
        = w.heap.store p
            { Status := if (w.heap p).Status = 0 then 200 else (w.heap p).Status
              Method := if (w.heap p).Method = "" then "GET" else (w.heap p).Method
              Body := (w.heap p).Body
              ContentType :=
                if (w.heap p).ContentType = "" then "text/html" else (w.heap p).ContentType }
      ∧ ((test.MockHTTPHandler.ServeHTTP urlString w req writeErr).1.reply wire).Header
        = [("Content-Type",
            if (w.heap p).ContentType = "" then "text/html" else (w.heap p).ContentType)]
      ∧ (test.MockHTTPHandler.ServeHTTP urlString
            (test.MockHTTPHandler.ServeHTTP urlString w req writeErr).2.1 req writeErr).1
          = (test.MockHTTPHandler.ServeHTTP urlString w req writeErr).1
      ∧ (test.MockHTTPHandler.ServeHTTP urlString
            (test.MockHTTPHandler.ServeHTTP urlString w req writeErr).2.1
            (test.MockHTTPHandler.ServeHTTP urlString w req writeErr).2.2 writeErr).1
          = (test.MockHTTPHandler.ServeHTTP urlString w req writeErr).1)
    ∧ (∀ m, w.handler.returns req.Method = some m → m (req.key urlString) = none →
        test.MockHTTPHandler.ServeHTTP urlString w req writeErr
            = ({ calls := [], ending := .returned }, w, req.withSchemeAndHost)
        ∧ test.MockHTTPHandler.ServeHTTP urlString w req.withSchemeAndHost writeErr
            = ({ calls := [], ending := .returned }, w, req.withSchemeAndHost)
        ∧ (test.MockHTTPHandler.ServeHTTP urlString w req writeErr).1.reply wire
            = { StatusCode := 200, Header := [], Body := "" })
    ∧ (w.handler.returns req.Method = none →
        test.MockHTTPHandler.ServeHTTP urlString w req writeErr
          = ({ calls := []
               ending := .panicked ("Got an http method we didn't expect: " ++ req.Method) },
              w, req.withSchemeAndHost)) := by
  have hunreg : ∀ m, w.handler.returns req.Method = some m → m (req.key urlString) = none →
      test.MockHTTPHandler.ServeHTTP urlString w req writeErr
        = ({ calls := [], ending := .returned }, w, req.withSchemeAndHost) := by
    intro m hm hnone
    have hmeth : req.withSchemeAndHost.Method = req.Method := rfl
    unfold test.Request.key at hnone
    unfold test.MockHTTPHandler.ServeHTTP
    simp only [hmeth, hm, hnone]
  refine ⟨fun p h => ?_, fun m hm hnone => ⟨hunreg m hm hnone, ?_, ?_⟩, fun hnone => ?_⟩
  · obtain ⟨hc, he, hh, hheap, hreq⟩ := serveHTTP_of_entry urlString w req writeErr p h
    refine ⟨hc, fun hw => ?_, hh, hheap, ?_,
      serveHTTP_again urlString w req req writeErr p h rfl rfl, ?_⟩
    · rw [he, hw]
    · unfold test.Served.reply
      rw [hc]
      rfl
    · exact serveHTTP_again urlString w req _ writeErr p h (by rw [hreq]; rfl)
        (by rw [hreq]; rfl)
  · have hmeth : req.withSchemeAndHost.Method = req.Method := rfl
    unfold test.Request.key at hnone
    unfold test.MockHTTPHandler.ServeHTTP
    simp only [withSchemeAndHost_idem, hmeth, hm, hnone]
  · rw [hunreg m hm hnone]
    rfl
  · have hmeth : req.withSchemeAndHost.Method = req.Method := rfl
    unfold test.MockHTTPHandler.ServeHTTP
    simp only [hmeth, hnone]

/-- C25 on a response that sets only its body, registered for
`http://test.com/page1.com`: the request `GET` for it is answered with the content
type `text/html`, and the request `HEAD`, for which nothing is registered, gets no
call on the response writer and so an empty 200 OK. -/
theorem serveHTTP_defaults_witness :
    ((test.MockHTTPHandler.ServeHTTP sampleURLString
        (test.MockHTTPHandler.SetResponse newWorld "http://test.com/page1.com" 0).2
        (page1Request "GET") none).1.reply sampleWire).Header
      = [("Content-Type", "text/html")]
    ∧ (test.MockHTTPHandler.ServeHTTP sampleURLString
        (test.MockHTTPHandler.SetResponse newWorld "http://test.com/page1.com" 0).2
        (page1Request "GET") none).1.ending = .returned
    ∧ (test.MockHTTPHandler.ServeHTTP sampleURLString
        (test.MockHTTPHandler.SetResponse newWorld "http://test.com/page1.com" 0).2
        (page1Request "HEAD") none).1
      = { calls := [], ending := .returned }
    ∧ (test.MockHTTPHandler.ServeHTTP sampleURLString
        (test.MockHTTPHandler.SetResponse newWorld "http://test.com/page1.com" 0).2
        (page1Request "HEAD") none).1.reply sampleWire
      = { StatusCode := 200, Header := [], Body := "" } := by
  have h := (serveHTTP_defaults sampleURLString sampleWire
    (test.MockHTTPHandler.SetResponse newWorld "http://test.com/page1.com" 0).2
    (page1Request "GET") none).1 0 (by decide)
  have h2 := (serveHTTP_defaults sampleURLString sampleWire
    (test.MockHTTPHandler.SetResponse newWorld "http://test.com/page1.com" 0).2
    (page1Request "HEAD") none).2.1 (fun _ => none) rfl rfl
  refine ⟨h.2.2.2.2.1.trans (by decide), h.2.1 rfl, ?_, h2.2.2⟩
  rw [h2.1]

end walker
